import Mathlib

/-!
# Import module bindings (`src/Mod/Import/App/AppImportPy.cpp`)

A shallow embedding of the script-facing entry points of the Import module:
`open` / `insert` (`Module::importer`), `export` (`Module::exporter`), `readDXF`,
`writeDXFShape` and `writeDXFObject`.

The module only orchestrates calls into the geometry kernel (OpenCASCADE) and the
host application.  The embedding therefore records, for every run of an entry
point, the sequence of collaborator calls it makes (`Run.trace`) and how the call
ends (`Run.result`).  What the collaborators answer is supplied by an `Env`:

* calls that read, transfer, load, export or write geometry may return a status or
  throw a kernel exception (`OSD_Exception`, any other `Standard_Failure`) or a
  host exception (`Base::Exception`);
* constructors, setters, document lookup, `NewDocument`, `Close` and `recompute`
  return normally and are only recorded.
-/

namespace Import

/-! ## Values -/

/-- An `App::DocumentObject*` (for imported parts: a `Part::Feature*`). -/
abbrev ObjPtr := Nat

/-- An `App::Document*`. -/
abbrev DocPtr := Nat

/-- A `Handle(TDocStd_Document)`: the kernel document handle of one call. -/
abbrev DocHandle := Nat

/-- A `TopoDS_Shape`. -/
abbrev Shape := Nat

/-- An `App::Color`. -/
abbrev Color := Nat

/-- The kernel enumeration `IFSelect_ReturnStatus`. -/
inductive IFSelect_ReturnStatus where
  | IFSelect_RetVoid
  | IFSelect_RetDone
  | IFSelect_RetError
  | IFSelect_RetFail
  | IFSelect_RetStop
  deriving DecidableEq

open IFSelect_ReturnStatus

/-- Python objects as far as the entry points inspect or build them. -/
inductive PyObj where
  | none
  | bool (b : Bool)
  | int (n : Int)
  | str (s : String)
  | shape (s : Shape)
  | docObject (obj : ObjPtr)
  | colorList (colors : List Color)
  | tuple (items : List PyObj)
  | list (items : List PyObj)

/-- The Python error a call raises: the exception type and its message.
`setPyException` is the error that `Base::Exception::setPyException` sets for a
host exception with the given text; `parseError` is the error that a failed
`PyArg_ParseTuple` has set. -/
inductive PyErr where
  | parseError
  | PyExc_IOError (msg : String)
  | PyExc_TypeError (msg : String)
  | PyExc_RuntimeError (msg : String)
  | PyExc_FC_GeneralError (msg : String)
  | setPyException (what : String)
  deriving DecidableEq

/-- C++ exceptions a collaborator can throw.  `OSD_Exception` is a subclass of
`Standard_Failure`; the constructor `Standard_Failure` stands for every other
kernel failure. -/
inductive Fault where
  | OSD_Exception (msg : String)
  | Standard_Failure (msg : String)
  | Base_Exception (what : String)
  deriving DecidableEq

/-- What is in flight when a C++ `throw` unwinds: a collaborator's exception or a
`Py::Exception` created by the module itself. -/
inductive Thrown where
  | fault (f : Fault)
  | Py_Exception (e : PyErr)
  deriving DecidableEq

/-- Calls into collaborators, in the order they are made. -/
inductive Event where
  -- host application
  | getDocument (name : String)
  | newDocument
  | recompute (doc : DocPtr)
  | Console_Error (msg : String)
  | Console_Message (msg : String)
  | ImportStepParts (doc : DocPtr) (name : String)
  | ImportIgesParts (doc : DocPtr) (name : String)
  | getActiveDocument
  | newDocumentNamed (name : Option String)
  -- kernel application
  | NewDocument (h : DocHandle)
  | Close (h : DocHandle)
  | UpdateAssemblies (h : DocHandle)
  -- STEPCAFControl_Reader / IGESCAFControl_Reader
  | IGESControl_Controller_Init
  | StepReader_SetModes (color name layer : Bool)
  | StepReader_ReadFile (file : String)
  | StepReader_Transfer (h : DocHandle)
  | IgesReader_SetReadVisible (b : Bool)
  | IgesReader_SetModes (color name layer : Bool)
  | IgesReader_ReadFile (file : String)
  | IgesReader_Transfer (h : DocHandle)
  | IgesReader_SetModel
  | Progress_Show (text : String)
  | Progress_EndScope
  -- ImportOCAFExt
  | ImportOCAFExt_new (h : DocHandle) (doc : DocPtr) (name : String)
  | setImportOptions
  | setMerge (b : Bool)
  | setImportHiddenObject (b : Bool)
  | setUseLinkGroup (b : Bool)
  | setMode (mode : Int)
  | loadShapes
  -- ExportOCAF2 / ExportOCAF
  | ExportOCAF2_new (h : DocHandle)
  | canFallback (objs : List ObjPtr)
  | setExportOptions
  | setExportHiddenObject (b : Bool)
  | setKeepPlacement (b : Bool)
  | exportObjects (objs : List ObjPtr)
  | ExportOCAF_new (h : DocHandle) (keepExplicitPlacement : Bool)
  | exportObject (obj : ObjPtr)
  | getFreeLabels
  -- STEPCAFControl_Writer / IGESCAFControl_Writer / RWGltf_CafWriter
  | writeStepAssembly
  | StepWriter_Transfer (h : DocHandle)
  | StepWriter_Header (author company system description : String)
  | StepWriter_Write (file : String) (ret : Option IFSelect_ReturnStatus)
  | IgesWriter_Header (author company product : String)
  | IgesWriter_Transfer (h : DocHandle)
  | IgesWriter_Write (file : String) (ret : Option Bool)
  | GltfWriter_new (file : String) (binary : Bool)
  | GltfWriter_Configure (parallel : Bool)
  | GltfWriter_Perform (h : DocHandle) (ret : Option Bool)
  -- ImpExpDxfWrite / ImpExpDxfRead
  | ImpExpDxfWrite_new (filePath : String)
  | setOptionSource (src : String)
  | setOptions
  | setVersion (v : Int)
  | setPolyOverride (b : Bool)
  | setLayerName (name : String)
  | init
  | exportShape (s : Shape)
  | endRun
  | ImpExpDxfRead_new (file : String) (doc : DocPtr)
  | DoRead (ignoreErrors : Bool)

/-! Equality of calls is decided on a grouped copy of `Event`, one small type per
collaborator. -/

/-- The calls of one collaborator group: host application. -/
inductive HostCall where
  | getDocument (name : String)
  | newDocument
  | recompute (doc : DocPtr)
  | Console_Error (msg : String)
  | Console_Message (msg : String)
  | ImportStepParts (doc : DocPtr) (name : String)
  | ImportIgesParts (doc : DocPtr) (name : String)
  | getActiveDocument
  | newDocumentNamed (name : Option String)
  deriving DecidableEq

/-- The calls of one collaborator group: kernel application. -/
inductive KernelCall where
  | NewDocument (h : DocHandle)
  | Close (h : DocHandle)
  | UpdateAssemblies (h : DocHandle)
  deriving DecidableEq

/-- The calls of one collaborator group: STEPCAFControl_Reader / IGESCAFControl_Reader. -/
inductive ReaderCall where
  | IGESControl_Controller_Init
  | StepReader_SetModes (color name layer : Bool)
  | StepReader_ReadFile (file : String)
  | StepReader_Transfer (h : DocHandle)
  | IgesReader_SetReadVisible (b : Bool)
  | IgesReader_SetModes (color name layer : Bool)
  | IgesReader_ReadFile (file : String)
  | IgesReader_Transfer (h : DocHandle)
  | IgesReader_SetModel
  | Progress_Show (text : String)
  | Progress_EndScope
  deriving DecidableEq

/-- The calls of one collaborator group: ImportOCAFExt. -/
inductive OcafCall where
  | ImportOCAFExt_new (h : DocHandle) (doc : DocPtr) (name : String)
  | setImportOptions
  | setMerge (b : Bool)
  | setImportHiddenObject (b : Bool)
  | setUseLinkGroup (b : Bool)
  | setMode (mode : Int)
  | loadShapes
  deriving DecidableEq

/-- The calls of one collaborator group: ExportOCAF2 / ExportOCAF. -/
inductive ExporterCall where
  | ExportOCAF2_new (h : DocHandle)
  | canFallback (objs : List ObjPtr)
  | setExportOptions
  | setExportHiddenObject (b : Bool)
  | setKeepPlacement (b : Bool)
  | exportObjects (objs : List ObjPtr)
  | ExportOCAF_new (h : DocHandle) (keepExplicitPlacement : Bool)
  | exportObject (obj : ObjPtr)
  | getFreeLabels
  deriving DecidableEq

/-- The calls of one collaborator group: STEPCAFControl_Writer / IGESCAFControl_Writer / RWGltf_CafWriter. -/
inductive WriterCall where
  | writeStepAssembly
  | StepWriter_Transfer (h : DocHandle)
  | StepWriter_Header (author company system description : String)
  | StepWriter_Write (file : String) (ret : Option IFSelect_ReturnStatus)
  | IgesWriter_Header (author company product : String)
  | IgesWriter_Transfer (h : DocHandle)
  | IgesWriter_Write (file : String) (ret : Option Bool)
  | GltfWriter_new (file : String) (binary : Bool)
  | GltfWriter_Configure (parallel : Bool)
  | GltfWriter_Perform (h : DocHandle) (ret : Option Bool)
  deriving DecidableEq

/-- The calls of one collaborator group: ImpExpDxfWrite / ImpExpDxfRead. -/
inductive DxfCall where
  | ImpExpDxfWrite_new (filePath : String)
  | setOptionSource (src : String)
  | setOptions
  | setVersion (v : Int)
  | setPolyOverride (b : Bool)
  | setLayerName (name : String)
  | init
  | exportShape (s : Shape)
  | endRun
  | ImpExpDxfRead_new (file : String) (doc : DocPtr)
  | DoRead (ignoreErrors : Bool)
  deriving DecidableEq

/-- The grouped copy of `Event`. -/
inductive EventRep where
  | hostCall (c : HostCall)
  | kernelCall (c : KernelCall)
  | readerCall (c : ReaderCall)
  | ocafCall (c : OcafCall)
  | exporterCall (c : ExporterCall)
  | writerCall (c : WriterCall)
  | dxfCall (c : DxfCall)
  deriving DecidableEq

/-- A call in its group. -/
def Event.toRep : Event → EventRep
  | .getDocument name => .hostCall (.getDocument name)
  | .newDocument => .hostCall (.newDocument)
  | .recompute doc => .hostCall (.recompute doc)
  | .Console_Error msg => .hostCall (.Console_Error msg)
  | .Console_Message msg => .hostCall (.Console_Message msg)
  | .ImportStepParts doc name => .hostCall (.ImportStepParts doc name)
  | .ImportIgesParts doc name => .hostCall (.ImportIgesParts doc name)
  | .getActiveDocument => .hostCall .getActiveDocument
  | .newDocumentNamed name => .hostCall (.newDocumentNamed name)
  | .NewDocument h => .kernelCall (.NewDocument h)
  | .Close h => .kernelCall (.Close h)
  | .UpdateAssemblies h => .kernelCall (.UpdateAssemblies h)
  | .IGESControl_Controller_Init => .readerCall (.IGESControl_Controller_Init)
  | .StepReader_SetModes color name layer => .readerCall (.StepReader_SetModes color name layer)
  | .StepReader_ReadFile file => .readerCall (.StepReader_ReadFile file)
  | .StepReader_Transfer h => .readerCall (.StepReader_Transfer h)
  | .IgesReader_SetReadVisible b => .readerCall (.IgesReader_SetReadVisible b)
  | .IgesReader_SetModes color name layer => .readerCall (.IgesReader_SetModes color name layer)
  | .IgesReader_ReadFile file => .readerCall (.IgesReader_ReadFile file)
  | .IgesReader_Transfer h => .readerCall (.IgesReader_Transfer h)
  | .IgesReader_SetModel => .readerCall (.IgesReader_SetModel)
  | .Progress_Show text => .readerCall (.Progress_Show text)
  | .Progress_EndScope => .readerCall (.Progress_EndScope)
  | .ImportOCAFExt_new h doc name => .ocafCall (.ImportOCAFExt_new h doc name)
  | .setImportOptions => .ocafCall (.setImportOptions)
  | .setMerge b => .ocafCall (.setMerge b)
  | .setImportHiddenObject b => .ocafCall (.setImportHiddenObject b)
  | .setUseLinkGroup b => .ocafCall (.setUseLinkGroup b)
  | .setMode mode => .ocafCall (.setMode mode)
  | .loadShapes => .ocafCall (.loadShapes)
  | .ExportOCAF2_new h => .exporterCall (.ExportOCAF2_new h)
  | .canFallback objs => .exporterCall (.canFallback objs)
  | .setExportOptions => .exporterCall (.setExportOptions)
  | .setExportHiddenObject b => .exporterCall (.setExportHiddenObject b)
  | .setKeepPlacement b => .exporterCall (.setKeepPlacement b)
  | .exportObjects objs => .exporterCall (.exportObjects objs)
  | .ExportOCAF_new h keepExplicitPlacement => .exporterCall (.ExportOCAF_new h keepExplicitPlacement)
  | .exportObject obj => .exporterCall (.exportObject obj)
  | .getFreeLabels => .exporterCall (.getFreeLabels)
  | .writeStepAssembly => .writerCall (.writeStepAssembly)
  | .StepWriter_Transfer h => .writerCall (.StepWriter_Transfer h)
  | .StepWriter_Header author company system description => .writerCall (.StepWriter_Header author company system description)
  | .StepWriter_Write file ret => .writerCall (.StepWriter_Write file ret)
  | .IgesWriter_Header author company product => .writerCall (.IgesWriter_Header author company product)
  | .IgesWriter_Transfer h => .writerCall (.IgesWriter_Transfer h)
  | .IgesWriter_Write file ret => .writerCall (.IgesWriter_Write file ret)
  | .GltfWriter_new file binary => .writerCall (.GltfWriter_new file binary)
  | .GltfWriter_Configure parallel => .writerCall (.GltfWriter_Configure parallel)
  | .GltfWriter_Perform h ret => .writerCall (.GltfWriter_Perform h ret)
  | .ImpExpDxfWrite_new filePath => .dxfCall (.ImpExpDxfWrite_new filePath)
  | .setOptionSource src => .dxfCall (.setOptionSource src)
  | .setOptions => .dxfCall (.setOptions)
  | .setVersion v => .dxfCall (.setVersion v)
  | .setPolyOverride b => .dxfCall (.setPolyOverride b)
  | .setLayerName name => .dxfCall (.setLayerName name)
  | .init => .dxfCall (.init)
  | .exportShape s => .dxfCall (.exportShape s)
  | .endRun => .dxfCall (.endRun)
  | .ImpExpDxfRead_new file doc => .dxfCall (.ImpExpDxfRead_new file doc)
  | .DoRead ignoreErrors => .dxfCall (.DoRead ignoreErrors)

/-- The call a grouped call stands for. -/
def EventRep.toEvent : EventRep → Event
  | .hostCall (.getDocument name) => .getDocument name
  | .hostCall (.newDocument) => .newDocument
  | .hostCall (.recompute doc) => .recompute doc
  | .hostCall (.Console_Error msg) => .Console_Error msg
  | .hostCall (.Console_Message msg) => .Console_Message msg
  | .hostCall (.ImportStepParts doc name) => .ImportStepParts doc name
  | .hostCall (.ImportIgesParts doc name) => .ImportIgesParts doc name
  | .hostCall .getActiveDocument => .getActiveDocument
  | .hostCall (.newDocumentNamed name) => .newDocumentNamed name
  | .kernelCall (.NewDocument h) => .NewDocument h
  | .kernelCall (.Close h) => .Close h
  | .kernelCall (.UpdateAssemblies h) => .UpdateAssemblies h
  | .readerCall (.IGESControl_Controller_Init) => .IGESControl_Controller_Init
  | .readerCall (.StepReader_SetModes color name layer) => .StepReader_SetModes color name layer
  | .readerCall (.StepReader_ReadFile file) => .StepReader_ReadFile file
  | .readerCall (.StepReader_Transfer h) => .StepReader_Transfer h
  | .readerCall (.IgesReader_SetReadVisible b) => .IgesReader_SetReadVisible b
  | .readerCall (.IgesReader_SetModes color name layer) => .IgesReader_SetModes color name layer
  | .readerCall (.IgesReader_ReadFile file) => .IgesReader_ReadFile file
  | .readerCall (.IgesReader_Transfer h) => .IgesReader_Transfer h
  | .readerCall (.IgesReader_SetModel) => .IgesReader_SetModel
  | .readerCall (.Progress_Show text) => .Progress_Show text
  | .readerCall (.Progress_EndScope) => .Progress_EndScope
  | .ocafCall (.ImportOCAFExt_new h doc name) => .ImportOCAFExt_new h doc name
  | .ocafCall (.setImportOptions) => .setImportOptions
  | .ocafCall (.setMerge b) => .setMerge b
  | .ocafCall (.setImportHiddenObject b) => .setImportHiddenObject b
  | .ocafCall (.setUseLinkGroup b) => .setUseLinkGroup b
  | .ocafCall (.setMode mode) => .setMode mode
  | .ocafCall (.loadShapes) => .loadShapes
  | .exporterCall (.ExportOCAF2_new h) => .ExportOCAF2_new h
  | .exporterCall (.canFallback objs) => .canFallback objs
  | .exporterCall (.setExportOptions) => .setExportOptions
  | .exporterCall (.setExportHiddenObject b) => .setExportHiddenObject b
  | .exporterCall (.setKeepPlacement b) => .setKeepPlacement b
  | .exporterCall (.exportObjects objs) => .exportObjects objs
  | .exporterCall (.ExportOCAF_new h keepExplicitPlacement) => .ExportOCAF_new h keepExplicitPlacement
  | .exporterCall (.exportObject obj) => .exportObject obj
  | .exporterCall (.getFreeLabels) => .getFreeLabels
  | .writerCall (.writeStepAssembly) => .writeStepAssembly
  | .writerCall (.StepWriter_Transfer h) => .StepWriter_Transfer h
  | .writerCall (.StepWriter_Header author company system description) => .StepWriter_Header author company system description
  | .writerCall (.StepWriter_Write file ret) => .StepWriter_Write file ret
  | .writerCall (.IgesWriter_Header author company product) => .IgesWriter_Header author company product
  | .writerCall (.IgesWriter_Transfer h) => .IgesWriter_Transfer h
  | .writerCall (.IgesWriter_Write file ret) => .IgesWriter_Write file ret
  | .writerCall (.GltfWriter_new file binary) => .GltfWriter_new file binary
  | .writerCall (.GltfWriter_Configure parallel) => .GltfWriter_Configure parallel
  | .writerCall (.GltfWriter_Perform h ret) => .GltfWriter_Perform h ret
  | .dxfCall (.ImpExpDxfWrite_new filePath) => .ImpExpDxfWrite_new filePath
  | .dxfCall (.setOptionSource src) => .setOptionSource src
  | .dxfCall (.setOptions) => .setOptions
  | .dxfCall (.setVersion v) => .setVersion v
  | .dxfCall (.setPolyOverride b) => .setPolyOverride b
  | .dxfCall (.setLayerName name) => .setLayerName name
  | .dxfCall (.init) => .init
  | .dxfCall (.exportShape s) => .exportShape s
  | .dxfCall (.endRun) => .endRun
  | .dxfCall (.ImpExpDxfRead_new file doc) => .ImpExpDxfRead_new file doc
  | .dxfCall (.DoRead ignoreErrors) => .DoRead ignoreErrors

theorem Event.toEvent_toRep (e : Event) : e.toRep.toEvent = e := by
  cases e <;> rfl

instance : DecidableEq Event := fun a b =>
  decidable_of_iff (a.toRep = b.toRep)
    ⟨fun h => by
      have h2 := congrArg EventRep.toEvent h
      rw [Event.toEvent_toRep, Event.toEvent_toRep] at h2
      exact h2,
     fun h => by rw [h]⟩

/-! ## Runs: a trace of collaborator calls and an outcome -/

/-- One run of a piece of code: the calls it made and whether it completed with a
value or left through a C++ exception. -/
structure Run (α : Type) where
  trace : List Event
  result : Except Thrown α

namespace Run

/-- Sequencing: the second part runs only when the first completes. -/
def bind {α β : Type} (x : Run α) (f : α → Run β) : Run β :=
  match x.result with
  | .ok a => ⟨x.trace ++ (f a).trace, (f a).result⟩
  | .error t => ⟨x.trace, .error t⟩

instance : Monad Run where
  pure a := ⟨[], .ok a⟩
  bind := Run.bind

/-- A call that returns normally. -/
def emit (e : Event) : Run Unit := ⟨[e], .ok ()⟩

/-- A call whose outcome the environment supplies. -/
def call {α : Type} (e : Event) (outcome : Except Fault α) : Run α :=
  match outcome with
  | .ok a => ⟨[e], .ok a⟩
  | .error f => ⟨[e], .error (.fault f)⟩

/-- A C++ `throw`. -/
def raise {α : Type} (t : Thrown) : Run α := ⟨[], .error t⟩

/-- A C++ `try { body } catch ...`: `handler t` is the first matching catch clause
for `t`, or `none` when no clause matches and the exception keeps unwinding. -/
def tryCatch {α : Type} (body : Run α) (handler : Thrown → Option (Run α)) : Run α :=
  match body.result with
  | .ok _ => body
  | .error t =>
    match handler t with
    | some h => ⟨body.trace ++ h.trace, h.result⟩
    | none => body

/-- An `if` without `else`. -/
def whenever (c : Prop) [Decidable c] (body : Run Unit) : Run Unit :=
  if c then body else pure ()

end Run

open Run

/-! ## Base::FileInfo -/

/-- Modelled from the spec: `Base::FileInfo::extension` (`src/Base/FileInfo.cpp` is
not among the sources).  The extension is the text after the last dot of the file
name, empty when there is none. -/
def FileInfo.extension (FileName : String) : String :=
  if '.' ∈ FileName.toList then
    String.mk (FileName.toList.reverse.takeWhile (fun c => c != '.')).reverse
  else ""

/-- Lower-casing of ASCII letters, as the case-insensitive comparison does. -/
def toLowerStr (s : String) : String := String.mk (s.toList.map Char.toLower)

/-- Modelled from the spec: `Base::FileInfo::hasExtension` on a list of
extensions (`src/Base/FileInfo.cpp` is not among the sources).  The spec's Format
Dispatcher compares the extension case-insensitively; the file has the extension
when it matches one of the listed ones. -/
def FileInfo.hasExtension (FileName : String) (exts : List String) : Bool :=
  exts.any (fun e => toLowerStr e == toLowerStr (FileInfo.extension FileName))

/-! ## The environment -/

/-- What the collaborators answer during one call. -/
structure Env where
  /-- `App::GetApplication().getDocument(name)`; `none` is the null pointer. -/
  getDocument : String → Option DocPtr
  /-- The document `App::GetApplication().newDocument()` creates. -/
  newDocument : DocPtr
  /-- The handle `XCAFApp_Application::NewDocument` hands out. -/
  newHandle : DocHandle
  /-- `Part::encodeFilename`. -/
  encodeFilename : String → String
  /-- `Base::FileInfo::fileNamePure`. -/
  fileNamePure : String → String
  /-- `OCC_VERSION_HEX` of the kernel the module is built against. -/
  OCC_VERSION_HEX : Nat
  /-- The preference `Mod/Part/IGES/SkipBlankEntities` (default true). -/
  SkipBlankEntities : Bool
  /-- `STEPCAFControl_Reader::ReadFile`. -/
  stepReadFile : String → Except Fault IFSelect_ReturnStatus
  /-- `STEPCAFControl_Reader::Transfer`. -/
  stepTransfer : DocHandle → Except Fault Unit
  /-- `IGESCAFControl_Reader::ReadFile`. -/
  igesReadFile : String → Except Fault IFSelect_ReturnStatus
  /-- `IGESCAFControl_Reader::Transfer`. -/
  igesTransfer : DocHandle → Except Fault Unit
  /-- `Part::ImportStepParts`. -/
  ImportStepParts : DocPtr → String → Except Fault Unit
  /-- `Part::ImportIgesParts`. -/
  ImportIgesParts : DocPtr → String → Except Fault Unit
  /-- `ImportOCAF2::loadShapes`: the `applyFaceColors(part, colors)` calls it makes,
  in order, when it returns. -/
  loadShapes : DocHandle → DocPtr → Except Fault (List (ObjPtr × List Color))
  /-- `Part::OCAF::ImportExportSettings::getExportLegacy`. -/
  getExportLegacy : Bool
  /-- `ExportOCAF2::canFallback`. -/
  canFallback : List ObjPtr → Bool
  /-- `ExportOCAF2::exportObjects`. -/
  exportObjects : List ObjPtr → Except Fault Unit
  /-- `ExportOCAF::exportObject`. -/
  exportObject : ObjPtr → Except Fault Unit
  /-- The preferences `Mod/Part/STEP/Author` and `Company`, and the executable name. -/
  stepAuthor : String
  stepCompany : String
  executableName : String
  /-- `Part::Interface::writeIgesHeaderAuthor`, `...Company`, `...Product`. -/
  igesAuthor : String
  igesCompany : String
  igesProduct : String
  /-- `STEPCAFControl_Writer::Transfer` and `Write`. -/
  stepWriterTransfer : DocHandle → Except Fault Unit
  stepWrite : String → Except Fault IFSelect_ReturnStatus
  /-- `IGESCAFControl_Writer::Transfer` and `Write`. -/
  igesWriterTransfer : DocHandle → Except Fault Unit
  igesWrite : String → Except Fault Bool
  /-- `RWGltf_CafWriter::Perform`. -/
  gltfPerform : String → Bool → Except Fault Bool
  /-- `PyObject_TypeCheck(item, &Part::PartFeaturePy::Type)` for a document object. -/
  isPartFeature : ObjPtr → Bool
  /-- `getNameInDocument()` of a document object. -/
  getNameInDocument : ObjPtr → String
  /-- What `static_cast<Part::Feature*>(obj)->Shape.getValue()` reads.  For a
  `Part::Feature` this is its shape; the cast is unchecked, so for any other
  object it is whatever the read yields. -/
  shapeValue : ObjPtr → Shape
  /-- `ImpExpDxfWrite::exportShape`. -/
  exportShape : Shape → Except Fault Unit
  /-- `Base::FileInfo::exists`. -/
  fileExists : String → Bool
  /-- `App::GetApplication().getActiveDocument()`; `none` is the null pointer. -/
  getActiveDocument : Option DocPtr
  /-- `ImpExpDxfRead::DoRead`. -/
  DoRead : String → Bool → Except Fault Unit

/-! ## `Module::importer` (`open`, `insert`) -/

/-- The arguments of `open` / `insert` after `Wrapped_ParseTupleAndKeywords`
(`"et|sO!O!O!i"`); `none` is an omitted argument (`nullptr`, `Py_None`). -/
structure ImporterArgs where
  Name : String
  DocName : Option String := none
  importHidden : Option Bool := none
  merge : Option Bool := none
  useLinkGroup : Option Bool := none
  mode : Int := -1

/-- `std::map<Part::Feature*, std::vector<App::Color>>`: entries in ascending key
order, one per key. -/
abbrev PartColors := List (ObjPtr × List Color)

/-- `partColors[part] = colors`: insert a new key in order or overwrite the value
of an existing key. -/
def PartColors.assign : PartColors → ObjPtr → List Color → PartColors
  | [], part, colors => [(part, colors)]
  | (k, v) :: rest, part, colors =>
    if part < k then (part, colors) :: (k, v) :: rest
    else if part = k then (k, colors) :: rest
    else (k, v) :: PartColors.assign rest part colors

/-- `ImportOCAFExt::applyFaceColors`. -/
def applyFaceColors (partColors : PartColors) (part : ObjPtr) (colors : List Color) :
    PartColors :=
  partColors.assign part colors

/-- Lines 166--172: the target document. -/
def targetDocument (env : Env) (DocName : Option String) : Run DocPtr :=
  match DocName with
  | some name => do
    emit (.getDocument name)
    match env.getDocument name with
    | some pcDoc => pure pcDoc
    | none => do
      emit .newDocument
      pure env.newDocument
  | none => do
    emit .newDocument
    pure env.newDocument

/-- Lines 180--198: the body of the inner `try` of the STEP branch. -/
def stepColoredAttempt (env : Env) (hDoc : DocHandle) (name8bit : String) : Run Unit := do
  emit (.StepReader_SetModes true true true)
  let status ← call (.StepReader_ReadFile name8bit) (env.stepReadFile name8bit)
  whenever (status ≠ IFSelect_RetDone)
    (raise (.Py_Exception (.PyExc_IOError "cannot read STEP file")))
  whenever (env.OCC_VERSION_HEX < 0x070500)
    (emit (.Progress_Show "Reading STEP file..."))
  call (.StepReader_Transfer hDoc) (env.stepTransfer hDoc)
  whenever (env.OCC_VERSION_HEX < 0x070500)
    (emit .Progress_EndScope)

/-- Lines 200--206: `catch (OSD_Exception& e)` of the STEP branch. -/
def stepFallback (env : Env) (pcDoc : DocPtr) (Utf8Name : String) :
    Thrown → Option (Run Unit)
  | .fault (.OSD_Exception msg) => some (do
      emit (.Console_Error (msg ++ "\n"))
      emit (.Console_Message "Try to load STEP file without colors...\n")
      call (.ImportStepParts pcDoc Utf8Name) (env.ImportStepParts pcDoc Utf8Name)
      emit (.recompute pcDoc))
  | _ => none

/-- Lines 217--242: the body of the inner `try` of the IGES branch. -/
def igesColoredAttempt (env : Env) (hDoc : DocHandle) (name8bit : String) : Run Unit := do
  emit .IGESControl_Controller_Init
  emit (.IgesReader_SetReadVisible env.SkipBlankEntities)
  emit (.IgesReader_SetModes true true true)
  let status ← call (.IgesReader_ReadFile name8bit) (env.igesReadFile name8bit)
  whenever (status ≠ IFSelect_RetDone)
    (raise (.Py_Exception (.PyExc_IOError "cannot read IGES file")))
  whenever (env.OCC_VERSION_HEX < 0x070500)
    (emit (.Progress_Show "Reading IGES file..."))
  call (.IgesReader_Transfer hDoc) (env.igesTransfer hDoc)
  whenever (env.OCC_VERSION_HEX < 0x070500)
    (emit .Progress_EndScope)
  emit .IgesReader_SetModel

/-- Lines 244--250: `catch (OSD_Exception& e)` of the IGES branch. -/
def igesFallback (env : Env) (pcDoc : DocPtr) (Utf8Name : String) :
    Thrown → Option (Run Unit)
  | .fault (.OSD_Exception msg) => some (do
      emit (.Console_Error (msg ++ "\n"))
      emit (.Console_Message "Try to load IGES file without colors...\n")
      call (.ImportIgesParts pcDoc Utf8Name) (env.ImportIgesParts pcDoc Utf8Name)
      emit (.recompute pcDoc))
  | _ => none

/-- Lines 178--254: the dispatch on the file extension. -/
def readFileByExtension (env : Env) (Utf8Name name8bit : String) (pcDoc : DocPtr)
    (hDoc : DocHandle) : Run Unit :=
  if FileInfo.hasExtension Utf8Name ["stp", "step"] then
    tryCatch (stepColoredAttempt env hDoc name8bit) (stepFallback env pcDoc Utf8Name)
  else if FileInfo.hasExtension Utf8Name ["igs", "iges"] then
    tryCatch (igesColoredAttempt env hDoc name8bit) (igesFallback env pcDoc Utf8Name)
  else
    raise (.Py_Exception (.PyExc_IOError "no supported file format"))

/-- A setter that is called only when the caller supplied the value
(`if (x != Py_None) ocaf.setX(Base::asBoolean(x))`). -/
def whenGiven (x : Option Bool) (setter : Bool → Event) : Run Unit :=
  match x with
  | some b => emit (setter b)
  | none => pure ()

/-- Lines 256--270: configure `ImportOCAFExt` and load the shapes; the value is
`ocaf.partColors` afterwards. -/
def loadWithColors (env : Env) (a : ImporterArgs) (pcDoc : DocPtr) (hDoc : DocHandle) :
    Run PartColors := do
  emit (.ImportOCAFExt_new hDoc pcDoc (env.fileNamePure a.Name))
  emit .setImportOptions
  whenGiven a.merge .setMerge
  whenGiven a.importHidden .setImportHiddenObject
  whenGiven a.useLinkGroup .setUseLinkGroup
  whenever (a.mode ≥ 0)
    (emit (.setMode a.mode))
  let applied ← call .loadShapes (env.loadShapes hDoc pcDoc)
  pure (applied.foldl (fun partColors pc => applyFaceColors partColors pc.1 pc.2) [])

/-- Lines 274--288: the list of `(part, colors)` tuples built from `partColors`. -/
def colorTuples (partColors : PartColors) : PyObj :=
  .list (partColors.map (fun it => .tuple [.docObject it.1, .colorList it.2]))

/-- Lines 164--288: the body of the outer `try`.  `some v` is a `return v` inside
the `try`; `none` means the body ran to its end. -/
def importerBody (env : Env) (a : ImporterArgs) : Run (Option PyObj) := do
  let Utf8Name := a.Name
  let name8bit := env.encodeFilename Utf8Name
  let pcDoc ← targetDocument env a.DocName
  let hDoc := env.newHandle
  emit (.NewDocument hDoc)
  readFileByExtension env Utf8Name name8bit pcDoc hDoc
  let partColors ← loadWithColors env a pcDoc hDoc
  emit (.Close hDoc)
  if partColors.isEmpty = false then
    pure (some (colorTuples partColors))
  else
    pure none

/-- The catch clauses that close `importer` and `exporter`:
`catch (Standard_Failure& e)` re-raises as `FC_GeneralError` with the kernel
message, `catch (const Base::Exception& e)` re-raises what `setPyException` sets;
a `Py::Exception` matches neither. -/
def translateAtBoundary {α : Type} : Thrown → Option (Run α)
  | .fault (.OSD_Exception msg) => some (raise (.Py_Exception (.PyExc_FC_GeneralError msg)))
  | .fault (.Standard_Failure msg) => some (raise (.Py_Exception (.PyExc_FC_GeneralError msg)))
  | .fault (.Base_Exception what) => some (raise (.Py_Exception (.setPyException what)))
  | .Py_Exception _ => none

/-- `Module::importer`, lines 132--299, after argument parsing. -/
def importer (env : Env) (a : ImporterArgs) : Run PyObj := do
  let returned ← tryCatch (importerBody env a) translateAtBoundary
  match returned with
  | some v => pure v
  | none => pure .none

/-! ## `Module::exporter` (`export`) -/

/-- The arguments of `export` after `Wrapped_ParseTupleAndKeywords`
(`"Oet|O!O!O!"`); `none` is `Py_None`, an argument the caller did not give. -/
structure ExporterArgs where
  object : PyObj
  Name : String
  exportHidden : Option Bool := none
  legacy : Option Bool := none
  keepPlacement : Option Bool := none

/-- `Py::Sequence list(object)`: the items of a Python sequence; `none` when the
object is no sequence and the constructor throws a `TypeError`. -/
def asSequence : PyObj → Option (List PyObj)
  | .list items => some items
  | .tuple items => some items
  | .str s => some (s.toList.map (fun c => .str (String.singleton c)))
  | _ => none

/-- `PyObject_TypeCheck(item, &(App::DocumentObjectPy::Type))` followed by
`getDocumentObjectPtr()`. -/
def asDocumentObject : PyObj → Option ObjPtr
  | .docObject obj => some obj
  | _ => none

/-- Lines 339--346: the document objects among the entries, in order. -/
def resolveObjects (list : List PyObj) : List ObjPtr :=
  list.filterMap asDocumentObject

/-- A `for` loop whose body may throw. -/
def forEach {α : Type} (body : α → Run Unit) : List α → Run Unit
  | [] => pure ()
  | x :: rest => do
    body x
    forEach body rest

/-- Lines 348--351: the caller's `legacy`, or the persisted default when it is
`Py_None`. -/
def effectiveLegacy (env : Env) (legacy : Option Bool) : Bool :=
  match legacy with
  | some b => b
  | none => env.getExportLegacy

/-- Line 354, `!Base::asBoolean(legacy) || !ocaf.canFallback(objs)`: `canFallback`
is called only when `legacy` is true. -/
def useFullExporter (env : Env) (legacy : Bool) (objs : List ObjPtr) : Run Bool :=
  if !legacy then pure true
  else do
    emit (.canFallback objs)
    pure (!env.canFallback objs)

/-- Lines 348--384: the legacy decision and the export of the objects into the
kernel document. -/
def exportToDocument (env : Env) (a : ExporterArgs) (hDoc : DocHandle) (objs : List ObjPtr) :
    Run Unit := do
  let legacy := effectiveLegacy env a.legacy
  emit (.ExportOCAF2_new hDoc)
  let full ← useFullExporter env legacy objs
  if full then
    emit .setExportOptions
    whenGiven a.exportHidden .setExportHiddenObject
    whenGiven a.keepPlacement .setKeepPlacement
    call (.exportObjects objs) (env.exportObjects objs)
  else
    emit (.ExportOCAF_new hDoc true)
    forEach (fun obj => call (.exportObject obj) (env.exportObject obj)) objs
    emit .getFreeLabels
    emit (.UpdateAssemblies hDoc)

/-- The message of `PyErr_Format(PyExc_IOError, "Cannot open file '%s'", Utf8Name)`. -/
def cannotOpenFile (Utf8Name : String) : String := "Cannot open file '" ++ Utf8Name ++ "'"

/-- The message of `PyErr_Format(PyExc_IOError, "Cannot save to file '%s'", Utf8Name)`. -/
def cannotSaveToFile (Utf8Name : String) : String := "Cannot save to file '" ++ Utf8Name ++ "'"

/-- Lines 388--416: the STEP writer. -/
def writeStep (env : Env) (Utf8Name name8bit : String) (hDoc : DocHandle) : Run Unit := do
  emit .writeStepAssembly
  call (.StepWriter_Transfer hDoc) (env.stepWriterTransfer hDoc)
  emit (.StepWriter_Header env.stepAuthor env.stepCompany env.executableName "FreeCAD Model")
  let ret ← call (.StepWriter_Write name8bit (env.stepWrite name8bit).toOption)
    (env.stepWrite name8bit)
  whenever (ret = IFSelect_RetError ∨ ret = IFSelect_RetFail ∨ ret = IFSelect_RetStop)
    (raise (.Py_Exception (.PyExc_IOError (cannotOpenFile Utf8Name))))

/-- Lines 419--434: the IGES writer. -/
def writeIges (env : Env) (Utf8Name name8bit : String) (hDoc : DocHandle) : Run Unit := do
  emit .IGESControl_Controller_Init
  emit (.IgesWriter_Header env.igesAuthor env.igesCompany env.igesProduct)
  call (.IgesWriter_Transfer hDoc) (env.igesWriterTransfer hDoc)
  let ret ← call (.IgesWriter_Write name8bit (env.igesWrite name8bit).toOption)
    (env.igesWrite name8bit)
  whenever (ret = false)
    (raise (.Py_Exception (.PyExc_IOError (cannotOpenFile Utf8Name))))

/-- Lines 437--455: the glTF writer, compiled in only for OCCT 7.5.0 or later. -/
def writeGltf (env : Env) (Utf8Name name8bit : String) (hDoc : DocHandle) : Run Unit :=
  if env.OCC_VERSION_HEX ≥ 0x070500 then do
    let binary := FileInfo.hasExtension Utf8Name ["glb"]
    emit (.GltfWriter_new name8bit binary)
    emit (.GltfWriter_Configure (decide (env.OCC_VERSION_HEX ≥ 0x070700)))
    let ret ← call (.GltfWriter_Perform hDoc (env.gltfPerform name8bit binary).toOption)
      (env.gltfPerform name8bit binary)
    whenever (ret = false)
      (raise (.Py_Exception (.PyExc_IOError (cannotSaveToFile Utf8Name))))
  else
    raise (.Py_Exception (.PyExc_RuntimeError "gITF support requires OCCT 7.5.0 or later"))

/-- Lines 386--456: the dispatch on the extension of the target path. -/
def writeByExtension (env : Env) (Utf8Name name8bit : String) (hDoc : DocHandle) : Run Unit :=
  if FileInfo.hasExtension Utf8Name ["stp", "step"] then
    writeStep env Utf8Name name8bit hDoc
  else if FileInfo.hasExtension Utf8Name ["igs", "iges"] then
    writeIges env Utf8Name name8bit hDoc
  else if FileInfo.hasExtension Utf8Name ["glb", "gltf"] then
    writeGltf env Utf8Name name8bit hDoc
  else
    pure ()

/-- Lines 334--458: the body of the `try` of `exporter`. -/
def exporterBody (env : Env) (a : ExporterArgs) : Run Unit := do
  let Utf8Name := a.Name
  let name8bit := env.encodeFilename Utf8Name
  let list ← (match asSequence a.object with
    | some items => pure items
    | none => raise (.Py_Exception (.PyExc_TypeError "PyCXX: Error creating object of type Py::Sequence")))
  let hDoc := env.newHandle
  emit (.NewDocument hDoc)
  let objs := resolveObjects list
  exportToDocument env a hDoc objs
  writeByExtension env Utf8Name name8bit hDoc
  emit (.Close hDoc)

/-- `Module::exporter`, lines 300--469, after argument parsing. -/
def exporter (env : Env) (a : ExporterArgs) : Run PyObj := do
  tryCatch (exporterBody env a) translateAtBoundary
  pure .none

/-! ## `Module::writeDXFShape` and `Module::writeDXFObject` -/

/-- The variables that the units `et|iOs` of a successful
`PyArg_ParseTuple(args, "O!et|iOs", ...)` leave behind; the optional ones keep
their initial values (`-1`, `Py_False`, `nullptr`) when the caller gave fewer
arguments. -/
structure DxfOptions where
  fname : String
  versionParm : Int := -1
  usePolyline : PyObj := .bool false
  optionSource : Option String := none

/-- The unit `i` of the format: a Python integer within the range of a C `int`
(`True` and `False` are the integers 1 and 0). -/
def parseInt : PyObj → Option Int
  | .int n => if -2147483648 ≤ n ∧ n ≤ 2147483647 then some n else none
  | .bool b => some (if b then 1 else 0)
  | _ => none

/-- The units `et` and `s` of the format: a Python string without an embedded
null character (the conversion to a C string rejects a string that holds
one). -/
def parseStr : PyObj → Option String
  | .str s => if Char.ofNat 0 ∈ s.toList then none else some s
  | _ => none

/-- The units `et|iOs` of the format on the arguments after the first: the file
name, and up to three optional arguments. -/
def parseDxfOptions : List PyObj → Option DxfOptions
  | [f] =>
    match parseStr f with
    | some fname => some { fname := fname }
    | none => none
  | [f, v] =>
    match parseStr f, parseInt v with
    | some fname, some n => some { fname := fname, versionParm := n }
    | _, _ => none
  | [f, v, u] =>
    match parseStr f, parseInt v with
    | some fname, some n => some { fname := fname, versionParm := n, usePolyline := u }
    | _, _ => none
  | [f, v, u, src] =>
    match parseStr f, parseInt v, parseStr src with
    | some fname, some n, some optionSource =>
      some { fname := fname, versionParm := n, usePolyline := u,
             optionSource := some optionSource }
    | _, _, _ => none
  | _ => none

/-- `PyArg_ParseTuple(args, "O!et|iOs", &T, &obj, ...)`: the first argument must
be an instance of the type `T` (`accepts`); the value is that argument and the
variables of the remaining units. -/
def parseDxfArgs (accepts : PyObj → Bool) : List PyObj → Option (PyObj × DxfOptions)
  | obj :: rest =>
    if accepts obj then
      match parseDxfOptions rest with
      | some opts => some (obj, opts)
      | none => none
    else none
  | [] => none

/-- `&(PyList_Type)`. -/
def isPyList : PyObj → Bool
  | .list _ => true
  | _ => false

/-- `&(Part::TopoShapePy::Type)`. -/
def isTopoShapePy : PyObj → Bool
  | .shape _ => true
  | _ => false

/-- `&(App::DocumentObjectPy::Type)`. -/
def isDocumentObjectPy : PyObj → Bool
  | .docObject _ => true
  | _ => false

/-- `usePolyline == Py_True`: identity with the `True` object. -/
def isPyTrue : PyObj → Bool
  | .bool true => true
  | _ => false

/-- The writer set-up that each of the four parse branches repeats (lines 551--574,
602--625, 662--686, 718--742): construct the writer, apply the option source, the
version and polyline overrides and the layer name `"none"`, then `init`. -/
def dxfWriterSetup (p : DxfOptions) : Run Unit := do
  let filePath := p.fname
  let layerName := "none"
  let versionOverride : Bool := decide (p.versionParm = 12 ∨ p.versionParm = 14)
  let polyOverride : Bool := isPyTrue p.usePolyline
  let defaultOptions := match p.optionSource with
    | some src => src
    | none => "User parameter:BaseApp/Preferences/Mod/Import"
  emit (.ImpExpDxfWrite_new filePath)
  emit (.setOptionSource defaultOptions)
  emit .setOptions
  whenever (versionOverride = true)
    (emit (.setVersion p.versionParm))
  emit (.setPolyOverride polyOverride)
  emit (.setLayerName layerName)
  emit .init

/-- `catch (const Base::Exception& e) { throw Py::RuntimeError(e.what()); }`: the
only catch clause of the DXF writers. -/
def dxfCatch {α : Type} : Thrown → Option (Run α)
  | .fault (.Base_Exception what) => some (raise (.Py_Exception (.PyExc_RuntimeError what)))
  | _ => none

/-- Lines 577--582: one entry of the list passed to `writeDXFShape`. -/
def exportShapeItem (env : Env) : PyObj → Run Unit
  | .shape s => call (.exportShape s) (env.exportShape s)
  | _ => pure ()

/-- Lines 566--585: the `try` body of the list form of `writeDXFShape`. -/
def writeShapeList (env : Env) (shapeObj : PyObj) (p : DxfOptions) : Run PyObj := do
  dxfWriterSetup p
  forEach (exportShapeItem env) ((asSequence shapeObj).getD [])
  emit .endRun
  pure .none

/-- Lines 617--630: the `try` body of the single-shape form of `writeDXFShape`. -/
def writeShapeSingle (env : Env) (shapeObj : PyObj) (p : DxfOptions) : Run PyObj := do
  dxfWriterSetup p
  match shapeObj with
  | .shape s => call (.exportShape s) (env.exportShape s)
  | _ => pure ()
  emit .endRun
  pure .none

/-- `Module::writeDXFShape`, lines 528--638. -/
def writeDXFShape (env : Env) (args : List PyObj) : Run PyObj :=
  match parseDxfArgs isPyList args with
  | some (shapeObj, p) => tryCatch (writeShapeList env shapeObj p) dxfCatch
  | none =>
    match parseDxfArgs isTopoShapePy args with
    | some (shapeObj, p) => tryCatch (writeShapeSingle env shapeObj p) dxfCatch
    | none => raise (.Py_Exception (.PyExc_TypeError "expected ([Shape],path"))

/-- Lines 743--749: export one document object as a `Part::Feature`; the cast from
`App::DocumentObject*` is a `static_cast` without a type check. -/
def exportFeature (env : Env) (obj : ObjPtr) : Run Unit := do
  let layerName := env.getNameInDocument obj
  emit (.setLayerName layerName)
  let shape := env.shapeValue obj
  call (.exportShape shape) (env.exportShape shape)

/-- Lines 689--698: one entry of the list passed to `writeDXFObject`; only entries
of type `Part::PartFeaturePy` are exported. -/
def exportObjectItem (env : Env) : PyObj → Run Unit
  | .docObject obj => if env.isPartFeature obj then exportFeature env obj else pure ()
  | _ => pure ()

/-- Lines 678--701: the `try` body of the list form of `writeDXFObject`. -/
def writeObjectList (env : Env) (docObj : PyObj) (p : DxfOptions) : Run PyObj := do
  dxfWriterSetup p
  forEach (exportObjectItem env) ((asSequence docObj).getD [])
  emit .endRun
  pure .none

/-- Lines 734--751: the `try` body of the single-object form of `writeDXFObject`. -/
def writeObjectSingle (env : Env) (docObj : PyObj) (p : DxfOptions) : Run PyObj := do
  dxfWriterSetup p
  match docObj with
  | .docObject obj => exportFeature env obj
  | _ => pure ()
  emit .endRun
  pure .none

/-- `Module::writeDXFObject`, lines 640--759. -/
def writeDXFObject (env : Env) (args : List PyObj) : Run PyObj :=
  match parseDxfArgs isPyList args with
  | some (docObj, p) => tryCatch (writeObjectList env docObj p) dxfCatch
  | none =>
    match parseDxfArgs isDocumentObjectPy args with
    | some (docObj, p) => tryCatch (writeObjectSingle env docObj p) dxfCatch
    | none => raise (.Py_Exception (.PyExc_TypeError "expected ([DocObject],path"))

/-! ## `Module::readDXF` -/

/-- The variables `PyArg_ParseTuple(args, "et|sbs", ...)` fills; the optional ones
keep their initial values (`nullptr`, `true`, `nullptr`) when the caller gave
fewer arguments. -/
structure ReadDxfArgs where
  Name : String
  DocName : Option String := none
  IgnoreErrors : Bool := true
  optionSource : Option String := none

/-- The unit `b` of the format: a Python integer from 0 to 255, stored into the
`bool` variable `IgnoreErrors`; the flag is set for every value but 0. -/
def parseFlag : PyObj → Option Bool
  | .int n => if 0 ≤ n ∧ n ≤ 255 then some (decide (n ≠ 0)) else none
  | .bool b => some b
  | _ => none

/-- `PyArg_ParseTuple(args, "et|sbs", ...)`. -/
def parseReadDxfArgs : List PyObj → Option ReadDxfArgs
  | [f] =>
    match parseStr f with
    | some Name => some { Name := Name }
    | none => none
  | [f, d] =>
    match parseStr f, parseStr d with
    | some Name, some DocName => some { Name := Name, DocName := some DocName }
    | _, _ => none
  | [f, d, i] =>
    match parseStr f, parseStr d, parseFlag i with
    | some Name, some DocName, some flag =>
      some { Name := Name, DocName := some DocName, IgnoreErrors := flag }
    | _, _, _ => none
  | [f, d, i, src] =>
    match parseStr f, parseStr d, parseFlag i, parseStr src with
    | some Name, some DocName, some flag, some optionSource =>
      some { Name := Name, DocName := some DocName, IgnoreErrors := flag,
             optionSource := some optionSource }
    | _, _, _, _ => none
  | _ => none

/-- Lines 500--509: the document to read into. -/
def readTarget (env : Env) (DocName : Option String) : Run DocPtr := do
  let found ← (match DocName with
    | some name => do
      emit (.getDocument name)
      pure (env.getDocument name)
    | none => do
      emit .getActiveDocument
      pure env.getActiveDocument)
  match found with
  | some pcDoc => pure pcDoc
  | none => do
    emit (.newDocumentNamed DocName)
    pure env.newDocument

/-- Lines 511--518: the body of the `try` of `readDXF`. -/
def readDxfFile (env : Env) (EncodedName defaultOptions : String) (IgnoreErrors : Bool)
    (pcDoc : DocPtr) : Run Unit := do
  emit (.ImpExpDxfRead_new EncodedName pcDoc)
  emit (.setOptionSource defaultOptions)
  emit .setOptions
  call (.DoRead IgnoreErrors) (env.DoRead EncodedName IgnoreErrors)
  emit (.recompute pcDoc)

/-- Lines 519--524: the catch clauses of `readDXF`; both re-raise as a
`RuntimeError`. -/
def readDxfCatch {α : Type} : Thrown → Option (Run α)
  | .fault (.OSD_Exception msg) => some (raise (.Py_Exception (.PyExc_RuntimeError msg)))
  | .fault (.Standard_Failure msg) => some (raise (.Py_Exception (.PyExc_RuntimeError msg)))
  | .fault (.Base_Exception what) => some (raise (.Py_Exception (.PyExc_RuntimeError what)))
  | .Py_Exception _ => none

/-- `Module::readDXF`, lines 471--526. -/
def readDXF (env : Env) (args : List PyObj) : Run PyObj :=
  match parseReadDxfArgs args with
  | none => raise (.Py_Exception .parseError)
  | some a => do
    let EncodedName := a.Name
    whenever (env.fileExists EncodedName = false)
      (raise (.Py_Exception (.PyExc_RuntimeError "File doesn't exist")))
    let defaultOptions := match a.optionSource with
      | some src => src
      | none => "User parameter:BaseApp/Preferences/Mod/Draft"
    let pcDoc ← readTarget env a.DocName
    tryCatch (readDxfFile env EncodedName defaultOptions a.IgnoreErrors pcDoc) readDxfCatch
    pure .none

/-- A sample environment: every collaborator succeeds, no part gets colors. -/
def sampleEnv : Env where
  getDocument := fun _ => none
  newDocument := 1
  newHandle := 7
  encodeFilename := fun s => s
  fileNamePure := fun s => s
  OCC_VERSION_HEX := 0x070600
  SkipBlankEntities := true
  stepReadFile := fun _ => .ok IFSelect_RetDone
  stepTransfer := fun _ => .ok ()
  igesReadFile := fun _ => .ok IFSelect_RetDone
  igesTransfer := fun _ => .ok ()
  ImportStepParts := fun _ _ => .ok ()
  ImportIgesParts := fun _ _ => .ok ()
  loadShapes := fun _ _ => .ok []
  getExportLegacy := false
  canFallback := fun _ => true
  exportObjects := fun _ => .ok ()
  exportObject := fun _ => .ok ()
  stepAuthor := "Author"
  stepCompany := ""
  executableName := "FreeCAD"
  igesAuthor := "FreeCAD"
  igesCompany := "FreeCAD"
  igesProduct := "FreeCAD"
  stepWriterTransfer := fun _ => .ok ()
  stepWrite := fun _ => .ok IFSelect_RetDone
  igesWriterTransfer := fun _ => .ok ()
  igesWrite := fun _ => .ok true
  gltfPerform := fun _ _ => .ok true
  isPartFeature := fun _ => true
  getNameInDocument := fun _ => "Body"
  shapeValue := fun p => p
  exportShape := fun _ => .ok ()
  fileExists := fun _ => true
  getActiveDocument := none
  DoRead := fun _ _ => .ok ()

/-! ## General facts about runs -/

@[simp] theorem Run.pure_trace {α : Type} (a : α) : (pure a : Run α).trace = [] := rfl

@[simp] theorem Run.pure_result {α : Type} (a : α) : (pure a : Run α).result = .ok a := rfl

@[simp] theorem Run.emit_trace (e : Event) : (emit e).trace = [e] := rfl

@[simp] theorem Run.emit_result (e : Event) : (emit e).result = .ok () := rfl

@[simp] theorem Run.raise_trace {α : Type} (t : Thrown) : (raise t : Run α).trace = [] := rfl

@[simp] theorem Run.raise_result {α : Type} (t : Thrown) :
    (raise t : Run α).result = .error t := rfl

@[simp] theorem Run.call_trace {α : Type} (e : Event) (o : Except Fault α) :
    (call e o).trace = [e] := by
  cases o <;> rfl

@[simp] theorem Run.call_result_ok {α : Type} (e : Event) (v : α) :
    (call e (.ok v)).result = .ok v := rfl

@[simp] theorem Run.call_result_error {α : Type} (e : Event) (f : Fault) :
    (call e (.error f : Except Fault α)).result = .error (.fault f) := rfl

theorem Run.pure_bind {α β : Type} (a : α) (f : α → Run β) : (pure a >>= f) = f a := by
  show Run.bind (pure a) f = f a
  unfold Run.bind
  simp

theorem Run.bind_eq {α β : Type} (x : Run α) (f : α → Run β) : (x >>= f) = Run.bind x f := rfl

@[simp] theorem Run.bind_trace_ok {α β : Type} (x : Run α) (f : α → Run β) (v : α)
    (h : x.result = .ok v) : (x >>= f).trace = x.trace ++ (f v).trace := by
  simp [Run.bind_eq, Run.bind, h]

@[simp] theorem Run.bind_result_ok {α β : Type} (x : Run α) (f : α → Run β) (v : α)
    (h : x.result = .ok v) : (x >>= f).result = (f v).result := by
  simp [Run.bind_eq, Run.bind, h]

@[simp] theorem Run.bind_trace_error {α β : Type} (x : Run α) (f : α → Run β) (t : Thrown)
    (h : x.result = .error t) : (x >>= f).trace = x.trace := by
  simp [Run.bind_eq, Run.bind, h]

@[simp] theorem Run.bind_result_error {α β : Type} (x : Run α) (f : α → Run β) (t : Thrown)
    (h : x.result = .error t) : (x >>= f).result = .error t := by
  simp [Run.bind_eq, Run.bind, h]

/-- Every call made during the run satisfies `P`. -/
def Run.All {α : Type} (P : Event → Prop) (r : Run α) : Prop := ∀ e ∈ r.trace, P e

theorem Run.All.pure {α : Type} (P : Event → Prop) (a : α) : Run.All P (pure a : Run α) := by
  intro e he
  simp at he

theorem Run.All.raise {α : Type} (P : Event → Prop) (t : Thrown) :
    Run.All P (raise t : Run α) := by
  intro e he
  simp at he

theorem Run.All.emit {P : Event → Prop} {e : Event} (h : P e) : Run.All P (emit e) := by
  intro e' he
  simp at he
  exact he ▸ h

theorem Run.All.call {α : Type} {P : Event → Prop} {e : Event} (o : Except Fault α) (h : P e) :
    Run.All P (call e o) := by
  intro e' he
  simp at he
  exact he ▸ h

theorem Run.All.bind {α β : Type} {P : Event → Prop} {x : Run α} {f : α → Run β}
    (hx : Run.All P x) (hf : ∀ a, Run.All P (f a)) : Run.All P (x >>= f) := by
  intro e he
  cases hr : x.result with
  | ok v =>
    rw [Run.bind_trace_ok x f v hr] at he
    rcases List.mem_append.mp he with h | h
    · exact hx e h
    · exact hf v e h
  | error t =>
    rw [Run.bind_trace_error x f t hr] at he
    exact hx e he

theorem Run.tryCatch_ok {α : Type} {body : Run α} (handler : Thrown → Option (Run α)) {v : α}
    (hr : body.result = .ok v) : tryCatch body handler = body := by
  simp [Run.tryCatch, hr]

theorem Run.tryCatch_unhandled {α : Type} {body : Run α} {handler : Thrown → Option (Run α)}
    {t : Thrown} (hr : body.result = .error t) (hc : handler t = none) :
    tryCatch body handler = body := by
  simp [Run.tryCatch, hr, hc]

theorem Run.tryCatch_handled {α : Type} {body : Run α} {handler : Thrown → Option (Run α)}
    {t : Thrown} {h : Run α} (hr : body.result = .error t) (hc : handler t = some h) :
    tryCatch body handler = ⟨body.trace ++ h.trace, h.result⟩ := by
  simp [Run.tryCatch, hr, hc]

theorem Run.All.tryCatch {α : Type} {P : Event → Prop} {body : Run α}
    {handler : Thrown → Option (Run α)} (hb : Run.All P body)
    (hh : ∀ t h, handler t = some h → Run.All P h) : Run.All P (tryCatch body handler) := by
  intro e he
  cases hr : body.result with
  | ok v =>
    rw [Run.tryCatch_ok handler hr] at he
    exact hb e he
  | error t =>
    cases hc : handler t with
    | none =>
      rw [Run.tryCatch_unhandled hr hc] at he
      exact hb e he
    | some h =>
      rw [Run.tryCatch_handled hr hc] at he
      rcases List.mem_append.mp he with h1 | h1
      · exact hb e h1
      · exact hh t h hc e h1

theorem Run.All.whenever {P : Event → Prop} {c : Prop} [Decidable c] {x : Run Unit}
    (hx : Run.All P x) : Run.All P (whenever c x) := by
  unfold Run.whenever
  split
  · exact hx
  · exact Run.All.pure P ()

theorem Run.whenever_true {c : Prop} [Decidable c] (x : Run Unit) (h : c) :
    whenever c x = x := by
  simp [Run.whenever, h]

theorem Run.whenever_false {c : Prop} [Decidable c] (x : Run Unit) (h : ¬ c) :
    whenever c x = pure () := by
  simp [Run.whenever, h]

theorem Run.whenever_emit_result (c : Prop) [Decidable c] (e : Event) :
    (whenever c (emit e)).result = .ok () := by
  unfold Run.whenever
  split <;> rfl

theorem Run.All.ite {α : Type} {P : Event → Prop} {c : Prop} [Decidable c] {x y : Run α}
    (hx : Run.All P x) (hy : Run.All P y) : Run.All P (if c then x else y) := by
  split
  · exact hx
  · exact hy

/-- The calls of the first part of a sequence are calls of the sequence. -/
theorem Run.mem_bind_left {α β : Type} {x : Run α} (f : α → Run β) {e : Event}
    (h : e ∈ x.trace) : e ∈ (x >>= f).trace := by
  cases hr : x.result with
  | ok v =>
    rw [Run.bind_trace_ok x f v hr]
    exact List.mem_append_left _ h
  | error t =>
    rw [Run.bind_trace_error x f t hr]
    exact h

/-- The calls of the second part are calls of the sequence when the first part
completes. -/
theorem Run.mem_bind_right {α β : Type} {x : Run α} (f : α → Run β) {e : Event} {v : α}
    (hr : x.result = .ok v) (h : e ∈ (f v).trace) : e ∈ (x >>= f).trace := by
  rw [Run.bind_trace_ok x f v hr]
  exact List.mem_append_right _ h

/-- The calls of a `try` body are calls of the whole `try`/`catch`. -/
theorem Run.mem_tryCatch_body {α : Type} {body : Run α} (handler : Thrown → Option (Run α))
    {e : Event} (h : e ∈ body.trace) : e ∈ (tryCatch body handler).trace := by
  cases hr : body.result with
  | ok v => rw [Run.tryCatch_ok handler hr]; exact h
  | error t =>
    cases hc : handler t with
    | none => rw [Run.tryCatch_unhandled hr hc]; exact h
    | some r => rw [Run.tryCatch_handled hr hc]; exact List.mem_append_left _ h

/-! ## Facts about the extension test -/

theorem FileInfo.hasExtension_iff (n : String) (exts : List String)
    (hlow : ∀ e ∈ exts, toLowerStr e = e) :
    FileInfo.hasExtension n exts = true ↔ toLowerStr (FileInfo.extension n) ∈ exts := by
  unfold FileInfo.hasExtension
  rw [List.any_eq_true]
  constructor
  · rintro ⟨e, he, h⟩
    have h1 : toLowerStr e = toLowerStr (FileInfo.extension n) := by simpa using h
    rw [← h1, hlow e he]
    exact he
  · intro h
    refine ⟨_, h, ?_⟩
    rw [hlow _ h]
    simp

theorem FileInfo.hasExtension_step (n : String) :
    FileInfo.hasExtension n ["stp", "step"] = true ↔
      toLowerStr (FileInfo.extension n) ∈ ["stp", "step"] :=
  FileInfo.hasExtension_iff n _ (by decide)

theorem FileInfo.hasExtension_iges (n : String) :
    FileInfo.hasExtension n ["igs", "iges"] = true ↔
      toLowerStr (FileInfo.extension n) ∈ ["igs", "iges"] :=
  FileInfo.hasExtension_iff n _ (by decide)

theorem FileInfo.hasExtension_gltf (n : String) :
    FileInfo.hasExtension n ["glb", "gltf"] = true ↔
      toLowerStr (FileInfo.extension n) ∈ ["glb", "gltf"] :=
  FileInfo.hasExtension_iff n _ (by decide)

theorem FileInfo.hasExtension_glb (n : String) :
    FileInfo.hasExtension n ["glb"] = true ↔ toLowerStr (FileInfo.extension n) ∈ ["glb"] :=
  FileInfo.hasExtension_iff n _ (by decide)

/-! ## Facts about `importer` -/

/-- The document the import targets: the named one when it exists, a new one
otherwise. -/
def targetOf (env : Env) (DocName : Option String) : DocPtr :=
  match DocName with
  | some name => (env.getDocument name).getD env.newDocument
  | none => env.newDocument

theorem targetDocument_result (env : Env) (DocName : Option String) :
    (targetDocument env DocName).result = .ok (targetOf env DocName) := by
  unfold targetDocument targetOf
  cases DocName with
  | none => rfl
  | some name =>
    cases h : env.getDocument name <;> simp [h, Run.bind_eq, Run.bind, emit]

/-- A call of the STEP readers: the colored reader or the bare-geometry importer. -/
def Event.isStepRead : Event → Bool
  | .StepReader_SetModes _ _ _ => true
  | .StepReader_ReadFile _ => true
  | .StepReader_Transfer _ => true
  | .ImportStepParts _ _ => true
  | _ => false

/-- A call of the IGES readers: the colored reader or the bare-geometry importer. -/
def Event.isIgesRead : Event → Bool
  | .IGESControl_Controller_Init => true
  | .IgesReader_SetReadVisible _ => true
  | .IgesReader_SetModes _ _ _ => true
  | .IgesReader_ReadFile _ => true
  | .IgesReader_Transfer _ => true
  | .IgesReader_SetModel => true
  | .ImportIgesParts _ _ => true
  | _ => false

theorem importer_trace (env : Env) (a : ImporterArgs) :
    (importer env a).trace = (importerBody env a).trace := by
  unfold importer
  cases hr : (importerBody env a).result with
  | ok v =>
    rw [Run.tryCatch_ok _ hr, Run.bind_trace_ok _ _ v hr]
    cases v <;> simp
  | error t =>
    cases hc : (translateAtBoundary t : Option (Run (Option PyObj))) with
    | none =>
      rw [Run.tryCatch_unhandled hr hc, Run.bind_trace_error _ _ t hr]
    | some h =>
      rw [Run.tryCatch_handled hr hc]
      cases t with
      | Py_Exception e => simp [translateAtBoundary] at hc
      | fault f =>
        cases f <;> simp only [translateAtBoundary, Option.some.injEq] at hc <;> subst hc <;>
          simp [Run.bind_eq, Run.bind]

/-- The calls `importerBody` makes after the file has been read. -/
def afterRead (env : Env) (a : ImporterArgs) : List Event :=
  let pcDoc := targetOf env a.DocName
  (loadWithColors env a pcDoc env.newHandle).trace ++
    match (loadWithColors env a pcDoc env.newHandle).result with
    | .ok _ => [.Close env.newHandle]
    | .error _ => []

/-- The read step of an import, at the arguments `importerBody` passes. -/
def readStep (env : Env) (a : ImporterArgs) : Run Unit :=
  readFileByExtension env a.Name (env.encodeFilename a.Name) (targetOf env a.DocName)
    env.newHandle

theorem importerBody_trace (env : Env) (a : ImporterArgs) :
    (importerBody env a).trace =
      (targetDocument env a.DocName).trace ++ .NewDocument env.newHandle ::
        ((readStep env a).trace ++
          match (readStep env a).result with
          | .ok _ => afterRead env a
          | .error _ => []) := by
  unfold importerBody
  rw [Run.bind_trace_ok _ _ _ (targetDocument_result env a.DocName)]
  rw [Run.bind_trace_ok _ _ () (Run.emit_result _)]
  simp only [Run.emit_trace, List.singleton_append, readStep, afterRead]
  congr 2
  cases hr : (readFileByExtension env a.Name (env.encodeFilename a.Name)
      (targetOf env a.DocName) env.newHandle).result with
  | error t => rw [Run.bind_trace_error _ _ t hr]; simp
  | ok u =>
    rw [Run.bind_trace_ok _ _ u hr]
    congr 1
    cases hl : (loadWithColors env a (targetOf env a.DocName) env.newHandle).result with
    | error t => rw [Run.bind_trace_error _ _ t hl]; simp
    | ok pc =>
      rw [Run.bind_trace_ok _ _ pc hl, Run.bind_trace_ok _ _ () (Run.emit_result _)]
      cases hpc : pc.isEmpty <;> simp [hpc]

/-- A call `importer` makes around the read step: document set-up, the kernel
handle, and the `ImportOCAFExt` calls. -/
def Event.isImportFrame : Event → Bool
  | .getDocument _ => true
  | .newDocument => true
  | .NewDocument _ => true
  | .Close _ => true
  | .ImportOCAFExt_new _ _ _ => true
  | .setImportOptions => true
  | .setMerge _ => true
  | .setImportHiddenObject _ => true
  | .setUseLinkGroup _ => true
  | .setMode _ => true
  | .loadShapes => true
  | _ => false

theorem whenGiven_all {P : Event → Prop} (x : Option Bool) (setter : Bool → Event)
    (h : ∀ b, P (setter b)) : Run.All P (whenGiven x setter) := by
  cases x with
  | none => exact Run.All.pure P ()
  | some b => exact Run.All.emit (h b)

theorem targetDocument_frame (env : Env) (DocName : Option String) :
    Run.All (fun e => e.isImportFrame = true) (targetDocument env DocName) := by
  unfold targetDocument
  cases DocName with
  | none =>
    exact Run.All.bind (Run.All.emit rfl) (fun _ => Run.All.pure _ _)
  | some name =>
    refine Run.All.bind (Run.All.emit rfl) (fun _ => ?_)
    cases env.getDocument name with
    | some d => exact Run.All.pure _ _
    | none => exact Run.All.bind (Run.All.emit rfl) (fun _ => Run.All.pure _ _)

theorem loadWithColors_frame (env : Env) (a : ImporterArgs) (pcDoc : DocPtr) (hDoc : DocHandle) :
    Run.All (fun e => e.isImportFrame = true) (loadWithColors env a pcDoc hDoc) := by
  unfold loadWithColors
  repeat' first
    | apply Run.All.bind | apply Run.All.whenever | apply Run.All.ite | apply whenGiven_all | apply Run.All.emit
    | apply Run.All.call | exact Run.All.raise _ _ | exact Run.All.pure _ _ | intro _ | rfl

theorem afterRead_frame (env : Env) (a : ImporterArgs) :
    ∀ e ∈ afterRead env a, e.isImportFrame = true := by
  intro e he
  unfold afterRead at he
  rcases List.mem_append.mp he with h | h
  · exact loadWithColors_frame env a _ _ e h
  · cases hl : (loadWithColors env a (targetOf env a.DocName) env.newHandle).result with
    | ok pc => simp [hl] at h; subst h; rfl
    | error t => simp [hl] at h

/-- Every call of an import is a frame call or a call of the read step. -/
theorem importer_mem_cases (env : Env) (a : ImporterArgs) (e : Event)
    (he : e ∈ (importer env a).trace) :
    e.isImportFrame = true ∨ e ∈ (readStep env a).trace := by
  rw [importer_trace, importerBody_trace] at he
  rcases List.mem_append.mp he with h | h
  · exact Or.inl (targetDocument_frame env a.DocName e h)
  · rcases List.mem_cons.mp h with h | h
    · subst h; exact Or.inl rfl
    · rcases List.mem_append.mp h with h | h
      · exact Or.inr h
      · cases hr : (readStep env a).result with
        | ok u => simp only [hr] at h; exact Or.inl (afterRead_frame env a e h)
        | error t => simp [hr] at h

/-- The calls of the read step are calls of the import. -/
theorem importer_mem_of_readStep (env : Env) (a : ImporterArgs) (e : Event)
    (he : e ∈ (readStep env a).trace) : e ∈ (importer env a).trace := by
  rw [importer_trace, importerBody_trace]
  exact List.mem_append_right _ (List.mem_cons_of_mem _ (List.mem_append_left _ he))

theorem stepColoredAttempt_noIges (env : Env) (hDoc : DocHandle) (name8bit : String) :
    Run.All (fun e => e.isIgesRead = false) (stepColoredAttempt env hDoc name8bit) := by
  unfold stepColoredAttempt
  repeat' first
    | apply Run.All.bind | apply Run.All.whenever | apply Run.All.ite | apply Run.All.emit
    | apply Run.All.call | exact Run.All.raise _ _ | exact Run.All.pure _ _ | intro _ | rfl

/-- What the caller sees of an exception that reaches the closing catch clauses of
`importer` or `exporter`. -/
def atBoundary : Thrown → Thrown
  | .fault (.OSD_Exception msg) => .Py_Exception (.PyExc_FC_GeneralError msg)
  | .fault (.Standard_Failure msg) => .Py_Exception (.PyExc_FC_GeneralError msg)
  | .fault (.Base_Exception what) => .Py_Exception (.setPyException what)
  | .Py_Exception e => .Py_Exception e

theorem tryCatch_boundary_trace {α : Type} (body : Run α) :
    (tryCatch body translateAtBoundary).trace = body.trace := by
  cases hr : body.result with
  | ok v => rw [Run.tryCatch_ok _ hr]
  | error t =>
    cases t with
    | Py_Exception e => rw [Run.tryCatch_unhandled hr rfl]
    | fault f =>
      cases f with
      | OSD_Exception m => rw [Run.tryCatch_handled hr rfl]; simp
      | Standard_Failure m => rw [Run.tryCatch_handled hr rfl]; simp
      | Base_Exception m => rw [Run.tryCatch_handled hr rfl]; simp

theorem tryCatch_boundary_ok {α : Type} (body : Run α) (v : α) (hr : body.result = .ok v) :
    (tryCatch body translateAtBoundary).result = .ok v := by
  rw [Run.tryCatch_ok _ hr, hr]

theorem tryCatch_boundary_error {α : Type} (body : Run α) (t : Thrown)
    (hr : body.result = .error t) :
    (tryCatch body translateAtBoundary).result = .error (atBoundary t) := by
  cases t with
  | Py_Exception e => rw [Run.tryCatch_unhandled hr rfl, hr]; rfl
  | fault f =>
    cases f with
    | OSD_Exception m => rw [Run.tryCatch_handled hr rfl]; rfl
    | Standard_Failure m => rw [Run.tryCatch_handled hr rfl]; rfl
    | Base_Exception m => rw [Run.tryCatch_handled hr rfl]; rfl

theorem importer_result_error (env : Env) (a : ImporterArgs) (t : Thrown)
    (hr : (importerBody env a).result = .error t) :
    (importer env a).result = .error (atBoundary t) := by
  unfold importer
  rw [Run.bind_result_error _ _ _ (tryCatch_boundary_error _ t hr)]

theorem importer_result_ok (env : Env) (a : ImporterArgs) (v : Option PyObj)
    (hr : (importerBody env a).result = .ok v) :
    (importer env a).result = .ok (v.getD .none) := by
  unfold importer
  rw [Run.bind_result_ok _ _ _ (tryCatch_boundary_ok _ v hr)]
  cases v <;> rfl

theorem importerBody_result_read_error (env : Env) (a : ImporterArgs) (t : Thrown)
    (hr : (readStep env a).result = .error t) : (importerBody env a).result = .error t := by
  unfold importerBody
  rw [Run.bind_result_ok _ _ _ (targetDocument_result env a.DocName)]
  rw [Run.bind_result_ok _ _ () (Run.emit_result _)]
  exact Run.bind_result_error _ _ t hr

theorem importerBody_result_load_error (env : Env) (a : ImporterArgs) (t : Thrown)
    (hr : (readStep env a).result = .ok ())
    (hl : (loadWithColors env a (targetOf env a.DocName) env.newHandle).result = .error t) :
    (importerBody env a).result = .error t := by
  unfold importerBody
  rw [Run.bind_result_ok _ _ _ (targetDocument_result env a.DocName)]
  rw [Run.bind_result_ok _ _ () (Run.emit_result _)]
  unfold readStep at hr
  rw [Run.bind_result_ok _ _ () hr]
  exact Run.bind_result_error _ _ t hl

theorem importerBody_result_ok (env : Env) (a : ImporterArgs) (pc : PartColors)
    (hr : (readStep env a).result = .ok ())
    (hl : (loadWithColors env a (targetOf env a.DocName) env.newHandle).result = .ok pc) :
    (importerBody env a).result =
      .ok (if pc.isEmpty then none else some (colorTuples pc)) := by
  unfold importerBody
  rw [Run.bind_result_ok _ _ _ (targetDocument_result env a.DocName)]
  rw [Run.bind_result_ok _ _ () (Run.emit_result _)]
  unfold readStep at hr
  rw [Run.bind_result_ok _ _ () hr]
  rw [Run.bind_result_ok _ _ pc hl]
  rw [Run.bind_result_ok _ _ () (Run.emit_result _)]
  cases pc.isEmpty <;> rfl

theorem stepFallback_noIges (env : Env) (pcDoc : DocPtr) (Utf8Name : String) (t : Thrown)
    (h : Run Unit) (hc : stepFallback env pcDoc Utf8Name t = some h) :
    Run.All (fun e => e.isIgesRead = false) h := by
  cases t with
  | Py_Exception e => simp [stepFallback] at hc
  | fault f =>
    cases f with
    | OSD_Exception m =>
      simp only [stepFallback, Option.some.injEq] at hc
      subst hc
      repeat' first
        | apply Run.All.bind | apply Run.All.whenever | apply Run.All.ite | apply Run.All.emit
        | apply Run.All.call | exact Run.All.raise _ _ | exact Run.All.pure _ _ | intro _ | rfl
    | Standard_Failure m => simp [stepFallback] at hc
    | Base_Exception m => simp [stepFallback] at hc

theorem igesColoredAttempt_noStep (env : Env) (hDoc : DocHandle) (name8bit : String) :
    Run.All (fun e => e.isStepRead = false) (igesColoredAttempt env hDoc name8bit) := by
  unfold igesColoredAttempt
  repeat' first
    | apply Run.All.bind | apply Run.All.whenever | apply Run.All.ite | apply Run.All.emit
    | apply Run.All.call | exact Run.All.raise _ _ | exact Run.All.pure _ _ | intro _ | rfl

theorem igesFallback_noStep (env : Env) (pcDoc : DocPtr) (Utf8Name : String) (t : Thrown)
    (h : Run Unit) (hc : igesFallback env pcDoc Utf8Name t = some h) :
    Run.All (fun e => e.isStepRead = false) h := by
  cases t with
  | Py_Exception e => simp [igesFallback] at hc
  | fault f =>
    cases f with
    | OSD_Exception m =>
      simp only [igesFallback, Option.some.injEq] at hc
      subst hc
      repeat' first
        | apply Run.All.bind | apply Run.All.whenever | apply Run.All.ite | apply Run.All.emit
        | apply Run.All.call | exact Run.All.raise _ _ | exact Run.All.pure _ _ | intro _ | rfl
    | Standard_Failure m => simp [igesFallback] at hc
    | Base_Exception m => simp [igesFallback] at hc

theorem stepReadFile_mem (env : Env) (hDoc : DocHandle) (name8bit : String) :
    Event.StepReader_ReadFile name8bit ∈ (stepColoredAttempt env hDoc name8bit).trace := by
  unfold stepColoredAttempt
  refine Run.mem_bind_right _ (Run.emit_result _) ?_
  refine Run.mem_bind_left _ ?_
  simp

theorem igesReadFile_mem (env : Env) (hDoc : DocHandle) (name8bit : String) :
    Event.IgesReader_ReadFile name8bit ∈ (igesColoredAttempt env hDoc name8bit).trace := by
  unfold igesColoredAttempt
  refine Run.mem_bind_right _ (Run.emit_result _) ?_
  refine Run.mem_bind_right _ (Run.emit_result _) ?_
  refine Run.mem_bind_right _ (Run.emit_result _) ?_
  refine Run.mem_bind_left _ ?_
  simp

theorem frame_not_read (e : Event) (h : e.isImportFrame = true) :
    e.isStepRead = false ∧ e.isIgesRead = false := by
  cases e <;> simp_all [Event.isImportFrame, Event.isStepRead, Event.isIgesRead]

theorem step_iges_disjoint (x : String) (h : x ∈ ["stp", "step"]) : x ∉ ["igs", "iges"] := by
  intro h2
  simp only [List.mem_cons, List.mem_singleton, List.not_mem_nil, or_false] at h h2
  rcases h with h | h <;> rcases h2 with h2 | h2 <;> subst h <;> revert h2 <;> decide

/-- The sample environment with a STEP writer whose `Write` fails. -/
def stepWriteFailsEnv : Env := { sampleEnv with stepWrite := fun _ => .ok IFSelect_RetFail }

/-- C2 (failing inputs): the handle opened by `NewDocument` is not closed when the
call leaves through an exception.  `open("part.txt")` opens handle 7 and raises
the unsupported-format `IOError` without any `Close`; `export([], "out.step")`
with a failing STEP `Write` opens handle 7 and raises its `IOError` without any
`Close`.  On the normal path the same calls close the handle once. -/
theorem handle_not_closed_on_error :
    (Event.NewDocument 7 ∈ (importer sampleEnv { Name := "part.txt" }).trace ∧
      (importer sampleEnv { Name := "part.txt" }).trace.count (.Close 7) = 0 ∧
      (importer sampleEnv { Name := "part.txt" }).result =
        .error (.Py_Exception (.PyExc_IOError "no supported file format"))) ∧
    (Event.NewDocument 7 ∈
        (exporter stepWriteFailsEnv { object := .list [], Name := "out.step" }).trace ∧
      (exporter stepWriteFailsEnv { object := .list [], Name := "out.step" }).trace.count
        (.Close 7) = 0 ∧
      (exporter stepWriteFailsEnv { object := .list [], Name := "out.step" }).result =
        .error (.Py_Exception (.PyExc_IOError "Cannot open file 'out.step'"))) ∧
    (importer sampleEnv { Name := "part.step" }).trace.count (.Close 7) = 1 ∧
    (exporter sampleEnv { object := .list [], Name := "out.step" }).trace.count (.Close 7) = 1 :=
  ⟨⟨by decide, by decide, rfl⟩, ⟨by decide, by decide, rfl⟩, by decide, by decide⟩

/-! ## The read step in detail -/

/-- The value of `ocaf.partColors` after the given `applyFaceColors` calls. -/
def partColorsOf (applied : List (ObjPtr × List Color)) : PartColors :=
  applied.foldl (fun partColors pc => applyFaceColors partColors pc.1 pc.2) []

/-- Lines 274--298: what `importer` returns for a given `partColors`. -/
def returnValue (partColors : PartColors) : PyObj :=
  if partColors.isEmpty then .none else colorTuples partColors

theorem whenGiven_result (x : Option Bool) (setter : Bool → Event) :
    (whenGiven x setter).result = .ok () := by
  cases x <;> rfl

theorem loadWithColors_result (env : Env) (a : ImporterArgs) (pcDoc : DocPtr) (hDoc : DocHandle) :
    (loadWithColors env a pcDoc hDoc).result =
      match env.loadShapes hDoc pcDoc with
      | .ok applied => .ok (partColorsOf applied)
      | .error f => .error (.fault f) := by
  unfold loadWithColors
  rw [Run.bind_result_ok _ _ () (Run.emit_result _)]
  rw [Run.bind_result_ok _ _ () (Run.emit_result _)]
  rw [Run.bind_result_ok _ _ () (whenGiven_result _ _)]
  rw [Run.bind_result_ok _ _ () (whenGiven_result _ _)]
  rw [Run.bind_result_ok _ _ () (whenGiven_result _ _)]
  rw [Run.bind_result_ok _ _ () (Run.whenever_emit_result _ _)]
  cases h : env.loadShapes hDoc pcDoc with
  | ok applied => rw [Run.bind_result_ok _ _ applied rfl]; rfl
  | error f => rw [Run.bind_result_error _ _ (.fault f) rfl]

theorem loadShapes_mem (env : Env) (a : ImporterArgs) (pcDoc : DocPtr) (hDoc : DocHandle) :
    Event.loadShapes ∈ (loadWithColors env a pcDoc hDoc).trace := by
  unfold loadWithColors
  refine Run.mem_bind_right _ (Run.emit_result _) ?_
  refine Run.mem_bind_right _ (Run.emit_result _) ?_
  refine Run.mem_bind_right _ (whenGiven_result _ _) ?_
  refine Run.mem_bind_right _ (whenGiven_result _ _) ?_
  refine Run.mem_bind_right _ (whenGiven_result _ _) ?_
  refine Run.mem_bind_right _ (Run.whenever_emit_result _ _) ?_
  refine Run.mem_bind_left _ ?_
  simp

/-- The result of an import whose read step completed. -/
theorem importer_result_after_read (env : Env) (a : ImporterArgs)
    (hr : (readStep env a).result = .ok ()) :
    (importer env a).result =
      match env.loadShapes env.newHandle (targetOf env a.DocName) with
      | .ok applied => .ok (returnValue (partColorsOf applied))
      | .error f => .error (atBoundary (.fault f)) := by
  have hl := loadWithColors_result env a (targetOf env a.DocName) env.newHandle
  cases h : env.loadShapes env.newHandle (targetOf env a.DocName) with
  | ok applied =>
    rw [h] at hl
    rw [importer_result_ok env a _ (importerBody_result_ok env a _ hr hl)]
    simp only [returnValue]
    cases (partColorsOf applied).isEmpty <;> rfl
  | error f =>
    rw [h] at hl
    exact importer_result_error env a _ (importerBody_result_load_error env a _ hr hl)

/-- The STEP attempt when `ReadFile` returns a status other than done. -/
theorem stepColoredAttempt_read_failed (env : Env) (hDoc : DocHandle) (name8bit : String)
    (s : IFSelect_ReturnStatus) (hs : env.stepReadFile name8bit = .ok s)
    (hne : s ≠ IFSelect_RetDone) :
    stepColoredAttempt env hDoc name8bit =
      ⟨[.StepReader_SetModes true true true, .StepReader_ReadFile name8bit],
        .error (.Py_Exception (.PyExc_IOError "cannot read STEP file"))⟩ := by
  simp [stepColoredAttempt, Run.bind_eq, Run.bind, emit, call, raise, whenever, hs, hne]

/-- The IGES attempt when `ReadFile` returns a status other than done. -/
theorem igesColoredAttempt_read_failed (env : Env) (hDoc : DocHandle) (name8bit : String)
    (s : IFSelect_ReturnStatus) (hs : env.igesReadFile name8bit = .ok s)
    (hne : s ≠ IFSelect_RetDone) :
    igesColoredAttempt env hDoc name8bit =
      ⟨[.IGESControl_Controller_Init, .IgesReader_SetReadVisible env.SkipBlankEntities,
          .IgesReader_SetModes true true true, .IgesReader_ReadFile name8bit],
        .error (.Py_Exception (.PyExc_IOError "cannot read IGES file"))⟩ := by
  simp [igesColoredAttempt, Run.bind_eq, Run.bind, emit, call, raise, whenever, hs, hne]

theorem readStep_step (env : Env) (a : ImporterArgs)
    (hext : toLowerStr (FileInfo.extension a.Name) ∈ ["stp", "step"]) :
    readStep env a =
      tryCatch (stepColoredAttempt env env.newHandle (env.encodeFilename a.Name))
        (stepFallback env (targetOf env a.DocName) a.Name) := by
  have hs := (FileInfo.hasExtension_step a.Name).mpr hext
  simp [readStep, readFileByExtension, hs]

theorem readStep_iges (env : Env) (a : ImporterArgs)
    (hext : toLowerStr (FileInfo.extension a.Name) ∈ ["igs", "iges"]) :
    readStep env a =
      tryCatch (igesColoredAttempt env env.newHandle (env.encodeFilename a.Name))
        (igesFallback env (targetOf env a.DocName) a.Name) := by
  have hs : FileInfo.hasExtension a.Name ["stp", "step"] = false := by
    rw [Bool.eq_false_iff]
    intro h
    exact step_iges_disjoint _ ((FileInfo.hasExtension_step a.Name).mp h) hext
  have hi := (FileInfo.hasExtension_iges a.Name).mpr hext
  simp [readStep, readFileByExtension, hs, hi]

/-- A call of the bare-geometry fallback: one of the two importers or `recompute`. -/
def Event.isFallbackCall : Event → Bool
  | .ImportStepParts _ _ => true
  | .ImportIgesParts _ _ => true
  | .recompute _ => true
  | _ => false

theorem frame_not_fallback (e : Event) (h : e.isImportFrame = true) :
    e.isFallbackCall = false := by
  cases e <;> simp_all [Event.isImportFrame, Event.isFallbackCall]

theorem stepColoredAttempt_noFallback (env : Env) (hDoc : DocHandle) (name8bit : String) :
    Run.All (fun e => e.isFallbackCall = false) (stepColoredAttempt env hDoc name8bit) := by
  unfold stepColoredAttempt
  repeat' first
    | apply Run.All.bind | apply Run.All.whenever | apply Run.All.ite | apply Run.All.emit
    | apply Run.All.call | exact Run.All.raise _ _ | exact Run.All.pure _ _ | intro _ | rfl

theorem igesColoredAttempt_noFallback (env : Env) (hDoc : DocHandle) (name8bit : String) :
    Run.All (fun e => e.isFallbackCall = false) (igesColoredAttempt env hDoc name8bit) := by
  unfold igesColoredAttempt
  repeat' first
    | apply Run.All.bind | apply Run.All.whenever | apply Run.All.ite | apply Run.All.emit
    | apply Run.All.call | exact Run.All.raise _ _ | exact Run.All.pure _ _ | intro _ | rfl

/-! ## The reader pipelines -/

/-- The progress indicator shown on kernels older than OCCT 7.5.0. -/
def progressShow (env : Env) (text : String) : List Event :=
  if env.OCC_VERSION_HEX < 0x070500 then [.Progress_Show text] else []

/-- The end of the progress scope on kernels older than OCCT 7.5.0. -/
def progressEnd (env : Env) : List Event :=
  if env.OCC_VERSION_HEX < 0x070500 then [.Progress_EndScope] else []

/-- The run of the STEP attempt, by what `ReadFile` and `Transfer` do. -/
theorem stepColoredAttempt_eq (env : Env) (hDoc : DocHandle) (name8bit : String) :
    stepColoredAttempt env hDoc name8bit =
      match env.stepReadFile name8bit with
      | .error f =>
        ⟨[.StepReader_SetModes true true true, .StepReader_ReadFile name8bit],
          .error (.fault f)⟩
      | .ok s =>
        if s = IFSelect_RetDone then
          match env.stepTransfer hDoc with
          | .ok _ =>
            ⟨[.StepReader_SetModes true true true, .StepReader_ReadFile name8bit] ++
              (progressShow env "Reading STEP file..." ++
                (.StepReader_Transfer hDoc :: progressEnd env)), .ok ()⟩
          | .error f =>
            ⟨[.StepReader_SetModes true true true, .StepReader_ReadFile name8bit] ++
              (progressShow env "Reading STEP file..." ++ [.StepReader_Transfer hDoc]),
              .error (.fault f)⟩
        else
          ⟨[.StepReader_SetModes true true true, .StepReader_ReadFile name8bit],
            .error (.Py_Exception (.PyExc_IOError "cannot read STEP file"))⟩ := by
  cases hs : env.stepReadFile name8bit with
  | error f => simp [stepColoredAttempt, Run.bind_eq, Run.bind, emit, call, hs]
  | ok s =>
    by_cases hd : s = IFSelect_RetDone
    · subst hd
      by_cases hv : env.OCC_VERSION_HEX < 0x070500 <;>
        cases ht : env.stepTransfer hDoc <;>
        simp [stepColoredAttempt, Run.bind_eq, Run.bind, emit, call, raise, whenever, hs, ht,
          hv, progressShow, progressEnd, pure]
    · simp [stepColoredAttempt, Run.bind_eq, Run.bind, emit, call, raise, whenever, hs, hd]

/-- The run of the IGES attempt, by what `ReadFile` and `Transfer` do. -/
theorem igesColoredAttempt_eq (env : Env) (hDoc : DocHandle) (name8bit : String) :
    igesColoredAttempt env hDoc name8bit =
      match env.igesReadFile name8bit with
      | .error f =>
        ⟨[.IGESControl_Controller_Init, .IgesReader_SetReadVisible env.SkipBlankEntities,
            .IgesReader_SetModes true true true, .IgesReader_ReadFile name8bit],
          .error (.fault f)⟩
      | .ok s =>
        if s = IFSelect_RetDone then
          match env.igesTransfer hDoc with
          | .ok _ =>
            ⟨[.IGESControl_Controller_Init, .IgesReader_SetReadVisible env.SkipBlankEntities,
                .IgesReader_SetModes true true true, .IgesReader_ReadFile name8bit] ++
              (progressShow env "Reading IGES file..." ++
                (.IgesReader_Transfer hDoc :: (progressEnd env ++ [.IgesReader_SetModel]))),
              .ok ()⟩
          | .error f =>
            ⟨[.IGESControl_Controller_Init, .IgesReader_SetReadVisible env.SkipBlankEntities,
                .IgesReader_SetModes true true true, .IgesReader_ReadFile name8bit] ++
              (progressShow env "Reading IGES file..." ++ [.IgesReader_Transfer hDoc]),
              .error (.fault f)⟩
        else
          ⟨[.IGESControl_Controller_Init, .IgesReader_SetReadVisible env.SkipBlankEntities,
              .IgesReader_SetModes true true true, .IgesReader_ReadFile name8bit],
            .error (.Py_Exception (.PyExc_IOError "cannot read IGES file"))⟩ := by
  cases hs : env.igesReadFile name8bit with
  | error f => simp [igesColoredAttempt, Run.bind_eq, Run.bind, emit, call, hs]
  | ok s =>
    by_cases hd : s = IFSelect_RetDone
    · subst hd
      by_cases hv : env.OCC_VERSION_HEX < 0x070500 <;>
        cases ht : env.igesTransfer hDoc <;>
        simp [igesColoredAttempt, Run.bind_eq, Run.bind, emit, call, raise, whenever, hs, ht,
          hv, progressShow, progressEnd, pure]
    · simp [igesColoredAttempt, Run.bind_eq, Run.bind, emit, call, raise, whenever, hs, hd]

theorem tryCatch_trace_append {α : Type} (body : Run α) (handler : Thrown → Option (Run α)) :
    ∃ x, (tryCatch body handler).trace = body.trace ++ x := by
  cases hr : body.result with
  | ok v => exact ⟨[], by rw [Run.tryCatch_ok _ hr, List.append_nil]⟩
  | error t =>
    cases hc : handler t with
    | none => exact ⟨[], by rw [Run.tryCatch_unhandled hr hc, List.append_nil]⟩
    | some h => exact ⟨h.trace, by rw [Run.tryCatch_handled hr hc]⟩

/-- The calls of an import start with the document set-up, the new kernel document
and the calls of the read step. -/
theorem importer_trace_starts (env : Env) (a : ImporterArgs) (block : List Event)
    (h : ∃ y, (readStep env a).trace = block ++ y) :
    ∃ post, (importer env a).trace =
      (targetDocument env a.DocName).trace ++ .NewDocument env.newHandle :: (block ++ post) := by
  obtain ⟨y, hy⟩ := h
  rw [importer_trace, importerBody_trace, hy]
  exact ⟨_, by rw [List.append_assoc]⟩

theorem stepColoredAttempt_starts (env : Env) (hDoc : DocHandle) (name8bit : String) :
    (∃ y, (stepColoredAttempt env hDoc name8bit).trace =
        [.StepReader_SetModes true true true, .StepReader_ReadFile name8bit] ++ y) ∧
      (env.stepReadFile name8bit = .ok IFSelect_RetDone →
        ∃ y, (stepColoredAttempt env hDoc name8bit).trace =
          ([.StepReader_SetModes true true true, .StepReader_ReadFile name8bit] ++
            (progressShow env "Reading STEP file..." ++ [.StepReader_Transfer hDoc])) ++ y) := by
  rw [stepColoredAttempt_eq]
  constructor
  · cases hs : env.stepReadFile name8bit with
    | error f => exact ⟨[], by simp⟩
    | ok s =>
      by_cases hd : s = IFSelect_RetDone
      · cases ht : env.stepTransfer hDoc with
        | ok u => exact ⟨_, by simp only [hd, if_true]; rfl⟩
        | error f => exact ⟨_, by simp only [hd, if_true]; rfl⟩
      · exact ⟨[], by simp [hd]⟩
  · intro hs
    rw [hs]
    cases ht : env.stepTransfer hDoc with
    | ok u => exact ⟨progressEnd env, by simp⟩
    | error f => exact ⟨[], by simp⟩

theorem igesColoredAttempt_starts (env : Env) (hDoc : DocHandle) (name8bit : String) :
    (∃ y, (igesColoredAttempt env hDoc name8bit).trace =
        [.IGESControl_Controller_Init, .IgesReader_SetReadVisible env.SkipBlankEntities,
          .IgesReader_SetModes true true true, .IgesReader_ReadFile name8bit] ++ y) ∧
      (env.igesReadFile name8bit = .ok IFSelect_RetDone →
        ∃ y, (igesColoredAttempt env hDoc name8bit).trace =
          ([.IGESControl_Controller_Init, .IgesReader_SetReadVisible env.SkipBlankEntities,
            .IgesReader_SetModes true true true, .IgesReader_ReadFile name8bit] ++
            (progressShow env "Reading IGES file..." ++ [.IgesReader_Transfer hDoc])) ++ y) := by
  rw [igesColoredAttempt_eq]
  constructor
  · cases hs : env.igesReadFile name8bit with
    | error f => exact ⟨[], by simp⟩
    | ok s =>
      by_cases hd : s = IFSelect_RetDone
      · cases ht : env.igesTransfer hDoc with
        | ok u => exact ⟨_, by simp only [hd, if_true]; rfl⟩
        | error f => exact ⟨_, by simp only [hd, if_true]; rfl⟩
      · exact ⟨[], by simp [hd]⟩
  · intro hs
    rw [hs]
    cases ht : env.igesTransfer hDoc with
    | ok u => exact ⟨progressEnd env ++ [.IgesReader_SetModel], by simp⟩
    | error f => exact ⟨[], by simp⟩

theorem readStep_starts (env : Env) (a : ImporterArgs) (attempt : Run Unit)
    (handler : Thrown → Option (Run Unit)) (hread : readStep env a = tryCatch attempt handler)
    (block : List Event) (h : ∃ y, attempt.trace = block ++ y) :
    ∃ y, (readStep env a).trace = block ++ y := by
  obtain ⟨y, hy⟩ := h
  obtain ⟨x, hx⟩ := tryCatch_trace_append attempt handler
  exact ⟨y ++ x, by rw [hread, hx, hy, List.append_assoc]⟩

/-- When the read step of an import completes, the shapes are loaded. -/
theorem importer_loads_after_read (env : Env) (a : ImporterArgs)
    (hr : (readStep env a).result = .ok ()) : Event.loadShapes ∈ (importer env a).trace := by
  rw [importer_trace, importerBody_trace, hr]
  refine List.mem_append_right _ (List.mem_cons_of_mem _ (List.mem_append_right _ ?_))
  exact List.mem_append_left _ (loadShapes_mem env a _ _)

/-- The calls of an import whose STEP attempt completed. -/
theorem importer_trace_step_done (env : Env) (a : ImporterArgs)
    (hext : toLowerStr (FileInfo.extension a.Name) ∈ ["stp", "step"])
    (hs : env.stepReadFile (env.encodeFilename a.Name) = .ok IFSelect_RetDone)
    (ht : env.stepTransfer env.newHandle = .ok ()) :
    (importer env a).trace =
      (targetDocument env a.DocName).trace ++ .NewDocument env.newHandle ::
        (([.StepReader_SetModes true true true,
            .StepReader_ReadFile (env.encodeFilename a.Name)] ++
          (progressShow env "Reading STEP file..." ++
            (.StepReader_Transfer env.newHandle :: progressEnd env))) ++ afterRead env a) := by
  have hatt := stepColoredAttempt_eq env env.newHandle (env.encodeFilename a.Name)
  rw [hs] at hatt
  simp only [if_true, ht] at hatt
  have hread : readStep env a = stepColoredAttempt env env.newHandle
      (env.encodeFilename a.Name) := by
    rw [readStep_step env a hext]
    exact Run.tryCatch_ok _ (by rw [hatt])
  rw [importer_trace, importerBody_trace, hread, hatt]

/-- The calls of an import whose IGES attempt completed. -/
theorem importer_trace_iges_done (env : Env) (a : ImporterArgs)
    (hext : toLowerStr (FileInfo.extension a.Name) ∈ ["igs", "iges"])
    (hs : env.igesReadFile (env.encodeFilename a.Name) = .ok IFSelect_RetDone)
    (ht : env.igesTransfer env.newHandle = .ok ()) :
    (importer env a).trace =
      (targetDocument env a.DocName).trace ++ .NewDocument env.newHandle ::
        (([.IGESControl_Controller_Init, .IgesReader_SetReadVisible env.SkipBlankEntities,
            .IgesReader_SetModes true true true,
            .IgesReader_ReadFile (env.encodeFilename a.Name)] ++
          (progressShow env "Reading IGES file..." ++
            (.IgesReader_Transfer env.newHandle ::
              (progressEnd env ++ [.IgesReader_SetModel])))) ++ afterRead env a) := by
  have hatt := igesColoredAttempt_eq env env.newHandle (env.encodeFilename a.Name)
  rw [hs] at hatt
  simp only [if_true, ht] at hatt
  have hread : readStep env a = igesColoredAttempt env env.newHandle
      (env.encodeFilename a.Name) := by
    rw [readStep_iges env a hext]
    exact Run.tryCatch_ok _ (by rw [hatt])
  rw [importer_trace, importerBody_trace, hread, hatt]

/-- C1: `open`/`insert` choose the reader by the case-insensitive file extension.
For `stp`/`step` the STEP reader pipeline is run and no IGES reader: after the
document set-up the reader's modes are set and `ReadFile` is called on the encoded
path, when `ReadFile` returns done `Transfer` into the new kernel document follows,
and when `Transfer` returns the run is the document set-up, the reader pipeline and
then the loading of the shapes.  For `igs`/`iges` the same holds of the IGES reader
pipeline, and no STEP reader is run.  Every other extension (so
also `glb` and `gltf`) runs no reader and fails with the `IOError` "no supported
file format". -/
theorem importer_dispatch_by_extension (env : Env) (a : ImporterArgs) :
    (toLowerStr (FileInfo.extension a.Name) ∈ ["stp", "step"] →
        Event.StepReader_ReadFile (env.encodeFilename a.Name) ∈ (importer env a).trace ∧
        (∃ post, (importer env a).trace =
          (targetDocument env a.DocName).trace ++ .NewDocument env.newHandle ::
            ([.StepReader_SetModes true true true,
              .StepReader_ReadFile (env.encodeFilename a.Name)] ++ post)) ∧
        (env.stepReadFile (env.encodeFilename a.Name) = .ok IFSelect_RetDone →
          (∃ post, (importer env a).trace =
            (targetDocument env a.DocName).trace ++ .NewDocument env.newHandle ::
              (([.StepReader_SetModes true true true,
                  .StepReader_ReadFile (env.encodeFilename a.Name)] ++
                (progressShow env "Reading STEP file..." ++
                  [.StepReader_Transfer env.newHandle])) ++ post)) ∧
          (env.stepTransfer env.newHandle = .ok () →
            (importer env a).trace =
              (targetDocument env a.DocName).trace ++ .NewDocument env.newHandle ::
                (([.StepReader_SetModes true true true,
                    .StepReader_ReadFile (env.encodeFilename a.Name)] ++
                  (progressShow env "Reading STEP file..." ++
                    (.StepReader_Transfer env.newHandle :: progressEnd env))) ++
                  afterRead env a) ∧
            Event.loadShapes ∈ (importer env a).trace)) ∧
        ∀ e ∈ (importer env a).trace, e.isIgesRead = false) ∧
    (toLowerStr (FileInfo.extension a.Name) ∈ ["igs", "iges"] →
        Event.IgesReader_ReadFile (env.encodeFilename a.Name) ∈ (importer env a).trace ∧
        (∃ post, (importer env a).trace =
          (targetDocument env a.DocName).trace ++ .NewDocument env.newHandle ::
            ([.IGESControl_Controller_Init, .IgesReader_SetReadVisible env.SkipBlankEntities,
              .IgesReader_SetModes true true true,
              .IgesReader_ReadFile (env.encodeFilename a.Name)] ++ post)) ∧
        (env.igesReadFile (env.encodeFilename a.Name) = .ok IFSelect_RetDone →
          (∃ post, (importer env a).trace =
            (targetDocument env a.DocName).trace ++ .NewDocument env.newHandle ::
              (([.IGESControl_Controller_Init,
                  .IgesReader_SetReadVisible env.SkipBlankEntities,
                  .IgesReader_SetModes true true true,
                  .IgesReader_ReadFile (env.encodeFilename a.Name)] ++
                (progressShow env "Reading IGES file..." ++
                  [.IgesReader_Transfer env.newHandle])) ++ post)) ∧
          (env.igesTransfer env.newHandle = .ok () →
            (importer env a).trace =
              (targetDocument env a.DocName).trace ++ .NewDocument env.newHandle ::
                (([.IGESControl_Controller_Init,
                    .IgesReader_SetReadVisible env.SkipBlankEntities,
                    .IgesReader_SetModes true true true,
                    .IgesReader_ReadFile (env.encodeFilename a.Name)] ++
                  (progressShow env "Reading IGES file..." ++
                    (.IgesReader_Transfer env.newHandle ::
                      (progressEnd env ++ [.IgesReader_SetModel])))) ++ afterRead env a) ∧
            Event.loadShapes ∈ (importer env a).trace)) ∧
        ∀ e ∈ (importer env a).trace, e.isStepRead = false) ∧
    (toLowerStr (FileInfo.extension a.Name) ∉ ["stp", "step", "igs", "iges"] →
        (∀ e ∈ (importer env a).trace, e.isStepRead = false ∧ e.isIgesRead = false) ∧
        (importer env a).result =
          .error (.Py_Exception (.PyExc_IOError "no supported file format"))) := by
  refine ⟨fun hext => ?_, fun hext => ?_, fun hext => ?_⟩
  · have hread := readStep_step env a hext
    have hst := stepColoredAttempt_starts env env.newHandle (env.encodeFilename a.Name)
    refine ⟨importer_mem_of_readStep env a _ ?_,
      importer_trace_starts env a _ (readStep_starts env a _ _ hread _ hst.1),
      fun hs => ⟨importer_trace_starts env a _ (readStep_starts env a _ _ hread _ (hst.2 hs)),
        fun ht => ⟨importer_trace_step_done env a hext hs ht,
          importer_loads_after_read env a ?_⟩⟩, fun e he => ?_⟩
    · rw [hread]
      exact Run.mem_tryCatch_body _ (stepReadFile_mem env _ _)
    · have hatt : (stepColoredAttempt env env.newHandle (env.encodeFilename a.Name)).result =
          .ok () := by
        rw [stepColoredAttempt_eq, hs]
        simp only [if_true, ht]
      rw [hread, Run.tryCatch_ok _ hatt, hatt]
    · rcases importer_mem_cases env a e he with h | h
      · exact (frame_not_read e h).2
      · rw [hread] at h
        exact Run.All.tryCatch (stepColoredAttempt_noIges env _ _)
          (stepFallback_noIges env _ _) e h
  · have hread := readStep_iges env a hext
    have hst := igesColoredAttempt_starts env env.newHandle (env.encodeFilename a.Name)
    refine ⟨importer_mem_of_readStep env a _ ?_,
      importer_trace_starts env a _ (readStep_starts env a _ _ hread _ hst.1),
      fun hs => ⟨importer_trace_starts env a _ (readStep_starts env a _ _ hread _ (hst.2 hs)),
        fun ht => ⟨importer_trace_iges_done env a hext hs ht,
          importer_loads_after_read env a ?_⟩⟩, fun e he => ?_⟩
    · rw [hread]
      exact Run.mem_tryCatch_body _ (igesReadFile_mem env _ _)
    · have hatt : (igesColoredAttempt env env.newHandle (env.encodeFilename a.Name)).result =
          .ok () := by
        rw [igesColoredAttempt_eq, hs]
        simp only [if_true, ht]
      rw [hread, Run.tryCatch_ok _ hatt, hatt]
    · rcases importer_mem_cases env a e he with h | h
      · exact (frame_not_read e h).1
      · rw [hread] at h
        exact Run.All.tryCatch (igesColoredAttempt_noStep env _ _)
          (igesFallback_noStep env _ _) e h
  · have hs : FileInfo.hasExtension a.Name ["stp", "step"] = false := by
      rw [Bool.eq_false_iff]
      intro h
      have := (FileInfo.hasExtension_step a.Name).mp h
      apply hext
      simp only [List.mem_cons, List.mem_singleton, List.not_mem_nil, or_false] at this ⊢
      tauto
    have hi : FileInfo.hasExtension a.Name ["igs", "iges"] = false := by
      rw [Bool.eq_false_iff]
      intro h
      have := (FileInfo.hasExtension_iges a.Name).mp h
      apply hext
      simp only [List.mem_cons, List.mem_singleton, List.not_mem_nil, or_false] at this ⊢
      tauto
    have hread : readStep env a =
        raise (.Py_Exception (.PyExc_IOError "no supported file format")) := by
      simp [readStep, readFileByExtension, hs, hi]
    refine ⟨fun e he => ?_, ?_⟩
    · rcases importer_mem_cases env a e he with h | h
      · exact frame_not_read e h
      · rw [hread] at h
        simp at h
    · have hb := importerBody_result_read_error env a _ (by rw [hread]; rfl)
      exact importer_result_error env a _ hb

/-- C1 at concrete inputs: an upper-case STEP extension whose read is transferred
into the kernel document and loaded, an IGES file and a glTF file. -/
theorem importer_dispatch_by_extension_witness :
    (Event.StepReader_ReadFile "Part.STEP" ∈
        (importer sampleEnv { Name := "Part.STEP" }).trace ∧
      (∃ post, (importer sampleEnv { Name := "Part.STEP" }).trace =
        (targetDocument sampleEnv none).trace ++ .NewDocument 7 ::
          (([.StepReader_SetModes true true true, .StepReader_ReadFile "Part.STEP"] ++
            (progressShow sampleEnv "Reading STEP file..." ++ [.StepReader_Transfer 7])) ++
              post)) ∧
      Event.loadShapes ∈ (importer sampleEnv { Name := "Part.STEP" }).trace) ∧
    Event.IgesReader_ReadFile "a.igs" ∈ (importer sampleEnv { Name := "a.igs" }).trace ∧
    (importer sampleEnv { Name := "scene.gltf" }).result =
      .error (.Py_Exception (.PyExc_IOError "no supported file format")) :=
  ⟨⟨((importer_dispatch_by_extension sampleEnv { Name := "Part.STEP" }).1 (by decide)).1,
      (((importer_dispatch_by_extension sampleEnv { Name := "Part.STEP" }).1
        (by decide)).2.2.1 rfl).1,
      ((((importer_dispatch_by_extension sampleEnv { Name := "Part.STEP" }).1
        (by decide)).2.2.1 rfl).2 rfl).2⟩,
   ((importer_dispatch_by_extension sampleEnv { Name := "a.igs" }).2.1 (by decide)).1,
   ((importer_dispatch_by_extension sampleEnv { Name := "scene.gltf" }).2.2 (by decide)).2⟩

/-- The handler of the STEP branch catches `OSD_Exception` only. -/
theorem stepFallback_some (env : Env) (pcDoc : DocPtr) (Utf8Name : String) (t : Thrown)
    (h : (stepFallback env pcDoc Utf8Name t).isSome = true) :
    ∃ msg, t = .fault (.OSD_Exception msg) := by
  cases t with
  | Py_Exception e => exact Bool.noConfusion h
  | fault f =>
    cases f with
    | OSD_Exception msg => exact ⟨msg, rfl⟩
    | Standard_Failure msg => exact Bool.noConfusion h
    | Base_Exception msg => exact Bool.noConfusion h

/-- The handler of the IGES branch catches `OSD_Exception` only. -/
theorem igesFallback_some (env : Env) (pcDoc : DocPtr) (Utf8Name : String) (t : Thrown)
    (h : (igesFallback env pcDoc Utf8Name t).isSome = true) :
    ∃ msg, t = .fault (.OSD_Exception msg) := by
  cases t with
  | Py_Exception e => exact Bool.noConfusion h
  | fault f =>
    cases f with
    | OSD_Exception msg => exact ⟨msg, rfl⟩
    | Standard_Failure msg => exact Bool.noConfusion h
    | Base_Exception msg => exact Bool.noConfusion h

/-- A call made by a `try` block that its body does not make was made by a
handler, so the body left through an exception that a clause caught. -/
theorem tryCatch_mem_handler {α : Type} (body : Run α) (handler : Thrown → Option (Run α))
    (e : Event) (he : e ∈ (tryCatch body handler).trace) (hb : e ∉ body.trace) :
    ∃ t, body.result = .error t ∧ (handler t).isSome = true := by
  cases hr : body.result with
  | ok v => rw [Run.tryCatch_ok _ hr] at he; exact absurd he hb
  | error t =>
    cases hc : handler t with
    | none => rw [Run.tryCatch_unhandled hr hc] at he; exact absurd he hb
    | some h => exact ⟨t, rfl, by rw [hc]; rfl⟩

/-- When the STEP attempt leaves through an `OSD_Exception`, `ReadFile` threw it,
or `ReadFile` returned done and `Transfer` threw it. -/
theorem stepColoredAttempt_osd (env : Env) (hDoc : DocHandle) (name8bit msg : String)
    (h : (stepColoredAttempt env hDoc name8bit).result = .error (.fault (.OSD_Exception msg))) :
    env.stepReadFile name8bit = .error (.OSD_Exception msg) ∨
      (env.stepReadFile name8bit = .ok IFSelect_RetDone ∧
        env.stepTransfer hDoc = .error (.OSD_Exception msg)) := by
  rw [stepColoredAttempt_eq] at h
  cases hs : env.stepReadFile name8bit with
  | error f =>
    simp only [hs, Except.error.injEq, Thrown.fault.injEq] at h
    exact Or.inl (by rw [h])
  | ok s =>
    simp only [hs] at h
    by_cases hd : s = IFSelect_RetDone
    · subst hd
      cases ht : env.stepTransfer hDoc with
      | ok u => simp [ht] at h
      | error f =>
        simp only [ht, if_true, Except.error.injEq, Thrown.fault.injEq] at h
        exact Or.inr ⟨rfl, by rw [h]⟩
    · simp [hd] at h

/-- The same for the IGES attempt. -/
theorem igesColoredAttempt_osd (env : Env) (hDoc : DocHandle) (name8bit msg : String)
    (h : (igesColoredAttempt env hDoc name8bit).result = .error (.fault (.OSD_Exception msg))) :
    env.igesReadFile name8bit = .error (.OSD_Exception msg) ∨
      (env.igesReadFile name8bit = .ok IFSelect_RetDone ∧
        env.igesTransfer hDoc = .error (.OSD_Exception msg)) := by
  rw [igesColoredAttempt_eq] at h
  cases hs : env.igesReadFile name8bit with
  | error f =>
    simp only [hs, Except.error.injEq, Thrown.fault.injEq] at h
    exact Or.inl (by rw [h])
  | ok s =>
    simp only [hs] at h
    by_cases hd : s = IFSelect_RetDone
    · subst hd
      cases ht : env.igesTransfer hDoc with
      | ok u => simp [ht] at h
      | error f =>
        simp only [ht, if_true, Except.error.injEq, Thrown.fault.injEq] at h
        exact Or.inr ⟨rfl, by rw [h]⟩
    · simp [hd] at h

/-- A fallback call is made only when the colored attempt of the file's format
left through an `OSD_Exception`. -/
theorem fallback_only_after_osd (env : Env) (a : ImporterArgs) (e : Event)
    (he : e ∈ (importer env a).trace) (hf : e.isFallbackCall = true) :
    (toLowerStr (FileInfo.extension a.Name) ∈ ["stp", "step"] ∧
      ∃ msg, env.stepReadFile (env.encodeFilename a.Name) = .error (.OSD_Exception msg) ∨
        (env.stepReadFile (env.encodeFilename a.Name) = .ok IFSelect_RetDone ∧
          env.stepTransfer env.newHandle = .error (.OSD_Exception msg))) ∨
    (toLowerStr (FileInfo.extension a.Name) ∈ ["igs", "iges"] ∧
      ∃ msg, env.igesReadFile (env.encodeFilename a.Name) = .error (.OSD_Exception msg) ∨
        (env.igesReadFile (env.encodeFilename a.Name) = .ok IFSelect_RetDone ∧
          env.igesTransfer env.newHandle = .error (.OSD_Exception msg))) := by
  have hr : e ∈ (readStep env a).trace := by
    rcases importer_mem_cases env a e he with h | h
    · rw [frame_not_fallback e h] at hf; exact Bool.noConfusion hf
    · exact h
  by_cases hs : toLowerStr (FileInfo.extension a.Name) ∈ ["stp", "step"]
  · left
    refine ⟨hs, ?_⟩
    rw [readStep_step env a hs] at hr
    obtain ⟨t, ht, hh⟩ := tryCatch_mem_handler _ _ e hr (fun hm => by
      rw [stepColoredAttempt_noFallback env _ _ e hm] at hf
      exact Bool.noConfusion hf)
    obtain ⟨msg, hmsg⟩ := stepFallback_some env _ _ t hh
    rw [hmsg] at ht
    exact ⟨msg, stepColoredAttempt_osd env _ _ msg ht⟩
  · by_cases hi : toLowerStr (FileInfo.extension a.Name) ∈ ["igs", "iges"]
    · right
      refine ⟨hi, ?_⟩
      rw [readStep_iges env a hi] at hr
      obtain ⟨t, ht, hh⟩ := tryCatch_mem_handler _ _ e hr (fun hm => by
        rw [igesColoredAttempt_noFallback env _ _ e hm] at hf
        exact Bool.noConfusion hf)
      obtain ⟨msg, hmsg⟩ := igesFallback_some env _ _ t hh
      rw [hmsg] at ht
      exact ⟨msg, igesColoredAttempt_osd env _ _ msg ht⟩
    · have h1 : FileInfo.hasExtension a.Name ["stp", "step"] = false := by
        rw [Bool.eq_false_iff]
        intro h
        exact hs ((FileInfo.hasExtension_step a.Name).mp h)
      have h2 : FileInfo.hasExtension a.Name ["igs", "iges"] = false := by
        rw [Bool.eq_false_iff]
        intro h
        exact hi ((FileInfo.hasExtension_iges a.Name).mp h)
      have hread : readStep env a =
          raise (.Py_Exception (.PyExc_IOError "no supported file format")) := by
        simp [readStep, readFileByExtension, h1, h2]
      rw [hread] at hr
      simp at hr

/-- The sample environment with a STEP reader whose `ReadFile` fails. -/
def stepReadFailsEnv : Env := { sampleEnv with stepReadFile := fun _ => .ok IFSelect_RetFail }

/-- C3 (counterexample): `open("part.step")` with a `ReadFile` that returns
`IFSelect_RetFail` raises the `IOError` "cannot read STEP file" to the caller and
never calls the bare-geometry importer. -/
theorem read_failure_is_raised_not_recovered :
    (importer stepReadFailsEnv { Name := "part.step" }).result =
        .error (.Py_Exception (.PyExc_IOError "cannot read STEP file")) ∧
      (importer stepReadFailsEnv { Name := "part.step" }).trace =
        [.newDocument, .NewDocument 7, .StepReader_SetModes true true true,
          .StepReader_ReadFile "part.step"] :=
  ⟨rfl, by decide⟩

/-- C3 (amended): on a STEP or IGES path, when `ReadFile` returns a status other
than done the call raises the `IOError` "cannot read STEP file" respectively
"cannot read IGES file" to the caller, and neither bare-geometry importer nor a
recompute is called.  A bare-geometry importer or its recompute is called only
when the colored attempt of the file's format raised an `OSD_Exception`: thrown
by `ReadFile`, or by `Transfer` after `ReadFile` returned done. -/
theorem importer_read_failure_raises (env : Env) (a : ImporterArgs) (s : IFSelect_ReturnStatus)
    (hne : s ≠ IFSelect_RetDone) :
    (toLowerStr (FileInfo.extension a.Name) ∈ ["stp", "step"] →
      env.stepReadFile (env.encodeFilename a.Name) = .ok s →
        (importer env a).result =
            .error (.Py_Exception (.PyExc_IOError "cannot read STEP file")) ∧
          ∀ e ∈ (importer env a).trace, e.isFallbackCall = false) ∧
    (toLowerStr (FileInfo.extension a.Name) ∈ ["igs", "iges"] →
      env.igesReadFile (env.encodeFilename a.Name) = .ok s →
        (importer env a).result =
            .error (.Py_Exception (.PyExc_IOError "cannot read IGES file")) ∧
          ∀ e ∈ (importer env a).trace, e.isFallbackCall = false) ∧
    (∀ e ∈ (importer env a).trace, e.isFallbackCall = true →
      (toLowerStr (FileInfo.extension a.Name) ∈ ["stp", "step"] ∧
        ∃ msg, env.stepReadFile (env.encodeFilename a.Name) = .error (.OSD_Exception msg) ∨
          (env.stepReadFile (env.encodeFilename a.Name) = .ok IFSelect_RetDone ∧
            env.stepTransfer env.newHandle = .error (.OSD_Exception msg))) ∨
      (toLowerStr (FileInfo.extension a.Name) ∈ ["igs", "iges"] ∧
        ∃ msg, env.igesReadFile (env.encodeFilename a.Name) = .error (.OSD_Exception msg) ∨
          (env.igesReadFile (env.encodeFilename a.Name) = .ok IFSelect_RetDone ∧
            env.igesTransfer env.newHandle = .error (.OSD_Exception msg)))) := by
  refine ⟨?_, ?_, fun e he hf => fallback_only_after_osd env a e he hf⟩
  · intro hext hs
    have hatt := stepColoredAttempt_read_failed env env.newHandle _ s hs hne
    have hread : readStep env a = stepColoredAttempt env env.newHandle
        (env.encodeFilename a.Name) := by
      rw [readStep_step env a hext]
      exact Run.tryCatch_unhandled (t := .Py_Exception _) (by rw [hatt]) rfl
    refine ⟨?_, fun e he => ?_⟩
    · exact importer_result_error env a _
        (importerBody_result_read_error env a _ (by rw [hread, hatt]))
    · rcases importer_mem_cases env a e he with h | h
      · exact frame_not_fallback e h
      · rw [hread] at h
        exact stepColoredAttempt_noFallback env _ _ e h
  · intro hext hs
    have hatt := igesColoredAttempt_read_failed env env.newHandle _ s hs hne
    have hread : readStep env a = igesColoredAttempt env env.newHandle
        (env.encodeFilename a.Name) := by
      rw [readStep_iges env a hext]
      exact Run.tryCatch_unhandled (t := .Py_Exception _) (by rw [hatt]) rfl
    refine ⟨?_, fun e he => ?_⟩
    · exact importer_result_error env a _
        (importerBody_result_read_error env a _ (by rw [hread, hatt]))
    · rcases importer_mem_cases env a e he with h | h
      · exact frame_not_fallback e h
      · rw [hread] at h
        exact igesColoredAttempt_noFallback env _ _ e h

/-- C3 (amended) at a concrete input: a STEP file whose `ReadFile` returns
`IFSelect_RetFail`. -/
theorem importer_read_failure_raises_witness :
    (importer stepReadFailsEnv { Name := "part.step" }).result =
        .error (.Py_Exception (.PyExc_IOError "cannot read STEP file")) ∧
      ∀ e ∈ (importer stepReadFailsEnv { Name := "part.step" }).trace,
        e.isFallbackCall = false :=
  (importer_read_failure_raises stepReadFailsEnv { Name := "part.step" } IFSelect_RetFail
    (by decide)).1 (by decide) rfl

/-! ## The fallback after an `OSD_Exception` -/

/-- A trace with exactly the two fallback calls `imp` and `rec`, one after the
other, between stretches without fallback calls. -/
theorem fallback_pair_facts (pre post : List Event) (imp rec : Event)
    (hpre : ∀ e ∈ pre, e.isFallbackCall = false) (hpost : ∀ e ∈ post, e.isFallbackCall = false)
    (himp : imp.isFallbackCall = true) (hrec : rec.isFallbackCall = true) (hne : imp ≠ rec) :
    (pre ++ [imp, rec] ++ post).count imp = 1 ∧ (pre ++ [imp, rec] ++ post).count rec = 1 ∧
      (∀ e ∈ pre ++ [imp, rec] ++ post, e.isFallbackCall = true → e = imp ∨ e = rec) ∧
      [imp, rec] <:+: pre ++ [imp, rec] ++ post := by
  have c1 : ∀ e : Event, e.isFallbackCall = true → pre.count e = 0 := by
    intro e he
    rw [List.count_eq_zero]
    intro hm
    rw [hpre e hm] at he
    exact Bool.noConfusion he
  have c2 : ∀ e : Event, e.isFallbackCall = true → post.count e = 0 := by
    intro e he
    rw [List.count_eq_zero]
    intro hm
    rw [hpost e hm] at he
    exact Bool.noConfusion he
  refine ⟨?_, ?_, ?_, ⟨pre, post, rfl⟩⟩
  · simp [List.count_append, c1 imp himp, c2 imp himp, List.count_cons, hne, Ne.symm hne]
  · simp [List.count_append, c1 rec hrec, c2 rec hrec, List.count_cons, hne, Ne.symm hne]
  · intro e he hf
    simp only [List.mem_append, List.mem_cons, List.mem_singleton, List.not_mem_nil,
      or_false] at he
    rcases he with (h | h) | h
    · rw [hpre e h] at hf; exact Bool.noConfusion hf
    · exact h
    · rw [hpost e h] at hf; exact Bool.noConfusion hf

/-- A trace that ends with the single fallback call `imp`. -/
theorem fallback_single_facts (pre : List Event) (imp : Event)
    (hpre : ∀ e ∈ pre, e.isFallbackCall = false) (himp : imp.isFallbackCall = true) :
    (pre ++ [imp]).count imp = 1 ∧
      (∀ e ∈ pre ++ [imp], e.isFallbackCall = true → e = imp) := by
  have c1 : pre.count imp = 0 := by
    rw [List.count_eq_zero]
    intro hm
    rw [hpre imp hm] at himp
    exact Bool.noConfusion himp
  refine ⟨by simp [List.count_append, c1], ?_⟩
  intro e he hf
  simp only [List.mem_append, List.mem_singleton] at he
  rcases he with h | h
  · rw [hpre e h] at hf; exact Bool.noConfusion hf
  · exact h

/-- The calls of an import up to the point where the fallback importer is called. -/
def beforeFallback (env : Env) (a : ImporterArgs) (attempt : Run Unit) (msg text : String) :
    List Event :=
  (targetDocument env a.DocName).trace ++ .NewDocument env.newHandle ::
    (attempt.trace ++ [.Console_Error (msg ++ "\n"), .Console_Message text])

theorem beforeFallback_noFallback (env : Env) (a : ImporterArgs) (attempt : Run Unit)
    (msg text : String) (hatt : Run.All (fun e => e.isFallbackCall = false) attempt) :
    ∀ e ∈ beforeFallback env a attempt msg text, e.isFallbackCall = false := by
  intro e he
  simp only [beforeFallback, List.mem_append, List.mem_cons, List.mem_singleton,
    List.not_mem_nil, or_false] at he
  rcases he with h | h | h | h | h
  · exact frame_not_fallback e (targetDocument_frame env a.DocName e h)
  · subst h; rfl
  · exact hatt e h
  · subst h; rfl
  · subst h; rfl

/-- The trace and result of an import whose read step is a handled exception and
whose handler calls the importer `imp` with the given outcome. -/
theorem importer_fallback_ok (env : Env) (a : ImporterArgs) (attempt : Run Unit)
    (msg text : String) (imp : Event)
    (hread : readStep env a =
      ⟨attempt.trace ++ [.Console_Error (msg ++ "\n"), .Console_Message text, imp,
        .recompute (targetOf env a.DocName)], .ok ()⟩) :
    (importer env a).trace =
        beforeFallback env a attempt msg text ++ [imp, .recompute (targetOf env a.DocName)] ++
          afterRead env a ∧
      (importer env a).result =
        match env.loadShapes env.newHandle (targetOf env a.DocName) with
        | .ok applied => .ok (returnValue (partColorsOf applied))
        | .error f => .error (atBoundary (.fault f)) := by
  refine ⟨?_, importer_result_after_read env a (by rw [hread])⟩
  rw [importer_trace, importerBody_trace, hread]
  simp [beforeFallback]

theorem importer_fallback_error (env : Env) (a : ImporterArgs) (attempt : Run Unit)
    (msg text : String) (imp : Event) (f : Fault)
    (hread : readStep env a =
      ⟨attempt.trace ++ [.Console_Error (msg ++ "\n"), .Console_Message text, imp],
        .error (.fault f)⟩) :
    (importer env a).trace = beforeFallback env a attempt msg text ++ [imp] ∧
      (importer env a).result = .error (atBoundary (.fault f)) := by
  refine ⟨?_, importer_result_error env a _
    (importerBody_result_read_error env a _ (by rw [hread]))⟩
  rw [importer_trace, importerBody_trace, hread]
  simp [beforeFallback]

theorem frame_not_fallback_list (env : Env) (a : ImporterArgs) :
    ∀ e ∈ afterRead env a, e.isFallbackCall = false :=
  fun e he => frame_not_fallback e (afterRead_frame env a e he)

/-- What the amended C4 states about an import whose colored attempt raised an
`OSD_Exception`; `imp` is the call of the bare-geometry importer of the file's
format on the target document and the caller's path, `outcome` is what that
importer does.

* `imp` occurs exactly once and is the only importer call of the run;
* when the importer returns, `recompute` of the target document follows it
  directly, that is the only recompute of the run, and the call ends as the
  loading of shapes ends (the `OSD_Exception` is not propagated);
* when the importer raises, no recompute is made and the caller gets the
  importer's exception as the closing catch clauses translate it. -/
def FallbackTaken (env : Env) (a : ImporterArgs) (imp : Event) (outcome : Except Fault Unit) :
    Prop :=
  (importer env a).trace.count imp = 1 ∧
  (∀ d n, Event.ImportStepParts d n ∈ (importer env a).trace → Event.ImportStepParts d n = imp) ∧
  (∀ d n, Event.ImportIgesParts d n ∈ (importer env a).trace → Event.ImportIgesParts d n = imp) ∧
  (outcome = .ok () →
    [imp, .recompute (targetOf env a.DocName)] <:+: (importer env a).trace ∧
    (importer env a).trace.count (.recompute (targetOf env a.DocName)) = 1 ∧
    (∀ d, Event.recompute d ∈ (importer env a).trace → d = targetOf env a.DocName) ∧
    (importer env a).result =
      match env.loadShapes env.newHandle (targetOf env a.DocName) with
      | .ok applied => .ok (returnValue (partColorsOf applied))
      | .error f => .error (atBoundary (.fault f))) ∧
  (∀ f, outcome = .error f →
    (∀ d, Event.recompute d ∉ (importer env a).trace) ∧
    (importer env a).result = .error (atBoundary (.fault f)))

/-- The facts of `FallbackTaken` from the shape of the read step. -/
theorem fallbackTaken_of_readStep (env : Env) (a : ImporterArgs) (attempt : Run Unit)
    (msg text : String) (imp : Event) (outcome : Except Fault Unit)
    (hatt : Run.All (fun e => e.isFallbackCall = false) attempt)
    (himp : imp.isFallbackCall = true) (hnr : ∀ d, imp ≠ .recompute d)
    (hok : outcome = .ok () → readStep env a =
      ⟨attempt.trace ++ [.Console_Error (msg ++ "\n"), .Console_Message text, imp,
        .recompute (targetOf env a.DocName)], .ok ()⟩)
    (herr : ∀ f, outcome = .error f → readStep env a =
      ⟨attempt.trace ++ [.Console_Error (msg ++ "\n"), .Console_Message text, imp],
        .error (.fault f)⟩) :
    FallbackTaken env a imp outcome := by
  have hpre := beforeFallback_noFallback env a attempt msg text hatt
  cases ho : outcome with
  | ok u =>
    obtain ⟨htr, hres⟩ := importer_fallback_ok env a attempt msg text imp (hok (by rw [ho]))
    obtain ⟨h1, h2, h3, h4⟩ := fallback_pair_facts _ (afterRead env a) imp
      (.recompute (targetOf env a.DocName)) hpre (frame_not_fallback_list env a) himp rfl
      (hnr _)
    rw [← htr] at h1 h2 h3 h4
    refine ⟨h1, fun d n hm => ?_, fun d n hm => ?_, fun _ => ⟨h4, h2, fun d hm => ?_, hres⟩,
      fun f hf => by simp at hf⟩
    · rcases h3 _ hm rfl with h | h
      · exact h
      · exact Event.noConfusion h
    · rcases h3 _ hm rfl with h | h
      · exact h
      · exact Event.noConfusion h
    · rcases h3 _ hm rfl with h | h
      · exact absurd h.symm (hnr d)
      · exact Event.recompute.inj h
  | error f =>
    obtain ⟨htr, hres⟩ := importer_fallback_error env a attempt msg text imp f
      (herr f (by rw [ho]))
    obtain ⟨h1, h3⟩ := fallback_single_facts _ imp hpre himp
    rw [← htr] at h1 h3
    refine ⟨h1, fun d n hm => h3 _ hm rfl, fun d n hm => h3 _ hm rfl,
      fun hf => by simp at hf, fun f' hf => ⟨fun d hm => ?_, ?_⟩⟩
    · exact hnr d (h3 _ hm rfl).symm
    · have : f = f' := by simpa using hf
      rw [← this]
      exact hres

/-- The sample environment with a STEP reader that raises an `OSD_Exception`. -/
def stepOsdEnv : Env :=
  { sampleEnv with stepReadFile := fun _ => .error (.OSD_Exception "SIGSEGV") }

/-- As `stepOsdEnv`, and the bare-geometry importer cannot read the file either. -/
def stepOsdTwiceEnv : Env :=
  { sampleEnv with
    stepReadFile := fun _ => .error (.OSD_Exception "SIGSEGV")
    ImportStepParts := fun _ _ => .error (.Base_Exception "Cannot open STEP file") }

/-- C4 (counterexample): `open("part.step")` where the colored read raises an
`OSD_Exception` and the bare-geometry importer raises as well: the importer is
called, no recompute follows it, and the caller gets the importer's error. -/
theorem fallback_without_recompute :
    (importer stepOsdTwiceEnv { Name := "part.step" }).trace =
        [.newDocument, .NewDocument 7, .StepReader_SetModes true true true,
          .StepReader_ReadFile "part.step", .Console_Error "SIGSEGV\n",
          .Console_Message "Try to load STEP file without colors...\n",
          .ImportStepParts 1 "part.step"] ∧
      (importer stepOsdTwiceEnv { Name := "part.step" }).trace.count (.recompute 1) = 0 ∧
      (importer stepOsdTwiceEnv { Name := "part.step" }).result =
        .error (.Py_Exception (.setPyException "Cannot open STEP file")) :=
  ⟨by decide, by decide, rfl⟩

/-- C4 (amended): on a STEP or IGES path whose colored read/transfer attempt raises
an `OSD_Exception`, that exception does not reach the caller.  The bare-geometry
importer of the same format is called exactly once, with the target document and
the caller's path.  When that importer returns it is directly followed by the
one recompute of the target document and the import carries on with loading the
shapes; when that importer raises, no recompute is made and its exception is
translated for the caller (`FallbackTaken`). -/
theorem importer_osd_fallback (env : Env) (a : ImporterArgs) (msg : String) :
    (toLowerStr (FileInfo.extension a.Name) ∈ ["stp", "step"] →
      (stepColoredAttempt env env.newHandle (env.encodeFilename a.Name)).result =
          .error (.fault (.OSD_Exception msg)) →
        FallbackTaken env a (.ImportStepParts (targetOf env a.DocName) a.Name)
          (env.ImportStepParts (targetOf env a.DocName) a.Name)) ∧
    (toLowerStr (FileInfo.extension a.Name) ∈ ["igs", "iges"] →
      (igesColoredAttempt env env.newHandle (env.encodeFilename a.Name)).result =
          .error (.fault (.OSD_Exception msg)) →
        FallbackTaken env a (.ImportIgesParts (targetOf env a.DocName) a.Name)
          (env.ImportIgesParts (targetOf env a.DocName) a.Name)) := by
  constructor
  · intro hext hosd
    refine fallbackTaken_of_readStep env a
      (stepColoredAttempt env env.newHandle (env.encodeFilename a.Name)) msg
      "Try to load STEP file without colors...\n" _ _
      (stepColoredAttempt_noFallback env _ _) rfl (fun d => Event.noConfusion) ?_ ?_
    · intro ho
      rw [readStep_step env a hext, Run.tryCatch_handled hosd rfl]
      simp [Run.bind_eq, Run.bind, emit, call, ho]
    · intro f ho
      rw [readStep_step env a hext, Run.tryCatch_handled hosd rfl]
      simp [Run.bind_eq, Run.bind, emit, call, ho]
  · intro hext hosd
    refine fallbackTaken_of_readStep env a
      (igesColoredAttempt env env.newHandle (env.encodeFilename a.Name)) msg
      "Try to load IGES file without colors...\n" _ _
      (igesColoredAttempt_noFallback env _ _) rfl (fun d => Event.noConfusion) ?_ ?_
    · intro ho
      rw [readStep_iges env a hext, Run.tryCatch_handled hosd rfl]
      simp [Run.bind_eq, Run.bind, emit, call, ho]
    · intro f ho
      rw [readStep_iges env a hext, Run.tryCatch_handled hosd rfl]
      simp [Run.bind_eq, Run.bind, emit, call, ho]

/-- C4 (amended) at a concrete input: `open("part.step")` where the colored read
raises an `OSD_Exception` and the bare-geometry importer succeeds. -/
theorem importer_osd_fallback_witness :
    FallbackTaken stepOsdEnv { Name := "part.step" } (.ImportStepParts 1 "part.step") (.ok ()) :=
  (importer_osd_fallback stepOsdEnv { Name := "part.step" } "SIGSEGV").1 (by decide) rfl

/-! ## `partColors` -/

/-- The colors of the last `applyFaceColors` call for `part`, if there is one. -/
def lastApplied (applied : List (ObjPtr × List Color)) (part : ObjPtr) : Option (List Color) :=
  applied.reverse.lookup part

theorem lookup_cons_ite (q k : ObjPtr) (v : List Color) (rest : PartColors) :
    List.lookup q ((k, v) :: rest) = if q = k then some v else rest.lookup q := by
  rw [List.lookup_cons]
  by_cases h : q = k
  · have hb : (q == k) = true := by simpa using h
    rw [hb, if_pos h]
  · have hb : (q == k) = false := by simpa using h
    rw [hb, if_neg h]

theorem PartColors.lookup_assign (m : PartColors) (part : ObjPtr) (colors : List Color)
    (q : ObjPtr) :
    (PartColors.assign m part colors).lookup q = if q = part then some colors else m.lookup q := by
  induction m with
  | nil =>
    simp only [PartColors.assign, lookup_cons_ite, List.lookup_nil]
  | cons kv rest ih =>
    obtain ⟨k, v⟩ := kv
    unfold PartColors.assign
    by_cases h1 : part < k
    · simp only [h1, if_true, lookup_cons_ite]
    · by_cases h2 : part = k
      · subst h2
        simp only [h1, if_true, if_false, lookup_cons_ite]
        by_cases h : q = part <;> simp [h]
      · simp only [h1, h2, if_false, lookup_cons_ite, ih]
        by_cases h : q = part
        · subst h
          simp [h2]
        · simp [h]

theorem PartColors.keys_assign (m : PartColors) (part : ObjPtr) (colors : List Color)
    (k : ObjPtr) (hk : k ∈ (PartColors.assign m part colors).map Prod.fst) :
    k = part ∨ k ∈ m.map Prod.fst := by
  induction m with
  | nil => simp [PartColors.assign] at hk; exact Or.inl hk
  | cons kv rest ih =>
    obtain ⟨k0, v⟩ := kv
    unfold PartColors.assign at hk
    by_cases h1 : part < k0
    · simp only [h1, if_true, List.map_cons, List.mem_cons] at hk
      rcases hk with h | h | h
      · exact Or.inl h
      · exact Or.inr (by simp [h])
      · exact Or.inr (by simp only [List.map_cons, List.mem_cons]; exact Or.inr h)
    · by_cases h2 : part = k0
      · simp only [h1, h2, if_true, if_false, List.map_cons, List.mem_cons] at hk
        exact Or.inr (by simpa using hk)
      · simp only [h1, h2, if_false, List.map_cons, List.mem_cons] at hk
        rcases hk with h | h
        · exact Or.inr (by simp [h])
        · rcases ih h with h' | h'
          · exact Or.inl h'
          · exact Or.inr (by simp only [List.map_cons, List.mem_cons]; exact Or.inr h')

/-- The keys stay in strictly ascending order, as in a `std::map`. -/
theorem PartColors.sorted_assign (m : PartColors) (part : ObjPtr) (colors : List Color)
    (hm : (m.map Prod.fst).Pairwise (· < ·)) :
    ((PartColors.assign m part colors).map Prod.fst).Pairwise (· < ·) := by
  induction m with
  | nil => simp [PartColors.assign]
  | cons kv rest ih =>
    obtain ⟨k0, v⟩ := kv
    simp only [List.map_cons, List.pairwise_cons] at hm
    unfold PartColors.assign
    by_cases h1 : part < k0
    · simp only [h1, if_true, List.map_cons, List.pairwise_cons, List.mem_cons]
      refine ⟨?_, hm⟩
      rintro x (hx | hx)
      · rw [hx]; exact h1
      · exact lt_trans h1 (hm.1 x hx)
    · by_cases h2 : part = k0
      · subst h2
        simp only [h1, if_true, if_false, List.map_cons, List.pairwise_cons]
        exact hm
      · simp only [h1, h2, if_false, List.map_cons, List.pairwise_cons]
        refine ⟨fun x hx => ?_, ih hm.2⟩
        rcases PartColors.keys_assign rest part colors x hx with h | h
        · rw [h]
          exact lt_of_le_of_ne (Nat.le_of_not_lt h1) (Ne.symm h2)
        · exact hm.1 x h

theorem partColors_fold_sorted (applied : List (ObjPtr × List Color)) (m : PartColors)
    (hm : (m.map Prod.fst).Pairwise (· < ·)) :
    ((applied.foldl (fun partColors pc => applyFaceColors partColors pc.1 pc.2) m).map
      Prod.fst).Pairwise (· < ·) := by
  induction applied generalizing m with
  | nil => exact hm
  | cons x xs ih => exact ih _ (PartColors.sorted_assign m x.1 x.2 hm)

theorem partColors_fold_lookup (applied : List (ObjPtr × List Color)) (m : PartColors)
    (q : ObjPtr) :
    (applied.foldl (fun partColors pc => applyFaceColors partColors pc.1 pc.2) m).lookup q =
      (applied.reverse.lookup q).or (m.lookup q) := by
  induction applied generalizing m with
  | nil => simp
  | cons x xs ih =>
    obtain ⟨k, c⟩ := x
    simp only [List.foldl_cons, List.reverse_cons, List.lookup_append]
    rw [ih, applyFaceColors, PartColors.lookup_assign, lookup_cons_ite]
    cases xs.reverse.lookup q with
    | some c' => simp
    | none =>
      by_cases h : q = k <;> simp [h]

theorem partColorsOf_sorted (applied : List (ObjPtr × List Color)) :
    ((partColorsOf applied).map Prod.fst).Pairwise (· < ·) :=
  partColors_fold_sorted applied [] (by simp)

theorem partColorsOf_lookup (applied : List (ObjPtr × List Color)) (q : ObjPtr) :
    (partColorsOf applied).lookup q = lastApplied applied q := by
  unfold partColorsOf lastApplied
  rw [partColors_fold_lookup]
  simp

/-- In a key-ordered list an entry is present exactly when looking up its key
finds its value. -/
theorem mem_iff_lookup_of_sorted (m : PartColors) (hm : (m.map Prod.fst).Pairwise (· < ·))
    (q : ObjPtr) (c : List Color) : (q, c) ∈ m ↔ m.lookup q = some c := by
  induction m with
  | nil => simp
  | cons kv rest ih =>
    obtain ⟨k, v⟩ := kv
    simp only [List.map_cons, List.pairwise_cons] at hm
    by_cases h : q = k
    · subst h
      simp only [List.mem_cons, Prod.mk.injEq, true_and, lookup_cons_ite, if_true,
        Option.some.injEq]
      constructor
      · rintro (h | h)
        · exact h.symm
        · exact absurd (hm.1 q (List.mem_map.mpr ⟨(q, c), h, rfl⟩)) (lt_irrefl q)
      · intro h
        exact Or.inl h.symm
    · simp only [List.mem_cons, Prod.mk.injEq, h, false_and, false_or, lookup_cons_ite,
        if_false]
      exact ih hm.2

theorem partColorsOf_mem (applied : List (ObjPtr × List Color)) (q : ObjPtr) (c : List Color) :
    (q, c) ∈ partColorsOf applied ↔ lastApplied applied q = some c := by
  rw [mem_iff_lookup_of_sorted _ (partColorsOf_sorted applied), partColorsOf_lookup]

theorem PartColors.assign_ne_nil (m : PartColors) (part : ObjPtr) (colors : List Color) :
    PartColors.assign m part colors ≠ [] := by
  cases m with
  | nil => simp [PartColors.assign]
  | cons kv rest =>
    obtain ⟨k, v⟩ := kv
    unfold PartColors.assign
    split
    · simp
    · split <;> simp

theorem partColors_fold_ne_nil (applied : List (ObjPtr × List Color)) (m : PartColors)
    (hm : m ≠ []) :
    applied.foldl (fun partColors pc => applyFaceColors partColors pc.1 pc.2) m ≠ [] := by
  induction applied generalizing m with
  | nil => exact hm
  | cons x xs ih => exact ih _ (PartColors.assign_ne_nil m x.1 x.2)

theorem partColorsOf_isEmpty (applied : List (ObjPtr × List Color)) :
    (partColorsOf applied).isEmpty = decide (applied = []) := by
  cases applied with
  | nil => rfl
  | cons x xs =>
    have h := partColors_fold_ne_nil xs (PartColors.assign [] x.1 x.2)
      (PartColors.assign_ne_nil [] x.1 x.2)
    simp only [partColorsOf, List.foldl_cons, applyFaceColors]
    simpa [List.isEmpty_iff] using h

/-- The sample environment where loading applies face colors to part 5, then to
part 3, then again to part 5. -/
def colorsEnv : Env :=
  { sampleEnv with loadShapes := fun _ _ => .ok [(5, [10, 11]), (3, [20]), (5, [30])] }

/-- C5 (counterexample): a successful `open("part.step")` during which no part
received face colors returns `None`, not an empty collection. -/
theorem no_colors_returns_none :
    (importer sampleEnv { Name := "part.step" }).result = .ok .none ∧
      (importer sampleEnv { Name := "part.step" }).result ≠ .ok (.list []) :=
  ⟨rfl, fun h => PyObj.noConfusion (Except.ok.inj h)⟩

/-- C5 (amended): a successful `open`/`insert` call returns `None` when loading
applied face colors to no part; otherwise it returns a list of `(part, colors)`
tuples with exactly one tuple for each distinct part that `applyFaceColors` was
called for, carrying the colors of the last such call for that part. -/
theorem importer_returns_part_colors (env : Env) (a : ImporterArgs) (v : PyObj)
    (h : (importer env a).result = .ok v) :
    ∃ (applied : List (ObjPtr × List Color)) (entries : List (ObjPtr × List Color)),
      env.loadShapes env.newHandle (targetOf env a.DocName) = .ok applied ∧
      (entries.map Prod.fst).Nodup ∧
      (∀ part colors, (part, colors) ∈ entries ↔ lastApplied applied part = some colors) ∧
      v = if applied = [] then PyObj.none
          else .list (entries.map (fun it => .tuple [.docObject it.1, .colorList it.2])) := by
  cases hr : (readStep env a).result with
  | error t =>
    rw [importer_result_error env a t (importerBody_result_read_error env a t hr)] at h
    exact Except.noConfusion h
  | ok u =>
    have hres := importer_result_after_read env a hr
    cases hl : env.loadShapes env.newHandle (targetOf env a.DocName) with
    | error f =>
      rw [hl] at hres
      rw [hres] at h
      exact Except.noConfusion h
    | ok applied =>
      rw [hl] at hres
      rw [hres] at h
      have hv : v = returnValue (partColorsOf applied) := (Except.ok.inj h).symm
      refine ⟨applied, partColorsOf applied, rfl, ?_, partColorsOf_mem applied, ?_⟩
      · exact (partColorsOf_sorted applied).imp (fun hlt => Nat.ne_of_lt hlt)
      · rw [hv, returnValue, partColorsOf_isEmpty]
        by_cases he : applied = [] <;> simp [he, colorTuples]

/-- C5 (amended) at a concrete input: colors applied to part 5, to part 3 and again
to part 5 give one tuple for part 3 and one for part 5 with its last colors. -/
theorem importer_returns_part_colors_witness :
    (importer colorsEnv { Name := "part.step" }).result =
        .ok (.list [.tuple [.docObject 3, .colorList [20]],
          .tuple [.docObject 5, .colorList [30]]]) ∧
      ∃ (applied : List (ObjPtr × List Color)) (entries : List (ObjPtr × List Color)),
        colorsEnv.loadShapes 7 1 = .ok applied ∧
        (entries.map Prod.fst).Nodup ∧
        (∀ part colors, (part, colors) ∈ entries ↔ lastApplied applied part = some colors) ∧
        PyObj.list [.tuple [.docObject 3, .colorList [20]],
            .tuple [.docObject 5, .colorList [30]]] =
          if applied = [] then PyObj.none
          else .list (entries.map (fun it => .tuple [.docObject it.1, .colorList it.2])) :=
  ⟨rfl, importer_returns_part_colors colorsEnv { Name := "part.step" } _ rfl⟩

/-! ## Facts about `exporter` -/

/-- The export phase of an `export` call, at the arguments `exporterBody` passes. -/
def exportPhase (env : Env) (a : ExporterArgs) (items : List PyObj) : Run Unit :=
  exportToDocument env a env.newHandle (resolveObjects items)

/-- The write phase of an `export` call, at the arguments `exporterBody` passes. -/
def writePhase (env : Env) (a : ExporterArgs) : Run Unit :=
  writeByExtension env a.Name (env.encodeFilename a.Name) env.newHandle

/-- The calls `exporterBody` makes after the export phase completed. -/
def afterExport (env : Env) (a : ExporterArgs) : List Event :=
  (writePhase env a).trace ++
    match (writePhase env a).result with
    | .ok _ => [.Close env.newHandle]
    | .error _ => []

theorem exporterBody_trace (env : Env) (a : ExporterArgs) (items : List PyObj)
    (hseq : asSequence a.object = some items) :
    (exporterBody env a).trace =
      .NewDocument env.newHandle ::
        ((exportPhase env a items).trace ++
          match (exportPhase env a items).result with
          | .ok _ => afterExport env a
          | .error _ => []) := by
  unfold exporterBody
  simp only [hseq]
  rw [Run.bind_trace_ok _ _ items rfl]
  rw [Run.bind_trace_ok _ _ () (Run.emit_result _)]
  simp only [Run.pure_trace, List.nil_append, Run.emit_trace, List.singleton_append,
    exportPhase, afterExport, writePhase]
  congr 1
  cases hr : (exportToDocument env a env.newHandle (resolveObjects items)).result with
  | error t => rw [Run.bind_trace_error _ _ t hr]; simp
  | ok u =>
    rw [Run.bind_trace_ok _ _ u hr]
    congr 1
    cases hw : (writeByExtension env a.Name (env.encodeFilename a.Name) env.newHandle).result with
    | error t => rw [Run.bind_trace_error _ _ t hw]; simp
    | ok u' => rw [Run.bind_trace_ok _ _ u' hw]; simp

theorem exporter_trace (env : Env) (a : ExporterArgs) :
    (exporter env a).trace = (exporterBody env a).trace := by
  unfold exporter
  cases hr : (tryCatch (exporterBody env a) translateAtBoundary).result with
  | ok v => rw [Run.bind_trace_ok _ _ v hr, tryCatch_boundary_trace]; simp
  | error t => rw [Run.bind_trace_error _ _ t hr, tryCatch_boundary_trace]

theorem exporter_result_error (env : Env) (a : ExporterArgs) (t : Thrown)
    (hr : (exporterBody env a).result = .error t) :
    (exporter env a).result = .error (atBoundary t) := by
  unfold exporter
  rw [Run.bind_result_error _ _ _ (tryCatch_boundary_error _ t hr)]

theorem exporter_result_ok (env : Env) (a : ExporterArgs)
    (hr : (exporterBody env a).result = .ok ()) :
    (exporter env a).result = .ok .none := by
  unfold exporter
  rw [Run.bind_result_ok _ _ _ (tryCatch_boundary_ok _ () hr)]
  rfl

theorem exporterBody_result_export_error (env : Env) (a : ExporterArgs) (items : List PyObj)
    (hseq : asSequence a.object = some items) (t : Thrown)
    (hr : (exportPhase env a items).result = .error t) :
    (exporterBody env a).result = .error t := by
  unfold exporterBody
  simp only [hseq]
  rw [Run.bind_result_ok _ _ items rfl]
  rw [Run.bind_result_ok _ _ () (Run.emit_result _)]
  exact Run.bind_result_error _ _ t hr

theorem exporterBody_result_of_write (env : Env) (a : ExporterArgs) (items : List PyObj)
    (hseq : asSequence a.object = some items)
    (hr : (exportPhase env a items).result = .ok ()) :
    (exporterBody env a).result = (writePhase env a).result := by
  unfold exporterBody
  simp only [hseq]
  rw [Run.bind_result_ok _ _ items rfl]
  rw [Run.bind_result_ok _ _ () (Run.emit_result _)]
  unfold exportPhase at hr
  rw [Run.bind_result_ok _ _ () hr]
  unfold writePhase
  cases hw : (writeByExtension env a.Name (env.encodeFilename a.Name) env.newHandle).result with
  | error t => rw [Run.bind_result_error _ _ t hw]
  | ok u => rw [Run.bind_result_ok _ _ u hw]; rfl

/-- A call of the object exporters `ExportOCAF2` and `ExportOCAF`. -/
def Event.isExportCall : Event → Bool
  | .ExportOCAF2_new _ => true
  | .canFallback _ => true
  | .setExportOptions => true
  | .setExportHiddenObject _ => true
  | .setKeepPlacement _ => true
  | .exportObjects _ => true
  | .ExportOCAF_new _ _ => true
  | .exportObject _ => true
  | .getFreeLabels => true
  | .UpdateAssemblies _ => true
  | _ => false

/-- A call of the STEP writer. -/
def Event.isStepWrite : Event → Bool
  | .writeStepAssembly => true
  | .StepWriter_Transfer _ => true
  | .StepWriter_Header _ _ _ _ => true
  | .StepWriter_Write _ _ => true
  | _ => false

/-- A call of the IGES writer. -/
def Event.isIgesWrite : Event → Bool
  | .IGESControl_Controller_Init => true
  | .IgesWriter_Header _ _ _ => true
  | .IgesWriter_Transfer _ => true
  | .IgesWriter_Write _ _ => true
  | _ => false

/-- A call of the glTF writer. -/
def Event.isGltfWrite : Event → Bool
  | .GltfWriter_new _ _ => true
  | .GltfWriter_Configure _ => true
  | .GltfWriter_Perform _ _ => true
  | _ => false

theorem writeStep_stepWrite (env : Env) (Utf8Name name8bit : String) (hDoc : DocHandle) :
    Run.All (fun e => e.isStepWrite = true) (writeStep env Utf8Name name8bit hDoc) := by
  unfold Import.writeStep
  repeat' first
    | apply Run.All.bind | apply Run.All.whenever | apply Run.All.ite | apply Run.All.emit
    | apply Run.All.call | exact Run.All.raise _ _ | exact Run.All.pure _ _ | intro _ | rfl

theorem writeIges_igesWrite (env : Env) (Utf8Name name8bit : String) (hDoc : DocHandle) :
    Run.All (fun e => e.isIgesWrite = true) (writeIges env Utf8Name name8bit hDoc) := by
  unfold writeIges
  repeat' first
    | apply Run.All.bind | apply Run.All.whenever | apply Run.All.ite | apply Run.All.emit
    | apply Run.All.call | exact Run.All.raise _ _ | exact Run.All.pure _ _ | intro _ | rfl

theorem writeGltf_gltfWrite (env : Env) (Utf8Name name8bit : String) (hDoc : DocHandle) :
    Run.All (fun e => e.isGltfWrite = true) (writeGltf env Utf8Name name8bit hDoc) := by
  unfold writeGltf
  repeat' first
    | apply Run.All.bind | apply Run.All.whenever | apply Run.All.ite | apply Run.All.emit
    | apply Run.All.call | exact Run.All.raise _ _ | exact Run.All.pure _ _ | intro _ | rfl

theorem Run.All.mono {α : Type} {P Q : Event → Prop} {x : Run α} (h : Run.All P x)
    (hPQ : ∀ e, P e → Q e) : Run.All Q x :=
  fun e he => hPQ e (h e he)

theorem writer_not_export (e : Event)
    (h : e.isStepWrite = true ∨ e.isIgesWrite = true ∨ e.isGltfWrite = true) :
    e.isExportCall = false := by
  cases e <;> simp_all [Event.isStepWrite, Event.isIgesWrite, Event.isGltfWrite,
    Event.isExportCall]

/-- Every call of the write phase belongs to one of the three writers. -/
theorem writePhase_writer (env : Env) (a : ExporterArgs) :
    Run.All (fun e => e.isStepWrite = true ∨ e.isIgesWrite = true ∨ e.isGltfWrite = true)
      (writePhase env a) := by
  unfold writePhase writeByExtension
  refine Run.All.ite ((writeStep_stepWrite env _ _ _).mono (fun e h => Or.inl h)) ?_
  refine Run.All.ite ((writeIges_igesWrite env _ _ _).mono (fun e h => Or.inr (Or.inl h))) ?_
  exact Run.All.ite ((writeGltf_gltfWrite env _ _ _).mono (fun e h => Or.inr (Or.inr h)))
    (Run.All.pure _ _)

theorem afterExport_not_export (env : Env) (a : ExporterArgs) :
    ∀ e ∈ afterExport env a, e.isExportCall = false := by
  intro e he
  unfold afterExport at he
  rcases List.mem_append.mp he with h | h
  · exact writer_not_export e (writePhase_writer env a e h)
  · cases hw : (writePhase env a).result with
    | ok u => simp [hw] at h; subst h; rfl
    | error t => simp [hw] at h

/-- The calls of the object exporters in an `export` call are those of its export
phase. -/
theorem exporter_export_call_iff (env : Env) (a : ExporterArgs) (items : List PyObj)
    (hseq : asSequence a.object = some items) (e : Event) (he : e.isExportCall = true) :
    e ∈ (exporter env a).trace ↔ e ∈ (exportPhase env a items).trace := by
  rw [exporter_trace, exporterBody_trace env a items hseq]
  constructor
  · intro h
    rcases List.mem_cons.mp h with h | h
    · subst h; exact Bool.noConfusion he
    · rcases List.mem_append.mp h with h | h
      · exact h
      · cases hr : (exportPhase env a items).result with
        | ok u =>
          simp only [hr] at h
          rw [afterExport_not_export env a e h] at he
          exact Bool.noConfusion he
        | error t => simp [hr] at h
  · intro h
    exact List.mem_cons_of_mem _ (List.mem_append_left _ h)

/-- The calls a conditional setter makes. -/
def givenEvents (x : Option Bool) (setter : Bool → Event) : List Event :=
  match x with
  | some b => [setter b]
  | none => []

theorem whenGiven_trace (x : Option Bool) (setter : Bool → Event) :
    (whenGiven x setter).trace = givenEvents x setter := by
  cases x <;> rfl

/-- The condition of line 354 under which the legacy exporter is used. -/
def legacyChosen (env : Env) (a : ExporterArgs) (objs : List ObjPtr) : Prop :=
  a.legacy.getD env.getExportLegacy = true ∧ env.canFallback objs = true

instance (env : Env) (a : ExporterArgs) (objs : List ObjPtr) :
    Decidable (legacyChosen env a objs) := by
  unfold legacyChosen
  infer_instance

theorem effectiveLegacy_eq (env : Env) (legacy : Option Bool) :
    effectiveLegacy env legacy = legacy.getD env.getExportLegacy := by
  cases legacy <;> rfl

/-- The export phase when the full-featured exporter is chosen. -/
theorem exportPhase_full (env : Env) (a : ExporterArgs) (items : List PyObj)
    (h : ¬ legacyChosen env a (resolveObjects items)) :
    (exportPhase env a items).trace =
        .ExportOCAF2_new env.newHandle ::
          ((if a.legacy.getD env.getExportLegacy = true then
              [Event.canFallback (resolveObjects items)] else []) ++
            .setExportOptions ::
              (givenEvents a.exportHidden .setExportHiddenObject ++
                (givenEvents a.keepPlacement .setKeepPlacement ++
                  [.exportObjects (resolveObjects items)]))) ∧
      (exportPhase env a items).result =
        match env.exportObjects (resolveObjects items) with
        | .ok _ => .ok ()
        | .error f => .error (.fault f) := by
  unfold legacyChosen at h
  unfold exportPhase exportToDocument useFullExporter
  rw [effectiveLegacy_eq]
  cases hl : a.legacy.getD env.getExportLegacy <;>
    cases hc : env.canFallback (resolveObjects items) <;>
    cases hh : a.exportHidden <;> cases hk : a.keepPlacement <;>
    cases ho : env.exportObjects (resolveObjects items) <;>
    simp_all [Run.bind_eq, Run.bind, emit, call, whenGiven, givenEvents]

/-- The loop of lines 373--375 over the resolved objects. -/
def legacyLoop (env : Env) (objs : List ObjPtr) : Run Unit :=
  forEach (fun obj => call (.exportObject obj) (env.exportObject obj)) objs

/-- The object of an `exportObject` call. -/
def Event.exportedObject : Event → Option ObjPtr
  | .exportObject obj => some obj
  | _ => none

theorem legacyLoop_cons (env : Env) (o : ObjPtr) (rest : List ObjPtr) :
    legacyLoop env (o :: rest) =
      match env.exportObject o with
      | .ok _ => ⟨.exportObject o :: (legacyLoop env rest).trace, (legacyLoop env rest).result⟩
      | .error f => ⟨[.exportObject o], .error (.fault f)⟩ := by
  unfold legacyLoop
  cases h : env.exportObject o <;> simp [forEach, Run.bind_eq, Run.bind, call, h]

/-- The loop calls `exportObject` for the objects in order, up to the first one
that throws. -/
theorem legacyLoop_trace (env : Env) (objs : List ObjPtr) :
    ∃ k, (legacyLoop env objs).trace = (objs.take k).map Event.exportObject := by
  induction objs with
  | nil => exact ⟨0, rfl⟩
  | cons o rest ih =>
    rw [legacyLoop_cons]
    cases env.exportObject o with
    | error f => exact ⟨1, by simp⟩
    | ok u =>
      obtain ⟨k, hk⟩ := ih
      exact ⟨k + 1, by simp [hk]⟩

/-- When no `exportObject` call throws, the loop exports every object. -/
theorem legacyLoop_all (env : Env) (objs : List ObjPtr)
    (hok : ∀ o ∈ objs, env.exportObject o = .ok ()) :
    legacyLoop env objs = ⟨objs.map Event.exportObject, .ok ()⟩ := by
  induction objs with
  | nil => rfl
  | cons o rest ih =>
    rw [legacyLoop_cons, hok o (List.mem_cons_self _ _)]
    simp [ih (fun o' ho' => hok o' (List.mem_cons_of_mem _ ho'))]

/-- The export phase when the legacy exporter is chosen. -/
theorem exportPhase_legacy (env : Env) (a : ExporterArgs) (items : List PyObj)
    (h : legacyChosen env a (resolveObjects items)) :
    (exportPhase env a items).trace =
      [.ExportOCAF2_new env.newHandle, .canFallback (resolveObjects items),
          .ExportOCAF_new env.newHandle true] ++
        ((legacyLoop env (resolveObjects items)).trace ++
          match (legacyLoop env (resolveObjects items)).result with
          | .ok _ => [.getFreeLabels, .UpdateAssemblies env.newHandle]
          | .error _ => []) := by
  unfold legacyChosen at h
  unfold exportPhase exportToDocument useFullExporter
  rw [effectiveLegacy_eq, h.1]
  simp only [Bool.not_true, Bool.false_eq_true, if_false, h.2]
  rw [Run.bind_trace_ok _ _ () (Run.emit_result _)]
  rw [Run.bind_trace_ok _ _ false (by simp [Run.bind_eq, Run.bind, emit])]
  simp only [Bool.false_eq_true, if_false]
  rw [Run.bind_trace_ok _ _ () (Run.emit_result _)]
  change _ ++ (_ ++ (_ ++ (legacyLoop env (resolveObjects items) >>= _).trace)) = _
  cases hr : (legacyLoop env (resolveObjects items)).result with
  | error t => rw [Run.bind_trace_error _ _ t hr]; simp [Run.bind_eq, Run.bind, emit]
  | ok u => rw [Run.bind_trace_ok _ _ u hr]; simp [Run.bind_eq, Run.bind, emit]

theorem mem_givenEvents (x : Option Bool) (setter : Bool → Event) (e : Event) :
    e ∈ givenEvents x setter ↔ ∃ b, x = some b ∧ e = setter b := by
  cases x <;> simp [givenEvents]

/-- C6 (amended): with `legacy` the caller's argument when given and the persisted
default otherwise, an `export` call whose first argument is a sequence uses the
legacy exporter `ExportOCAF` exactly when `legacy` is true and `canFallback(objs)`
holds, and the full-featured `ExportOCAF2::exportObjects` exactly in the other
case, so exactly one of the two runs; `setExportHiddenObject` and
`setKeepPlacement` are applied to the full-featured exporter exactly when the
caller supplied the value, with that value.  When the first argument is no
sequence the call raises a `TypeError` without any call, so neither exporter
runs. -/
theorem exporter_legacy_decision (env : Env) (a : ExporterArgs) :
    (∀ items, asSequence a.object = some items →
      (Event.ExportOCAF_new env.newHandle true ∈ (exporter env a).trace ↔
        (a.legacy.getD env.getExportLegacy = true ∧
          env.canFallback (resolveObjects items) = true)) ∧
      (Event.exportObjects (resolveObjects items) ∈ (exporter env a).trace ↔
        ¬ (a.legacy.getD env.getExportLegacy = true ∧
          env.canFallback (resolveObjects items) = true)) ∧
      (∀ b, Event.setExportHiddenObject b ∈ (exporter env a).trace ↔
        (¬ (a.legacy.getD env.getExportLegacy = true ∧
          env.canFallback (resolveObjects items) = true) ∧ a.exportHidden = some b)) ∧
      (∀ b, Event.setKeepPlacement b ∈ (exporter env a).trace ↔
        (¬ (a.legacy.getD env.getExportLegacy = true ∧
          env.canFallback (resolveObjects items) = true) ∧ a.keepPlacement = some b))) ∧
    (asSequence a.object = none →
      (exporter env a).trace = [] ∧
      (exporter env a).result = .error (.Py_Exception
        (.PyExc_TypeError "PyCXX: Error creating object of type Py::Sequence"))) := by
  refine ⟨fun items hseq => ?_, fun hseq => ?_⟩
  swap
  · unfold exporter exporterBody
    simp only [hseq]
    exact ⟨rfl, rfl⟩
  have h1 := exporter_export_call_iff env a items hseq (.ExportOCAF_new env.newHandle true) rfl
  have h2 := exporter_export_call_iff env a items hseq (.exportObjects (resolveObjects items))
    rfl
  have h3 := fun b => exporter_export_call_iff env a items hseq (.setExportHiddenObject b) rfl
  have h4 := fun b => exporter_export_call_iff env a items hseq (.setKeepPlacement b) rfl
  rw [h1, h2]
  by_cases hc : legacyChosen env a (resolveObjects items)
  · have hc' := hc
    unfold legacyChosen at hc'
    have htr := exportPhase_legacy env a items hc
    obtain ⟨k, hk⟩ := legacyLoop_trace env (resolveObjects items)
    have hloop : ∀ e ∈ (legacyLoop env (resolveObjects items)).trace,
        ∃ o, e = Event.exportObject o := by
      intro e he
      rw [hk] at he
      obtain ⟨o, _, ho⟩ := List.mem_map.mp he
      exact ⟨o, ho.symm⟩
    have hno : ∀ e ∈ (exportPhase env a items).trace,
        (∀ l, e ≠ .exportObjects l) ∧ (∀ b, e ≠ .setExportHiddenObject b) ∧
          (∀ b, e ≠ .setKeepPlacement b) := by
      intro e he
      rw [htr] at he
      simp only [List.mem_append, List.mem_cons, List.mem_singleton, List.not_mem_nil,
        or_false] at he
      rcases he with (h | h | h) | h | h
      · subst h; exact ⟨fun _ => Event.noConfusion, fun _ => Event.noConfusion,
          fun _ => Event.noConfusion⟩
      · subst h; exact ⟨fun _ => Event.noConfusion, fun _ => Event.noConfusion,
          fun _ => Event.noConfusion⟩
      · subst h; exact ⟨fun _ => Event.noConfusion, fun _ => Event.noConfusion,
          fun _ => Event.noConfusion⟩
      · obtain ⟨o, ho⟩ := hloop e h
        subst ho
        exact ⟨fun _ => Event.noConfusion, fun _ => Event.noConfusion,
          fun _ => Event.noConfusion⟩
      · cases hr : (legacyLoop env (resolveObjects items)).result with
        | error t => simp [hr] at h
        | ok u =>
          simp only [hr, List.mem_cons, List.mem_singleton, List.not_mem_nil, or_false] at h
          rcases h with h | h <;> subst h <;>
            exact ⟨fun _ => Event.noConfusion, fun _ => Event.noConfusion,
              fun _ => Event.noConfusion⟩
    refine ⟨⟨fun _ => hc', fun _ => ?_⟩, ⟨fun hm => ?_, fun hn => absurd hc' hn⟩,
      fun b => ?_, fun b => ?_⟩
    · rw [htr]; simp
    · exact absurd rfl ((hno _ hm).1 _)
    · rw [h3 b]
      exact ⟨fun hm => absurd rfl ((hno _ hm).2.1 b), fun hn => absurd hc' hn.1⟩
    · rw [h4 b]
      exact ⟨fun hm => absurd rfl ((hno _ hm).2.2 b), fun hn => absurd hc' hn.1⟩
  · have hc' := hc
    unfold legacyChosen at hc'
    have htr := (exportPhase_full env a items hc).1
    refine ⟨⟨fun hm => ?_, fun hn => absurd hn hc'⟩, ⟨fun _ => hc', fun _ => ?_⟩,
      fun b => ?_, fun b => ?_⟩
    · rw [htr] at hm
      simp only [List.mem_cons, List.mem_append, List.mem_singleton, mem_givenEvents,
        List.not_mem_nil, or_false] at hm
      rcases hm with h | h | h | h | h | h
      · exact Event.noConfusion h
      · split at h <;> simp at h
      · exact Event.noConfusion h
      · obtain ⟨_, _, h⟩ := h; exact Event.noConfusion h
      · obtain ⟨_, _, h⟩ := h; exact Event.noConfusion h
      · exact Event.noConfusion h
    · rw [htr]; simp
    · rw [h3 b, htr]
      simp only [List.mem_cons, List.mem_append, List.mem_singleton, mem_givenEvents,
        List.not_mem_nil, or_false]
      constructor
      · rintro (h | h | h | h | h | h)
        · exact Event.noConfusion h
        · split at h <;> simp at h
        · exact Event.noConfusion h
        · obtain ⟨b', hb', h⟩ := h
          rw [Event.setExportHiddenObject.inj h]
          exact ⟨hc', hb'⟩
        · obtain ⟨_, _, h⟩ := h; exact Event.noConfusion h
        · exact Event.noConfusion h
      · rintro ⟨_, hb⟩
        exact Or.inr (Or.inr (Or.inr (Or.inl ⟨b, hb, rfl⟩)))
    · rw [h4 b, htr]
      simp only [List.mem_cons, List.mem_append, List.mem_singleton, mem_givenEvents,
        List.not_mem_nil, or_false]
      constructor
      · rintro (h | h | h | h | h | h)
        · exact Event.noConfusion h
        · split at h <;> simp at h
        · exact Event.noConfusion h
        · obtain ⟨_, _, h⟩ := h; exact Event.noConfusion h
        · obtain ⟨b', hb', h⟩ := h
          rw [Event.setKeepPlacement.inj h]
          exact ⟨hc', hb'⟩
        · exact Event.noConfusion h
      · rintro ⟨_, hb⟩
        exact Or.inr (Or.inr (Or.inr (Or.inr (Or.inl ⟨b, hb, rfl⟩))))

/-- C6 (counterexample): `export(5, "out.step")`: the first argument is no
sequence, so the call raises a `TypeError` before either exporter is constructed
and neither of the two runs. -/
theorem export_of_non_sequence_runs_no_exporter :
    (exporter sampleEnv { object := .int 5, Name := "out.step" }).trace = [] ∧
      (exporter sampleEnv { object := .int 5, Name := "out.step" }).result =
        .error (.Py_Exception
          (.PyExc_TypeError "PyCXX: Error creating object of type Py::Sequence")) ∧
      Event.ExportOCAF_new 7 true ∉
        (exporter sampleEnv { object := .int 5, Name := "out.step" }).trace ∧
      Event.exportObjects [] ∉
        (exporter sampleEnv { object := .int 5, Name := "out.step" }).trace :=
  ⟨by decide, rfl, by decide, by decide⟩

/-- C6 (amended) at concrete inputs: with `legacy=True` and a feasible object set the legacy
exporter runs; with the persisted default `false` the full-featured one runs and
gets the caller's `exportHidden`. -/
theorem exporter_legacy_decision_witness :
    Event.ExportOCAF_new 7 true ∈
        (exporter sampleEnv
          { object := .list [.docObject 3], Name := "out.step", legacy := some true }).trace ∧
      Event.exportObjects [3] ∈
        (exporter sampleEnv
          { object := .list [.docObject 3], Name := "out.step",
            exportHidden := some false }).trace ∧
      Event.setExportHiddenObject false ∈
        (exporter sampleEnv
          { object := .list [.docObject 3], Name := "out.step",
            exportHidden := some false }).trace :=
  ⟨((exporter_legacy_decision sampleEnv
      { object := .list [.docObject 3], Name := "out.step", legacy := some true }).1
      [.docObject 3] rfl).1.mpr ⟨rfl, rfl⟩,
    ((exporter_legacy_decision sampleEnv
      { object := .list [.docObject 3], Name := "out.step", exportHidden := some false }).1
      [.docObject 3] rfl).2.1.mpr (by decide),
    (((exporter_legacy_decision sampleEnv
      { object := .list [.docObject 3], Name := "out.step", exportHidden := some false }).1
      [.docObject 3] rfl).2.2.1 false).mpr ⟨by decide, rfl⟩⟩

/-! ## Object resolution -/

theorem resolveObjects_eq_filter (items : List PyObj) :
    (resolveObjects items).map PyObj.docObject = items.filter isDocumentObjectPy := by
  induction items with
  | nil => rfl
  | cons x xs ih =>
    cases x <;> simp_all [resolveObjects, asDocumentObject, isDocumentObjectPy]

theorem resolveObjects_filter (items : List PyObj) :
    resolveObjects (items.filter isDocumentObjectPy) = resolveObjects items := by
  induction items with
  | nil => rfl
  | cons x xs ih =>
    cases x <;> simp_all [resolveObjects, asDocumentObject, isDocumentObjectPy]

theorem exportedObject_isExportCall (e : Event) (o : ObjPtr)
    (h : e.exportedObject = some o) : e.isExportCall = true := by
  cases e <;> simp_all [Event.exportedObject, Event.isExportCall]

theorem filterMap_exportedObject_nil (l : List Event)
    (h : ∀ e ∈ l, e.isExportCall = false) : l.filterMap Event.exportedObject = [] := by
  induction l with
  | nil => rfl
  | cons x xs ih =>
    have hx : x.exportedObject = none := by
      cases hx : x.exportedObject with
      | none => rfl
      | some o =>
        have := exportedObject_isExportCall x o hx
        rw [h x (List.mem_cons_self _ _)] at this
        exact Bool.noConfusion this
    rw [List.filterMap_cons, hx]
    exact ih (fun e he => h e (List.mem_cons_of_mem _ he))

theorem filterMap_exportedObject_map (objs : List ObjPtr) :
    (objs.map Event.exportObject).filterMap Event.exportedObject = objs := by
  induction objs with
  | nil => rfl
  | cons o rest ih => simp [Event.exportedObject, ih]

theorem exportPhase_mem_list (env : Env) (a : ExporterArgs) (items : List PyObj) (e : Event)
    (he : e ∈ (exportPhase env a items).trace) :
    (∀ l, e = .exportObjects l → l = resolveObjects items) ∧
      (∀ l, e = .canFallback l → l = resolveObjects items) := by
  by_cases hc : legacyChosen env a (resolveObjects items)
  · rw [exportPhase_legacy env a items hc] at he
    obtain ⟨k, hk⟩ := legacyLoop_trace env (resolveObjects items)
    simp only [List.mem_append, List.mem_cons, List.mem_singleton, List.not_mem_nil,
      or_false] at he
    rcases he with (h | h | h) | h | h
    · subst h; exact ⟨fun _ => Event.noConfusion, fun _ => Event.noConfusion⟩
    · subst h; exact ⟨fun _ => Event.noConfusion, fun l hl => (Event.canFallback.inj hl).symm⟩
    · subst h; exact ⟨fun _ => Event.noConfusion, fun _ => Event.noConfusion⟩
    · rw [hk] at h
      obtain ⟨o, _, ho⟩ := List.mem_map.mp h
      subst ho
      exact ⟨fun _ => Event.noConfusion, fun _ => Event.noConfusion⟩
    · cases hr : (legacyLoop env (resolveObjects items)).result with
      | error t => simp [hr] at h
      | ok u =>
        simp only [hr, List.mem_cons, List.mem_singleton, List.not_mem_nil, or_false] at h
        rcases h with h | h <;> subst h <;>
          exact ⟨fun _ => Event.noConfusion, fun _ => Event.noConfusion⟩
  · rw [(exportPhase_full env a items hc).1] at he
    simp only [List.mem_cons, List.mem_append, List.mem_singleton, mem_givenEvents,
      List.not_mem_nil, or_false] at he
    rcases he with h | h | h | h | h | h
    · subst h; exact ⟨fun _ => Event.noConfusion, fun _ => Event.noConfusion⟩
    · split at h
      · simp only [List.mem_singleton] at h
        subst h
        exact ⟨fun _ => Event.noConfusion, fun l hl => (Event.canFallback.inj hl).symm⟩
      · simp at h
    · subst h; exact ⟨fun _ => Event.noConfusion, fun _ => Event.noConfusion⟩
    · obtain ⟨_, _, h⟩ := h
      subst h; exact ⟨fun _ => Event.noConfusion, fun _ => Event.noConfusion⟩
    · obtain ⟨_, _, h⟩ := h
      subst h; exact ⟨fun _ => Event.noConfusion, fun _ => Event.noConfusion⟩
    · subst h; exact ⟨fun l hl => (Event.exportObjects.inj hl).symm, fun _ => Event.noConfusion⟩

theorem exportPhase_exported (env : Env) (a : ExporterArgs) (items : List PyObj) :
    ∃ k, (exportPhase env a items).trace.filterMap Event.exportedObject =
      (resolveObjects items).take k := by
  by_cases hc : legacyChosen env a (resolveObjects items)
  · rw [exportPhase_legacy env a items hc]
    obtain ⟨k, hk⟩ := legacyLoop_trace env (resolveObjects items)
    refine ⟨k, ?_⟩
    rw [List.filterMap_append, List.filterMap_append, hk, filterMap_exportedObject_map]
    have h1 : List.filterMap Event.exportedObject
        [.ExportOCAF2_new env.newHandle, .canFallback (resolveObjects items),
          .ExportOCAF_new env.newHandle true] = [] := rfl
    have h2 : List.filterMap Event.exportedObject
        (match (legacyLoop env (resolveObjects items)).result with
          | .ok _ => [Event.getFreeLabels, Event.UpdateAssemblies env.newHandle]
          | .error _ => []) = [] := by
      cases (legacyLoop env (resolveObjects items)).result <;> rfl
    rw [h1, h2]
    simp
  · refine ⟨0, ?_⟩
    rw [(exportPhase_full env a items hc).1, List.take_zero, List.filterMap_eq_nil_iff]
    intro e he
    simp only [List.mem_cons, List.mem_append, List.mem_singleton, mem_givenEvents,
      List.not_mem_nil, or_false] at he
    rcases he with h | h | h | h | h | h
    · subst h; rfl
    · split at h
      · simp only [List.mem_singleton] at h
        subst h; rfl
      · simp at h
    · subst h; rfl
    · obtain ⟨_, _, h⟩ := h
      subst h; rfl
    · obtain ⟨_, _, h⟩ := h
      subst h; rfl
    · subst h; rfl

theorem exportPhase_starts (env : Env) (a : ExporterArgs) (items : List PyObj) :
    Event.ExportOCAF2_new env.newHandle ∈ (exportPhase env a items).trace := by
  unfold exportPhase exportToDocument
  exact Run.mem_bind_left _ (by simp)

/-- C7: for a sequence passed as the first argument of `export`, the list of
objects handed to the exporters is the subsequence of the entries that are
document objects, in their order; all other entries are skipped: they raise no
error and change nothing in the run. -/
theorem exporter_resolves_document_objects (env : Env) (a : ExporterArgs) (items : List PyObj)
    (hseq : asSequence a.object = some items) :
    (resolveObjects items).map PyObj.docObject = items.filter isDocumentObjectPy ∧
    (∀ l, Event.exportObjects l ∈ (exporter env a).trace → l = resolveObjects items) ∧
    (∀ l, Event.canFallback l ∈ (exporter env a).trace → l = resolveObjects items) ∧
    (∃ k, (exporter env a).trace.filterMap Event.exportedObject =
      (resolveObjects items).take k) ∧
    Event.ExportOCAF2_new env.newHandle ∈ (exporter env a).trace ∧
    exporter env a = exporter env { a with object := .list (items.filter isDocumentObjectPy) } := by
  refine ⟨resolveObjects_eq_filter items, fun l hl => ?_, fun l hl => ?_, ?_, ?_, ?_⟩
  · rw [exporter_export_call_iff env a items hseq (.exportObjects l) rfl] at hl
    exact (exportPhase_mem_list env a items _ hl).1 l rfl
  · rw [exporter_export_call_iff env a items hseq (.canFallback l) rfl] at hl
    exact (exportPhase_mem_list env a items _ hl).2 l rfl
  · obtain ⟨k, hk⟩ := exportPhase_exported env a items
    refine ⟨k, ?_⟩
    rw [exporter_trace, exporterBody_trace env a items hseq, List.filterMap_cons,
      List.filterMap_append, hk]
    have h2 : List.filterMap Event.exportedObject
        (match (exportPhase env a items).result with
          | .ok _ => afterExport env a
          | .error _ => []) = [] := by
      cases (exportPhase env a items).result with
      | ok u => exact filterMap_exportedObject_nil _ (afterExport_not_export env a)
      | error t => rfl
    rw [h2]
    simp [Event.exportedObject]
  · exact (exporter_export_call_iff env a items hseq (.ExportOCAF2_new env.newHandle) rfl).mpr
      (exportPhase_starts env a items)
  · have hb : exporterBody env a =
        exporterBody env { a with object := .list (items.filter isDocumentObjectPy) } := by
      unfold exporterBody
      simp only [hseq]
      rw [Run.pure_bind]
      show _ = (pure (items.filter isDocumentObjectPy) >>= _)
      rw [Run.pure_bind, resolveObjects_filter]
      rfl
    unfold exporter
    rw [hb]

/-- C7 at a concrete input: of the entries `[obj 3, 4, "x", obj 5]` the document
objects are 3 and 5, in that order, and the run is the run on `[obj 3, obj 5]`. -/
theorem exporter_resolves_document_objects_witness :
    (resolveObjects [.docObject 3, .int 4, .str "x", .docObject 5]).map PyObj.docObject =
        [.docObject 3, .docObject 5] ∧
      Event.ExportOCAF2_new 7 ∈
        (exporter sampleEnv
          { object := .list [.docObject 3, .int 4, .str "x", .docObject 5],
            Name := "out.step" }).trace ∧
      exporter sampleEnv
          { object := .list [.docObject 3, .int 4, .str "x", .docObject 5],
            Name := "out.step" } =
        exporter sampleEnv { object := .list [.docObject 3, .docObject 5], Name := "out.step" } :=
  ⟨(exporter_resolves_document_objects sampleEnv
      { object := .list [.docObject 3, .int 4, .str "x", .docObject 5], Name := "out.step" }
      [.docObject 3, .int 4, .str "x", .docObject 5] rfl).1,
    (exporter_resolves_document_objects sampleEnv
      { object := .list [.docObject 3, .int 4, .str "x", .docObject 5], Name := "out.step" }
      [.docObject 3, .int 4, .str "x", .docObject 5] rfl).2.2.2.2.1,
    (exporter_resolves_document_objects sampleEnv
      { object := .list [.docObject 3, .int 4, .str "x", .docObject 5], Name := "out.step" }
      [.docObject 3, .int 4, .str "x", .docObject 5] rfl).2.2.2.2.2⟩

/-! ## The write phase -/

theorem Run.All.forEach {α : Type} {P : Event → Prop} {body : α → Run Unit}
    (h : ∀ x, Run.All P (body x)) (xs : List α) : Run.All P (forEach body xs) := by
  induction xs with
  | nil => exact Run.All.pure P ()
  | cons x rest ih =>
    unfold Import.forEach
    exact Run.All.bind (h x) (fun _ => ih)

theorem useFullExporter_exportCall (env : Env) (legacy : Bool) (objs : List ObjPtr) :
    Run.All (fun e => e.isExportCall = true) (useFullExporter env legacy objs) := by
  unfold useFullExporter
  repeat' first
    | apply Run.All.bind | apply Run.All.whenever | apply Run.All.ite | apply Run.All.emit
    | apply Run.All.call | exact Run.All.raise _ _ | exact Run.All.pure _ _ | intro _ | rfl

/-- Every call of the export phase is a call of the object exporters. -/
theorem exportPhase_exportCall (env : Env) (a : ExporterArgs) (items : List PyObj) :
    Run.All (fun e => e.isExportCall = true) (exportPhase env a items) := by
  unfold exportPhase exportToDocument
  refine Run.All.bind (Run.All.emit rfl) (fun _ => ?_)
  refine Run.All.bind (useFullExporter_exportCall env _ _) (fun full => ?_)
  cases full
  · refine Run.All.bind (Run.All.emit rfl) (fun _ => ?_)
    have hloop : Run.All (fun e => e.isExportCall = true)
        (forEach (fun obj => call (.exportObject obj) (env.exportObject obj))
          (resolveObjects items)) := by
      apply Run.All.forEach
      intro obj
      apply Run.All.call
      rfl
    refine Run.All.bind hloop (fun _ => ?_)
    exact Run.All.bind (Run.All.emit rfl) (fun _ => Run.All.emit rfl)
  · refine Run.All.bind (Run.All.emit rfl) (fun _ => ?_)
    refine Run.All.bind (whenGiven_all _ _ (fun _ => rfl)) (fun _ => ?_)
    refine Run.All.bind (whenGiven_all _ _ (fun _ => rfl)) (fun _ => ?_)
    exact Run.All.call _ rfl

/-- A call of one of the three file writers. -/
def Event.isWriterCall (e : Event) : Bool :=
  e.isStepWrite || e.isIgesWrite || e.isGltfWrite

theorem writePhase_writerCall (env : Env) (a : ExporterArgs) :
    Run.All (fun e => e.isWriterCall = true) (writePhase env a) :=
  (writePhase_writer env a).mono (fun e h => by
    unfold Event.isWriterCall
    rcases h with h | h | h <;> simp [h])

theorem exportCall_not_writer (e : Event) (h : e.isExportCall = true) :
    e.isWriterCall = false := by
  cases e <;> simp_all [Event.isStepWrite, Event.isIgesWrite, Event.isGltfWrite,
    Event.isExportCall, Event.isWriterCall]

/-- The writer calls of an `export` call are those of its write phase, which runs
when the export phase completes. -/
theorem exporter_writer_call_iff (env : Env) (a : ExporterArgs) (items : List PyObj)
    (hseq : asSequence a.object = some items) (e : Event) (he : e.isWriterCall = true) :
    e ∈ (exporter env a).trace ↔
      (exportPhase env a items).result = .ok () ∧ e ∈ (writePhase env a).trace := by
  rw [exporter_trace, exporterBody_trace env a items hseq]
  constructor
  · intro h
    rcases List.mem_cons.mp h with h | h
    · subst h; exact Bool.noConfusion he
    · rcases List.mem_append.mp h with h | h
      · rw [exportCall_not_writer e (exportPhase_exportCall env a items e h)] at he
        exact Bool.noConfusion he
      · cases hr : (exportPhase env a items).result with
        | error t => simp [hr] at h
        | ok u =>
          simp only [hr, afterExport] at h
          refine ⟨rfl, ?_⟩
          rcases List.mem_append.mp h with h | h
          · exact h
          · cases hw : (writePhase env a).result with
            | error t => simp [hw] at h
            | ok u' => simp [hw] at h; subst h; exact Bool.noConfusion he
  · rintro ⟨hr, h⟩
    refine List.mem_cons_of_mem _ (List.mem_append_right _ ?_)
    simp only [hr, afterExport]
    exact List.mem_append_left _ h

/-- An `export` call whose first argument is no sequence makes no call at all and
raises the `TypeError` of `Py::Sequence`. -/
theorem exporter_not_sequence (env : Env) (a : ExporterArgs) (hseq : asSequence a.object = none) :
    exporter env a =
      ⟨[], .error (.Py_Exception
        (.PyExc_TypeError "PyCXX: Error creating object of type Py::Sequence"))⟩ := by
  unfold exporter exporterBody
  simp only [hseq]
  rfl

/-- The export phase leaves only through a collaborator's exception. -/
theorem exportPhase_error_fault (env : Env) (a : ExporterArgs) (items : List PyObj)
    (t : Thrown) (h : (exportPhase env a items).result = .error t) : ∃ f, t = .fault f := by
  by_cases hc : legacyChosen env a (resolveObjects items)
  · have hloop : ∀ objs, ∀ t, (legacyLoop env objs).result = .error t → ∃ f, t = .fault f := by
      intro objs
      induction objs with
      | nil => intro t ht; exact Except.noConfusion ht
      | cons o rest ih =>
        intro t ht
        rw [legacyLoop_cons] at ht
        cases ho : env.exportObject o with
        | error f =>
          rw [ho] at ht
          exact ⟨f, (Except.error.inj ht).symm⟩
        | ok u =>
          rw [ho] at ht
          exact ih t ht
    unfold legacyChosen at hc
    unfold exportPhase exportToDocument useFullExporter at h
    rw [effectiveLegacy_eq, hc.1] at h
    simp only [Bool.not_true, Bool.false_eq_true, if_false, hc.2] at h
    rw [Run.bind_result_ok _ _ () (Run.emit_result _)] at h
    rw [Run.bind_result_ok _ _ false (by simp [Run.bind_eq, Run.bind, emit])] at h
    simp only [Bool.false_eq_true, if_false] at h
    rw [Run.bind_result_ok _ _ () (Run.emit_result _)] at h
    change (legacyLoop env (resolveObjects items) >>= _).result = _ at h
    cases hr : (legacyLoop env (resolveObjects items)).result with
    | error t' =>
      rw [Run.bind_result_error _ _ t' hr] at h
      rw [← Except.error.inj h]
      exact hloop _ _ hr
    | ok u =>
      rw [Run.bind_result_ok _ _ u hr] at h
      simp [Run.bind_eq, Run.bind, emit] at h
  · rw [(exportPhase_full env a items hc).2] at h
    cases ho : env.exportObjects (resolveObjects items) with
    | ok u => rw [ho] at h; exact Except.noConfusion h
    | error f => rw [ho] at h; exact ⟨f, (Except.error.inj h).symm⟩

theorem FileInfo.hasExtension_false (n : String) (exts : List String)
    (hlow : ∀ e ∈ exts, toLowerStr e = e) (h : toLowerStr (FileInfo.extension n) ∉ exts) :
    FileInfo.hasExtension n exts = false := by
  rw [Bool.eq_false_iff]
  intro hh
  exact h ((FileInfo.hasExtension_iff n exts hlow).mp hh)

theorem writePhase_step (env : Env) (a : ExporterArgs)
    (h : toLowerStr (FileInfo.extension a.Name) ∈ ["stp", "step"]) :
    writePhase env a = writeStep env a.Name (env.encodeFilename a.Name) env.newHandle := by
  unfold writePhase writeByExtension
  rw [if_pos ((FileInfo.hasExtension_step a.Name).mpr h)]

theorem writePhase_iges (env : Env) (a : ExporterArgs)
    (h1 : toLowerStr (FileInfo.extension a.Name) ∉ ["stp", "step"])
    (h : toLowerStr (FileInfo.extension a.Name) ∈ ["igs", "iges"]) :
    writePhase env a = writeIges env a.Name (env.encodeFilename a.Name) env.newHandle := by
  unfold writePhase writeByExtension
  rw [if_neg (by rw [FileInfo.hasExtension_false a.Name _ (by decide) h1]; simp),
    if_pos ((FileInfo.hasExtension_iges a.Name).mpr h)]

theorem writePhase_gltf (env : Env) (a : ExporterArgs)
    (h1 : toLowerStr (FileInfo.extension a.Name) ∉ ["stp", "step"])
    (h2 : toLowerStr (FileInfo.extension a.Name) ∉ ["igs", "iges"])
    (h : toLowerStr (FileInfo.extension a.Name) ∈ ["glb", "gltf"]) :
    writePhase env a = writeGltf env a.Name (env.encodeFilename a.Name) env.newHandle := by
  unfold writePhase writeByExtension
  rw [if_neg (by rw [FileInfo.hasExtension_false a.Name _ (by decide) h1]; simp),
    if_neg (by rw [FileInfo.hasExtension_false a.Name _ (by decide) h2]; simp),
    if_pos ((FileInfo.hasExtension_gltf a.Name).mpr h)]

theorem writePhase_other (env : Env) (a : ExporterArgs)
    (h1 : toLowerStr (FileInfo.extension a.Name) ∉ ["stp", "step"])
    (h2 : toLowerStr (FileInfo.extension a.Name) ∉ ["igs", "iges"])
    (h3 : toLowerStr (FileInfo.extension a.Name) ∉ ["glb", "gltf"]) :
    writePhase env a = pure () := by
  unfold writePhase writeByExtension
  rw [if_neg (by rw [FileInfo.hasExtension_false a.Name _ (by decide) h1]; simp),
    if_neg (by rw [FileInfo.hasExtension_false a.Name _ (by decide) h2]; simp),
    if_neg (by rw [FileInfo.hasExtension_false a.Name _ (by decide) h3]; simp)]

theorem writeGltf_old_kernel (env : Env) (Utf8Name name8bit : String) (hDoc : DocHandle)
    (h : env.OCC_VERSION_HEX < 0x070500) :
    writeGltf env Utf8Name name8bit hDoc =
      raise (.Py_Exception (.PyExc_RuntimeError "gITF support requires OCCT 7.5.0 or later")) := by
  unfold writeGltf
  rw [if_neg (by omega)]

theorem writer_classes_disjoint (e : Event) :
    (e.isStepWrite = true → e.isIgesWrite = false ∧ e.isGltfWrite = false) ∧
      (e.isIgesWrite = true → e.isStepWrite = false ∧ e.isGltfWrite = false) ∧
      (e.isGltfWrite = true → e.isStepWrite = false ∧ e.isIgesWrite = false) := by
  cases e <;> simp [Event.isStepWrite, Event.isIgesWrite, Event.isGltfWrite]

theorem list_ext_cases (x : String) :
    (x ∈ ["stp", "step"] → x ∉ ["igs", "iges"] ∧ x ∉ ["glb", "gltf"]) ∧
      (x ∈ ["igs", "iges"] → x ∉ ["stp", "step"] ∧ x ∉ ["glb", "gltf"]) ∧
      (x ∈ ["glb", "gltf"] → x ∉ ["stp", "step"] ∧ x ∉ ["igs", "iges"]) := by
  simp only [List.mem_cons, List.mem_singleton, List.not_mem_nil, or_false]
  refine ⟨?_, ?_, ?_⟩ <;> rintro (h | h) <;> subst h <;> decide

/-- In which write phases a call of a given writer can occur. -/
theorem writePhase_classes (env : Env) (a : ExporterArgs) (e : Event)
    (he : e ∈ (writePhase env a).trace) :
    (e.isStepWrite = true ∧ toLowerStr (FileInfo.extension a.Name) ∈ ["stp", "step"]) ∨
      (e.isIgesWrite = true ∧ toLowerStr (FileInfo.extension a.Name) ∈ ["igs", "iges"]) ∨
      (e.isGltfWrite = true ∧ toLowerStr (FileInfo.extension a.Name) ∈ ["glb", "gltf"] ∧
        0x070500 ≤ env.OCC_VERSION_HEX) := by
  by_cases h1 : toLowerStr (FileInfo.extension a.Name) ∈ ["stp", "step"]
  · rw [writePhase_step env a h1] at he
    exact Or.inl ⟨writeStep_stepWrite env _ _ _ e he, h1⟩
  · by_cases h2 : toLowerStr (FileInfo.extension a.Name) ∈ ["igs", "iges"]
    · rw [writePhase_iges env a h1 h2] at he
      exact Or.inr (Or.inl ⟨writeIges_igesWrite env _ _ _ e he, h2⟩)
    · by_cases h3 : toLowerStr (FileInfo.extension a.Name) ∈ ["glb", "gltf"]
      · rw [writePhase_gltf env a h1 h2 h3] at he
        by_cases hv : env.OCC_VERSION_HEX < 0x070500
        · rw [writeGltf_old_kernel env _ _ _ hv] at he
          simp at he
        · exact Or.inr (Or.inr ⟨writeGltf_gltfWrite env _ _ _ e he, h3, by omega⟩)
      · rw [writePhase_other env a h1 h2 h3] at he
        simp at he

theorem stepTransfer_mem (env : Env) (Utf8Name name8bit : String) (hDoc : DocHandle) :
    Event.StepWriter_Transfer hDoc ∈ (writeStep env Utf8Name name8bit hDoc).trace := by
  unfold Import.writeStep
  refine Run.mem_bind_right _ (Run.emit_result _) ?_
  refine Run.mem_bind_left _ ?_
  simp

theorem igesTransfer_mem (env : Env) (Utf8Name name8bit : String) (hDoc : DocHandle) :
    Event.IgesWriter_Transfer hDoc ∈ (writeIges env Utf8Name name8bit hDoc).trace := by
  unfold writeIges
  refine Run.mem_bind_right _ (Run.emit_result _) ?_
  refine Run.mem_bind_right _ (Run.emit_result _) ?_
  refine Run.mem_bind_left _ ?_
  simp

theorem gltfPerform_mem (env : Env) (Utf8Name name8bit : String) (hDoc : DocHandle)
    (hv : 0x070500 ≤ env.OCC_VERSION_HEX) :
    ∃ ret, Event.GltfWriter_Perform hDoc ret ∈ (writeGltf env Utf8Name name8bit hDoc).trace := by
  unfold writeGltf
  rw [if_pos hv]
  refine ⟨(env.gltfPerform name8bit (FileInfo.hasExtension Utf8Name ["glb"])).toOption, ?_⟩
  refine Run.mem_bind_right _ (Run.emit_result _) ?_
  refine Run.mem_bind_right _ (Run.emit_result _) ?_
  refine Run.mem_bind_left _ ?_
  simp only [Run.call_trace, List.mem_singleton]

/-- The sample environment built against a kernel older than OCCT 7.5.0. -/
def oldKernelEnv : Env := { sampleEnv with OCC_VERSION_HEX := 0x070400 }

/-- The sample environment whose full-featured exporter throws a kernel failure. -/
def exportFailsEnv : Env :=
  { sampleEnv with exportObjects := fun _ => .error (.Standard_Failure "BRep_API: command not done") }

/-- C8 (counterexample): `export([], "out.glb")` on a kernel older than OCCT 7.5.0
runs no glTF writer and raises a `RuntimeError`, although `glb` is a supported
extension; and `export([], "out.txt")` raises an error instead of returning `None`
when the export of the objects throws. -/
theorem no_gltf_writer_on_old_kernel :
    ((exporter oldKernelEnv { object := .list [], Name := "out.glb" }).trace =
        [.NewDocument 7, .ExportOCAF2_new 7, .setExportOptions, .exportObjects []] ∧
      (exporter oldKernelEnv { object := .list [], Name := "out.glb" }).result =
        .error (.Py_Exception
          (.PyExc_RuntimeError "gITF support requires OCCT 7.5.0 or later"))) ∧
    (exporter exportFailsEnv { object := .list [], Name := "out.txt" }).result =
      .error (.Py_Exception (.PyExc_FC_GeneralError "BRep_API: command not done")) :=
  ⟨⟨by decide, rfl⟩, rfl⟩

/-- C8 (amended): in an `export` call the extension of the target path, compared
case-insensitively, selects the writer.  No call of the STEP writer is made unless
the extension is `stp`/`step`, none of the IGES writer unless it is `igs`/`iges`,
none of the glTF writer unless it is `glb`/`gltf` and the kernel is OCCT 7.5.0 or
later.  When the export of the objects completes, the writer of the path's format
is invoked for `stp`/`step`, for `igs`/`iges`, and for `glb`/`gltf` on OCCT 7.5.0
or later; for `glb`/`gltf` on an older kernel the call raises a `RuntimeError`; for
every other extension the call returns `None`. -/
theorem exporter_writer_by_extension (env : Env) (a : ExporterArgs) (items : List PyObj)
    (hseq : asSequence a.object = some items) :
    (toLowerStr (FileInfo.extension a.Name) ∉ ["stp", "step"] →
      ∀ e ∈ (exporter env a).trace, e.isStepWrite = false) ∧
    (toLowerStr (FileInfo.extension a.Name) ∉ ["igs", "iges"] →
      ∀ e ∈ (exporter env a).trace, e.isIgesWrite = false) ∧
    (toLowerStr (FileInfo.extension a.Name) ∉ ["glb", "gltf"] ∨
        env.OCC_VERSION_HEX < 0x070500 →
      ∀ e ∈ (exporter env a).trace, e.isGltfWrite = false) ∧
    ((exportPhase env a items).result = .ok () →
      (toLowerStr (FileInfo.extension a.Name) ∈ ["stp", "step"] →
        Event.StepWriter_Transfer env.newHandle ∈ (exporter env a).trace) ∧
      (toLowerStr (FileInfo.extension a.Name) ∈ ["igs", "iges"] →
        Event.IgesWriter_Transfer env.newHandle ∈ (exporter env a).trace) ∧
      (toLowerStr (FileInfo.extension a.Name) ∈ ["glb", "gltf"] →
        0x070500 ≤ env.OCC_VERSION_HEX →
          ∃ ret, Event.GltfWriter_Perform env.newHandle ret ∈ (exporter env a).trace) ∧
      (toLowerStr (FileInfo.extension a.Name) ∈ ["glb", "gltf"] →
        env.OCC_VERSION_HEX < 0x070500 →
          (exporter env a).result = .error (.Py_Exception
            (.PyExc_RuntimeError "gITF support requires OCCT 7.5.0 or later"))) ∧
      (toLowerStr (FileInfo.extension a.Name) ∉ ["stp", "step", "igs", "iges", "glb", "gltf"] →
        (exporter env a).result = .ok .none)) := by
  have hiff := exporter_writer_call_iff env a items hseq
  have hcls := writePhase_classes env a
  have hdis := list_ext_cases (toLowerStr (FileInfo.extension a.Name))
  refine ⟨fun hn e he => ?_, fun hn e he => ?_, fun hn e he => ?_, fun hE => ⟨fun h => ?_,
    fun h => ?_, fun h hv => ?_, fun h hv => ?_, fun h => ?_⟩⟩
  · cases hs : e.isStepWrite with
    | false => rfl
    | true =>
      have hw : e.isWriterCall = true := by simp [Event.isWriterCall, hs]
      have hd := (writer_classes_disjoint e).1 hs
      rcases hcls e ((hiff e hw).mp he).2 with h | h | h
      · exact absurd h.2 hn
      · rw [hd.1] at h; exact Bool.noConfusion h.1
      · rw [hd.2] at h; exact Bool.noConfusion h.1
  · cases hs : e.isIgesWrite with
    | false => rfl
    | true =>
      have hw : e.isWriterCall = true := by simp [Event.isWriterCall, hs]
      have hd := (writer_classes_disjoint e).2.1 hs
      rcases hcls e ((hiff e hw).mp he).2 with h | h | h
      · rw [hd.1] at h; exact Bool.noConfusion h.1
      · exact absurd h.2 hn
      · rw [hd.2] at h; exact Bool.noConfusion h.1
  · cases hs : e.isGltfWrite with
    | false => rfl
    | true =>
      have hw : e.isWriterCall = true := by simp [Event.isWriterCall, hs]
      have hd := (writer_classes_disjoint e).2.2 hs
      rcases hcls e ((hiff e hw).mp he).2 with h | h | h
      · rw [hd.1] at h; exact Bool.noConfusion h.1
      · rw [hd.2] at h; exact Bool.noConfusion h.1
      · rcases hn with hn | hn
        · exact absurd h.2.1 hn
        · omega
  · refine (hiff (.StepWriter_Transfer env.newHandle) rfl).mpr ⟨hE, ?_⟩
    rw [writePhase_step env a h]
    exact stepTransfer_mem env _ _ _
  · refine (hiff (.IgesWriter_Transfer env.newHandle) rfl).mpr ⟨hE, ?_⟩
    rw [writePhase_iges env a (hdis.2.1 h).1 h]
    exact igesTransfer_mem env _ _ _
  · obtain ⟨ret, hret⟩ := gltfPerform_mem env a.Name (env.encodeFilename a.Name) env.newHandle hv
    refine ⟨ret, (hiff (.GltfWriter_Perform env.newHandle ret) rfl).mpr ⟨hE, ?_⟩⟩
    rw [writePhase_gltf env a (hdis.2.2 h).1 (hdis.2.2 h).2 h]
    exact hret
  · have hb := exporterBody_result_of_write env a items hseq hE
    rw [writePhase_gltf env a (hdis.2.2 h).1 (hdis.2.2 h).2 h,
      writeGltf_old_kernel env _ _ _ hv] at hb
    exact exporter_result_error env a _ hb
  · have h1 : toLowerStr (FileInfo.extension a.Name) ∉ ["stp", "step"] := by
      intro hm; apply h
      simp only [List.mem_cons, List.mem_singleton, List.not_mem_nil, or_false] at hm ⊢
      tauto
    have h2 : toLowerStr (FileInfo.extension a.Name) ∉ ["igs", "iges"] := by
      intro hm; apply h
      simp only [List.mem_cons, List.mem_singleton, List.not_mem_nil, or_false] at hm ⊢
      tauto
    have h3 : toLowerStr (FileInfo.extension a.Name) ∉ ["glb", "gltf"] := by
      intro hm; apply h
      simp only [List.mem_cons, List.mem_singleton, List.not_mem_nil, or_false] at hm ⊢
      tauto
    have hb := exporterBody_result_of_write env a items hseq hE
    rw [writePhase_other env a h1 h2 h3] at hb
    exact exporter_result_ok env a hb

/-- C8 (amended) at concrete inputs: an unsupported extension returns `None`
without any writer call, and `OUT.IGS` invokes the IGES writer. -/
theorem exporter_writer_by_extension_witness :
    (exporter sampleEnv { object := .list [.docObject 3], Name := "out.txt" }).result =
        .ok .none ∧
      (∀ e ∈ (exporter sampleEnv { object := .list [.docObject 3], Name := "out.txt" }).trace,
        e.isStepWrite = false) ∧
      Event.IgesWriter_Transfer 7 ∈
        (exporter sampleEnv { object := .list [.docObject 3], Name := "OUT.IGS" }).trace :=
  ⟨(exporter_writer_by_extension sampleEnv
      { object := .list [.docObject 3], Name := "out.txt" } [.docObject 3] rfl).2.2.2 rfl
        |>.2.2.2.2 (by decide),
    (exporter_writer_by_extension sampleEnv
      { object := .list [.docObject 3], Name := "out.txt" } [.docObject 3] rfl).1 (by decide),
    (exporter_writer_by_extension sampleEnv
      { object := .list [.docObject 3], Name := "OUT.IGS" } [.docObject 3] rfl).2.2.2 rfl
        |>.2.1 (by decide)⟩

/-! ## Write failures -/

/-- The STEP write phase, by what `Transfer` and `Write` do. -/
theorem writeStep_cases (env : Env) (Utf8Name name8bit : String) (hDoc : DocHandle) :
    writeStep env Utf8Name name8bit hDoc =
      match env.stepWriterTransfer hDoc with
      | .error f => ⟨[.writeStepAssembly, .StepWriter_Transfer hDoc], .error (.fault f)⟩
      | .ok _ =>
        match env.stepWrite name8bit with
        | .error f =>
          ⟨[.writeStepAssembly, .StepWriter_Transfer hDoc,
              .StepWriter_Header env.stepAuthor env.stepCompany env.executableName
                "FreeCAD Model",
              .StepWriter_Write name8bit none], .error (.fault f)⟩
        | .ok s =>
          ⟨[.writeStepAssembly, .StepWriter_Transfer hDoc,
              .StepWriter_Header env.stepAuthor env.stepCompany env.executableName
                "FreeCAD Model",
              .StepWriter_Write name8bit (some s)],
            if s = IFSelect_RetError ∨ s = IFSelect_RetFail ∨ s = IFSelect_RetStop then
              .error (.Py_Exception (.PyExc_IOError (cannotOpenFile Utf8Name)))
            else .ok ()⟩ := by
  unfold Import.writeStep
  cases ht : env.stepWriterTransfer hDoc with
  | error f => simp [Run.bind_eq, Run.bind, emit, call, ht]
  | ok u =>
    cases hw : env.stepWrite name8bit with
    | error f => simp [Run.bind_eq, Run.bind, emit, call, ht, hw, Except.toOption]
    | ok s =>
      by_cases hs : s = IFSelect_RetError ∨ s = IFSelect_RetFail ∨ s = IFSelect_RetStop
      · simp [Run.bind_eq, Run.bind, emit, call, ht, hw, Except.toOption, whenever, raise, hs]
      · simp [Run.bind_eq, Run.bind, emit, call, ht, hw, Except.toOption, whenever, raise, hs]

/-- The IGES write phase, by what `Transfer` and `Write` do. -/
theorem writeIges_cases (env : Env) (Utf8Name name8bit : String) (hDoc : DocHandle) :
    writeIges env Utf8Name name8bit hDoc =
      match env.igesWriterTransfer hDoc with
      | .error f =>
        ⟨[.IGESControl_Controller_Init,
            .IgesWriter_Header env.igesAuthor env.igesCompany env.igesProduct,
            .IgesWriter_Transfer hDoc], .error (.fault f)⟩
      | .ok _ =>
        match env.igesWrite name8bit with
        | .error f =>
          ⟨[.IGESControl_Controller_Init,
              .IgesWriter_Header env.igesAuthor env.igesCompany env.igesProduct,
              .IgesWriter_Transfer hDoc, .IgesWriter_Write name8bit none], .error (.fault f)⟩
        | .ok ret =>
          ⟨[.IGESControl_Controller_Init,
              .IgesWriter_Header env.igesAuthor env.igesCompany env.igesProduct,
              .IgesWriter_Transfer hDoc, .IgesWriter_Write name8bit (some ret)],
            if ret = false then
              .error (.Py_Exception (.PyExc_IOError (cannotOpenFile Utf8Name)))
            else .ok ()⟩ := by
  unfold writeIges
  cases ht : env.igesWriterTransfer hDoc with
  | error f => simp [Run.bind_eq, Run.bind, emit, call, ht]
  | ok u =>
    cases hw : env.igesWrite name8bit with
    | error f => simp [Run.bind_eq, Run.bind, emit, call, ht, hw, Except.toOption]
    | ok ret =>
      cases ret <;>
        simp [Run.bind_eq, Run.bind, emit, call, ht, hw, Except.toOption, whenever, raise]

/-- The result of an `export` call whose export phase completed. -/
theorem exporter_result_of_write (env : Env) (a : ExporterArgs) (items : List PyObj)
    (hseq : asSequence a.object = some items)
    (hE : (exportPhase env a items).result = .ok ()) :
    (exporter env a).result =
      match (writePhase env a).result with
      | .ok _ => .ok .none
      | .error t => .error (atBoundary t) := by
  have hb := exporterBody_result_of_write env a items hseq hE
  cases hw : (writePhase env a).result with
  | ok u => rw [hw] at hb; exact exporter_result_ok env a hb
  | error t => rw [hw] at hb; exact exporter_result_error env a t hb

/-- The result of an `export` call whose export phase threw: the translated
exception of a collaborator, hence no `IOError` and no normal return. -/
theorem exporter_result_of_export_error (env : Env) (a : ExporterArgs) (items : List PyObj)
    (hseq : asSequence a.object = some items) (t : Thrown)
    (hE : (exportPhase env a items).result = .error t) :
    ∃ f, (exporter env a).result = .error (atBoundary (.fault f)) := by
  obtain ⟨f, hf⟩ := exportPhase_error_fault env a items t hE
  refine ⟨f, ?_⟩
  rw [← hf]
  exact exporter_result_error env a t (exporterBody_result_export_error env a items hseq t hE)

theorem atBoundary_fault_ne_ioError (f : Fault) (msg : String) :
    atBoundary (.fault f) ≠ .Py_Exception (.PyExc_IOError msg) := by
  cases f <;> simp [atBoundary]

theorem exporter_step_write (env : Env) (a : ExporterArgs)
    (hext : toLowerStr (FileInfo.extension a.Name) ∈ ["stp", "step"]) :
    ((exporter env a).result =
          .error (.Py_Exception (.PyExc_IOError ("Cannot open file '" ++ a.Name ++ "'"))) ↔
        ∃ s, Event.StepWriter_Write (env.encodeFilename a.Name) (some s) ∈
            (exporter env a).trace ∧
          (s = IFSelect_RetError ∨ s = IFSelect_RetFail ∨ s = IFSelect_RetStop)) ∧
      (∀ s, Event.StepWriter_Write (env.encodeFilename a.Name) (some s) ∈
          (exporter env a).trace →
        ¬ (s = IFSelect_RetError ∨ s = IFSelect_RetFail ∨ s = IFSelect_RetStop) →
          (exporter env a).result = .ok .none) := by
  cases hseq : asSequence a.object with
  | none =>
    rw [exporter_not_sequence env a hseq]
    simp
  | some items =>
    have hiff := fun s => exporter_writer_call_iff env a items hseq
      (.StepWriter_Write (env.encodeFilename a.Name) (some s)) rfl
    cases hE : (exportPhase env a items).result with
    | error t =>
      obtain ⟨f, hres⟩ := exporter_result_of_export_error env a items hseq t hE
      have hno : ∀ s, Event.StepWriter_Write (env.encodeFilename a.Name) (some s) ∉
          (exporter env a).trace := by
        intro s hm
        have := ((hiff s).mp hm).1
        rw [hE] at this
        exact Except.noConfusion this
      refine ⟨⟨fun h => ?_, fun ⟨s, hm, _⟩ => absurd hm (hno s)⟩, fun s hm => absurd hm (hno s)⟩
      rw [hres] at h
      exact absurd (Except.error.inj h) (atBoundary_fault_ne_ioError f _)
    | ok u =>
      have hres := exporter_result_of_write env a items hseq hE
      have hW := writePhase_step env a hext
      rw [writeStep_cases] at hW
      cases ht : env.stepWriterTransfer env.newHandle with
      | error f =>
        rw [ht] at hW
        simp only [hiff, hW, hres, hE, true_and]
        simp [atBoundary_fault_ne_ioError]
      | ok u' =>
        rw [ht] at hW
        cases hw : env.stepWrite (env.encodeFilename a.Name) with
        | error f =>
          simp only [hw] at hW
          simp only [hiff, hW, hres, hE, true_and]
          simp [atBoundary_fault_ne_ioError]
        | ok s =>
          simp only [hw] at hW
          simp only [hiff, hW, hres, hE, true_and]
          by_cases hs : s = IFSelect_RetError ∨ s = IFSelect_RetFail ∨ s = IFSelect_RetStop
          · simp only [hs, if_true, atBoundary, cannotOpenFile]
            refine ⟨⟨fun _ => ⟨s, ?_, hs⟩, fun _ => trivial⟩, fun s' hs' hn => ?_⟩
            · simp
            · simp only [List.mem_cons, List.mem_singleton, List.not_mem_nil, or_false,
                Event.StepWriter_Write.injEq, Option.some.injEq, true_and, false_or,
                reduceCtorEq] at hs'
              rw [hs'] at hn
              exact absurd hs hn
          · simp only [hs, if_false]
            refine ⟨⟨fun h => Except.noConfusion h, fun ⟨s', hs', hb⟩ => ?_⟩, fun _ _ _ => trivial⟩
            simp only [List.mem_cons, List.mem_singleton, List.not_mem_nil, or_false,
              Event.StepWriter_Write.injEq, Option.some.injEq, true_and, false_or,
              reduceCtorEq] at hs'
            rw [hs'] at hb
            exact absurd hb hs

theorem exporter_iges_write (env : Env) (a : ExporterArgs)
    (hext : toLowerStr (FileInfo.extension a.Name) ∈ ["igs", "iges"]) :
    ((exporter env a).result =
          .error (.Py_Exception (.PyExc_IOError ("Cannot open file '" ++ a.Name ++ "'"))) ↔
        Event.IgesWriter_Write (env.encodeFilename a.Name) (some false) ∈
          (exporter env a).trace) ∧
      (Event.IgesWriter_Write (env.encodeFilename a.Name) (some true) ∈
          (exporter env a).trace →
        (exporter env a).result = .ok .none) := by
  cases hseq : asSequence a.object with
  | none =>
    rw [exporter_not_sequence env a hseq]
    simp
  | some items =>
    have hiff := fun r => exporter_writer_call_iff env a items hseq
      (.IgesWriter_Write (env.encodeFilename a.Name) (some r)) rfl
    cases hE : (exportPhase env a items).result with
    | error t =>
      obtain ⟨f, hres⟩ := exporter_result_of_export_error env a items hseq t hE
      have hno : ∀ r, Event.IgesWriter_Write (env.encodeFilename a.Name) (some r) ∉
          (exporter env a).trace := by
        intro r hm
        have := ((hiff r).mp hm).1
        rw [hE] at this
        exact Except.noConfusion this
      refine ⟨⟨fun h => ?_, fun hm => absurd hm (hno _)⟩, fun hm => absurd hm (hno _)⟩
      rw [hres] at h
      exact absurd (Except.error.inj h) (atBoundary_fault_ne_ioError f _)
    | ok u =>
      have hres := exporter_result_of_write env a items hseq hE
      have hW := writePhase_iges env a ((list_ext_cases _).2.1 hext).1 hext
      rw [writeIges_cases] at hW
      cases ht : env.igesWriterTransfer env.newHandle with
      | error f =>
        rw [ht] at hW
        simp only [hiff, hW, hres, hE, true_and]
        simp [atBoundary_fault_ne_ioError]
      | ok u' =>
        rw [ht] at hW
        cases hw : env.igesWrite (env.encodeFilename a.Name) with
        | error f =>
          simp only [hw] at hW
          simp only [hiff, hW, hres, hE, true_and]
          simp [atBoundary_fault_ne_ioError]
        | ok r =>
          simp only [hw] at hW
          simp only [hiff, hW, hres, hE, true_and]
          cases r <;> simp [atBoundary, cannotOpenFile]

/-- C9: an `export` to a STEP path raises the `IOError` naming the target path
exactly when the writer's `Write` returns the status error, fail or stop, and
returns `None` when `Write` returns any other status; an `export` to an IGES path
raises that `IOError` exactly when the writer's `Write` returns false, and returns
`None` when it returns true. -/
theorem exporter_write_failure_iff (env : Env) (a : ExporterArgs) :
    (toLowerStr (FileInfo.extension a.Name) ∈ ["stp", "step"] →
      ((exporter env a).result =
          .error (.Py_Exception (.PyExc_IOError ("Cannot open file '" ++ a.Name ++ "'"))) ↔
        ∃ s, Event.StepWriter_Write (env.encodeFilename a.Name) (some s) ∈
            (exporter env a).trace ∧
          (s = IFSelect_RetError ∨ s = IFSelect_RetFail ∨ s = IFSelect_RetStop)) ∧
      (∀ s, Event.StepWriter_Write (env.encodeFilename a.Name) (some s) ∈
          (exporter env a).trace →
        ¬ (s = IFSelect_RetError ∨ s = IFSelect_RetFail ∨ s = IFSelect_RetStop) →
          (exporter env a).result = .ok .none)) ∧
    (toLowerStr (FileInfo.extension a.Name) ∈ ["igs", "iges"] →
      ((exporter env a).result =
          .error (.Py_Exception (.PyExc_IOError ("Cannot open file '" ++ a.Name ++ "'"))) ↔
        Event.IgesWriter_Write (env.encodeFilename a.Name) (some false) ∈
          (exporter env a).trace) ∧
      (Event.IgesWriter_Write (env.encodeFilename a.Name) (some true) ∈
          (exporter env a).trace →
        (exporter env a).result = .ok .none)) :=
  ⟨exporter_step_write env a, exporter_iges_write env a⟩

/-- C9 at concrete inputs: a STEP `Write` that returns `IFSelect_RetFail` raises the
`IOError` naming `out.step`; an IGES `Write` that returns true returns `None`. -/
theorem exporter_write_failure_iff_witness :
    (exporter stepWriteFailsEnv { object := .list [], Name := "out.step" }).result =
        .error (.Py_Exception (.PyExc_IOError "Cannot open file 'out.step'")) ∧
      (exporter sampleEnv { object := .list [], Name := "out.iges" }).result = .ok .none :=
  ⟨((exporter_write_failure_iff stepWriteFailsEnv
        { object := .list [], Name := "out.step" }).1 (by decide)).1.mpr
      ⟨IFSelect_RetFail, by decide, by decide⟩,
    ((exporter_write_failure_iff sampleEnv
        { object := .list [], Name := "out.iges" }).2 (by decide)).2 (by decide)⟩

/-! ## Single entity and list of one in the DXF writers -/

theorem Run.bind_pure_unit (x : Run Unit) : (x >>= fun _ => (pure () : Run Unit)) = x := by
  show Run.bind x _ = x
  unfold Run.bind
  cases hx : x.result with
  | ok u =>
    cases x
    simp_all
  | error t =>
    cases x
    simp_all

theorem parseDxfArgs_accepted (accepts : PyObj → Bool) (obj : PyObj) (rest : List PyObj)
    (h : accepts obj = true) :
    parseDxfArgs accepts (obj :: rest) = (parseDxfOptions rest).map (fun opts => (obj, opts)) := by
  simp only [parseDxfArgs, h, if_true]
  cases parseDxfOptions rest <;> rfl

theorem parseDxfArgs_rejected (accepts : PyObj → Bool) (obj : PyObj) (rest : List PyObj)
    (h : accepts obj = false) : parseDxfArgs accepts (obj :: rest) = none := by
  simp [parseDxfArgs, h]

/-- For `writeDXFShape` a single shape and the list holding just that shape give
the same run, whatever the remaining arguments are. -/
theorem writeDXFShape_single_eq_list (env : Env) (s : Shape) (rest : List PyObj) :
    writeDXFShape env (.shape s :: rest) = writeDXFShape env (.list [.shape s] :: rest) := by
  unfold writeDXFShape
  rw [parseDxfArgs_rejected isPyList (.shape s) rest rfl,
    parseDxfArgs_accepted isTopoShapePy (.shape s) rest rfl,
    parseDxfArgs_accepted isPyList (.list [.shape s]) rest rfl]
  cases parseDxfOptions rest with
  | none =>
    simp only [Option.map_none']
    rw [parseDxfArgs_rejected isTopoShapePy (.list [.shape s]) rest rfl]
  | some p =>
    simp only [Option.map_some']
    congr 1
    unfold writeShapeSingle writeShapeList
    simp only [asSequence, Option.getD_some, forEach, exportShapeItem, Run.bind_pure_unit]

/-- For `writeDXFObject` a single `Part::Feature` object and the list holding just
that object give the same run, whatever the remaining arguments are. -/
theorem writeDXFObject_single_eq_list (env : Env) (obj : ObjPtr) (rest : List PyObj)
    (hpart : env.isPartFeature obj = true) :
    writeDXFObject env (.docObject obj :: rest) =
      writeDXFObject env (.list [.docObject obj] :: rest) := by
  unfold writeDXFObject
  rw [parseDxfArgs_rejected isPyList (.docObject obj) rest rfl,
    parseDxfArgs_accepted isDocumentObjectPy (.docObject obj) rest rfl,
    parseDxfArgs_accepted isPyList (.list [.docObject obj]) rest rfl]
  cases parseDxfOptions rest with
  | none =>
    simp only [Option.map_none']
    rw [parseDxfArgs_rejected isDocumentObjectPy (.list [.docObject obj]) rest rfl]
  | some p =>
    simp only [Option.map_some']
    congr 1
    unfold writeObjectSingle writeObjectList
    simp only [asSequence, Option.getD_some, forEach, exportObjectItem, hpart, if_true,
      Run.bind_pure_unit]

/-- A sample environment in which object 3 is a document object that is no
`Part::Feature` (a group), named `Group`. -/
def groupEnv : Env :=
  { sampleEnv with
    isPartFeature := fun _ => false
    getNameInDocument := fun _ => "Group"
    shapeValue := fun _ => 0 }

/-- C10 (failing input): for a document object that is no `Part::Feature`,
`writeDXFObject(obj, "a.dxf")` sets the layer name from the object and exports
what the unchecked cast reads as its shape, whereas `writeDXFObject([obj],
"a.dxf")` skips the entry and exports nothing: the two calls drive the writer
differently. -/
theorem writeDXFObject_single_differs_from_list :
    (writeDXFObject groupEnv [.docObject 3, .str "a.dxf"]).trace =
        [.ImpExpDxfWrite_new "a.dxf",
          .setOptionSource "User parameter:BaseApp/Preferences/Mod/Import", .setOptions,
          .setPolyOverride false, .setLayerName "none", .init,
          .setLayerName "Group", .exportShape 0, .endRun] ∧
      (writeDXFObject groupEnv [.list [.docObject 3], .str "a.dxf"]).trace =
        [.ImpExpDxfWrite_new "a.dxf",
          .setOptionSource "User parameter:BaseApp/Preferences/Mod/Import", .setOptions,
          .setPolyOverride false, .setLayerName "none", .init, .endRun] ∧
      (writeDXFObject groupEnv [.docObject 3, .str "a.dxf"]).trace ≠
        (writeDXFObject groupEnv [.list [.docObject 3], .str "a.dxf"]).trace :=
  ⟨by decide, by decide, by decide⟩

/-! ## The runs of the DXF writers -/

/-- The option source a DXF writer is given: the caller's, or the module's default
namespace. -/
def dxfOptionSource (p : DxfOptions) : String :=
  match p.optionSource with
  | some src => src
  | none => "User parameter:BaseApp/Preferences/Mod/Import"

/-- The calls of `dxfWriterSetup`. -/
def setupTrace (p : DxfOptions) : List Event :=
  [.ImpExpDxfWrite_new p.fname, .setOptionSource (dxfOptionSource p), .setOptions] ++
    ((if p.versionParm = 12 ∨ p.versionParm = 14 then [Event.setVersion p.versionParm] else []) ++
      [.setPolyOverride (isPyTrue p.usePolyline), .setLayerName "none", .init])

theorem dxfWriterSetup_eq (p : DxfOptions) : dxfWriterSetup p = ⟨setupTrace p, .ok ()⟩ := by
  unfold dxfWriterSetup setupTrace dxfOptionSource
  by_cases h : p.versionParm = 12 ∨ p.versionParm = 14
  · simp [Run.bind_eq, Run.bind, emit, whenever, h]
  · simp [Run.bind_eq, Run.bind, emit, whenever, h]

/-- The common shape of the four `try` bodies: set up the writer, export the
entities (`middle`), then `endRun` and `return Py::None()`. -/
def dxfBody (p : DxfOptions) (middle : Run Unit) : Run PyObj := do
  dxfWriterSetup p
  middle
  emit .endRun
  pure .none

theorem dxfBody_trace (p : DxfOptions) (middle : Run Unit) :
    (dxfBody p middle).trace =
      setupTrace p ++ (middle.trace ++
        match middle.result with
        | .ok _ => [.endRun]
        | .error _ => []) := by
  unfold dxfBody
  rw [Run.bind_trace_ok _ _ () (by rw [dxfWriterSetup_eq]), dxfWriterSetup_eq]
  congr 1
  cases hm : middle.result with
  | ok u => rw [Run.bind_trace_ok _ _ u hm]; simp [Run.bind_eq, Run.bind, emit]
  | error t => rw [Run.bind_trace_error _ _ t hm]; simp

theorem dxfBody_result (p : DxfOptions) (middle : Run Unit) :
    (dxfBody p middle).result =
      match middle.result with
      | .ok _ => .ok .none
      | .error t => .error t := by
  unfold dxfBody
  rw [Run.bind_result_ok _ _ () (by rw [dxfWriterSetup_eq])]
  cases hm : middle.result with
  | ok u => rw [Run.bind_result_ok _ _ u hm]; simp [Run.bind_eq, Run.bind, emit]
  | error t => rw [Run.bind_result_error _ _ t hm]

theorem tryCatch_dxf_trace {α : Type} (body : Run α) :
    (tryCatch body dxfCatch).trace = body.trace := by
  cases hr : body.result with
  | ok v => rw [Run.tryCatch_ok _ hr]
  | error t =>
    cases t with
    | Py_Exception e => rw [Run.tryCatch_unhandled hr rfl]
    | fault f =>
      cases f with
      | OSD_Exception m => rw [Run.tryCatch_unhandled hr rfl]
      | Standard_Failure m => rw [Run.tryCatch_unhandled hr rfl]
      | Base_Exception m => rw [Run.tryCatch_handled hr rfl]; simp

/-- The entity step of each of the four forms. -/
def shapeListMiddle (env : Env) (shapeObj : PyObj) : Run Unit :=
  forEach (exportShapeItem env) ((asSequence shapeObj).getD [])

def shapeSingleMiddle (env : Env) (shapeObj : PyObj) : Run Unit :=
  match shapeObj with
  | .shape s => call (.exportShape s) (env.exportShape s)
  | _ => pure ()

def objectListMiddle (env : Env) (docObj : PyObj) : Run Unit :=
  forEach (exportObjectItem env) ((asSequence docObj).getD [])

def objectSingleMiddle (env : Env) (docObj : PyObj) : Run Unit :=
  match docObj with
  | .docObject obj => exportFeature env obj
  | _ => pure ()

theorem writeShapeList_eq (env : Env) (o : PyObj) (p : DxfOptions) :
    writeShapeList env o p = dxfBody p (shapeListMiddle env o) := rfl

theorem writeShapeSingle_eq (env : Env) (o : PyObj) (p : DxfOptions) :
    writeShapeSingle env o p = dxfBody p (shapeSingleMiddle env o) := by
  unfold writeShapeSingle dxfBody shapeSingleMiddle
  cases o <;> rfl

theorem writeObjectList_eq (env : Env) (o : PyObj) (p : DxfOptions) :
    writeObjectList env o p = dxfBody p (objectListMiddle env o) := rfl

theorem writeObjectSingle_eq (env : Env) (o : PyObj) (p : DxfOptions) :
    writeObjectSingle env o p = dxfBody p (objectSingleMiddle env o) := by
  unfold writeObjectSingle dxfBody objectSingleMiddle
  cases o <;> rfl

/-- The entity and the variables `writeDXFShape` runs with, and the entity step of
the form that matched: the list-shaped parse is tried first, the single-shape
parse only when it does not match. -/
def shapeCall (env : Env) (args : List PyObj) : Option (DxfOptions × Run Unit) :=
  match parseDxfArgs isPyList args with
  | some (o, p) => some (p, shapeListMiddle env o)
  | none =>
    match parseDxfArgs isTopoShapePy args with
    | some (o, p) => some (p, shapeSingleMiddle env o)
    | none => none

/-- The same for `writeDXFObject`. -/
def objectCall (env : Env) (args : List PyObj) : Option (DxfOptions × Run Unit) :=
  match parseDxfArgs isPyList args with
  | some (o, p) => some (p, objectListMiddle env o)
  | none =>
    match parseDxfArgs isDocumentObjectPy args with
    | some (o, p) => some (p, objectSingleMiddle env o)
    | none => none

theorem writeDXFShape_of_call (env : Env) (args : List PyObj) (p : DxfOptions)
    (middle : Run Unit) (h : shapeCall env args = some (p, middle)) :
    writeDXFShape env args = tryCatch (dxfBody p middle) dxfCatch := by
  unfold shapeCall at h
  unfold writeDXFShape
  cases h1 : parseDxfArgs isPyList args with
  | some op =>
    obtain ⟨o, p'⟩ := op
    simp only [h1, Option.some.injEq, Prod.mk.injEq] at h
    simp only [writeShapeList_eq, h.1, h.2]
  | none =>
    simp only [h1] at h
    cases h2 : parseDxfArgs isTopoShapePy args with
    | some op =>
      obtain ⟨o, p'⟩ := op
      simp only [h2, Option.some.injEq, Prod.mk.injEq] at h
      simp only [writeShapeSingle_eq, h.1, h.2]
    | none => simp [h2] at h

theorem writeDXFObject_of_call (env : Env) (args : List PyObj) (p : DxfOptions)
    (middle : Run Unit) (h : objectCall env args = some (p, middle)) :
    writeDXFObject env args = tryCatch (dxfBody p middle) dxfCatch := by
  unfold objectCall at h
  unfold writeDXFObject
  cases h1 : parseDxfArgs isPyList args with
  | some op =>
    obtain ⟨o, p'⟩ := op
    simp only [h1, Option.some.injEq, Prod.mk.injEq] at h
    simp only [writeObjectList_eq, h.1, h.2]
  | none =>
    simp only [h1] at h
    cases h2 : parseDxfArgs isDocumentObjectPy args with
    | some op =>
      obtain ⟨o, p'⟩ := op
      simp only [h2, Option.some.injEq, Prod.mk.injEq] at h
      simp only [writeObjectSingle_eq, h.1, h.2]
    | none => simp [h2] at h

/-- The variables `writeDXFShape` runs with: those of the list-shaped parse when
it matches, else those of the single-shape parse; `none` when neither matches. -/
def shapeVars (args : List PyObj) : Option DxfOptions :=
  match parseDxfArgs isPyList args with
  | some (_, p) => some p
  | none =>
    match parseDxfArgs isTopoShapePy args with
    | some (_, p) => some p
    | none => none

/-- The variables `writeDXFObject` runs with. -/
def objectVars (args : List PyObj) : Option DxfOptions :=
  match parseDxfArgs isPyList args with
  | some (_, p) => some p
  | none =>
    match parseDxfArgs isDocumentObjectPy args with
    | some (_, p) => some p
    | none => none

theorem shapeCall_of_vars (env : Env) (args : List PyObj) (p : DxfOptions)
    (h : shapeVars args = some p) : ∃ middle, shapeCall env args = some (p, middle) := by
  unfold shapeVars at h
  unfold shapeCall
  cases h1 : parseDxfArgs isPyList args with
  | some op =>
    obtain ⟨o, p'⟩ := op
    simp only [h1, Option.some.injEq] at h
    exact ⟨_, by rw [h]⟩
  | none =>
    simp only [h1] at h
    cases h2 : parseDxfArgs isTopoShapePy args with
    | some op =>
      obtain ⟨o, p'⟩ := op
      simp only [h2, Option.some.injEq] at h
      exact ⟨_, by rw [h]⟩
    | none => simp [h2] at h

theorem objectCall_of_vars (env : Env) (args : List PyObj) (p : DxfOptions)
    (h : objectVars args = some p) : ∃ middle, objectCall env args = some (p, middle) := by
  unfold objectVars at h
  unfold objectCall
  cases h1 : parseDxfArgs isPyList args with
  | some op =>
    obtain ⟨o, p'⟩ := op
    simp only [h1, Option.some.injEq] at h
    exact ⟨_, by rw [h]⟩
  | none =>
    simp only [h1] at h
    cases h2 : parseDxfArgs isDocumentObjectPy args with
    | some op =>
      obtain ⟨o, p'⟩ := op
      simp only [h2, Option.some.injEq] at h
      exact ⟨_, by rw [h]⟩
    | none => simp [h2] at h

/-- A call made for an entity: setting the layer name or exporting a shape. -/
def Event.isEntityCall : Event → Bool
  | .setLayerName _ => true
  | .exportShape _ => true
  | _ => false

theorem exportFeature_entity (env : Env) (obj : ObjPtr) :
    Run.All (fun e => e.isEntityCall = true) (exportFeature env obj) := by
  unfold exportFeature
  exact Run.All.bind (Run.All.emit rfl) (fun _ => Run.All.call _ rfl)

theorem exportShapeItem_entity (env : Env) (item : PyObj) :
    Run.All (fun e => e.isEntityCall = true) (exportShapeItem env item) := by
  cases item <;> first | exact Run.All.pure _ _ | exact Run.All.call _ rfl

theorem exportObjectItem_entity (env : Env) (item : PyObj) :
    Run.All (fun e => e.isEntityCall = true) (exportObjectItem env item) := by
  cases item with
  | docObject obj =>
    unfold exportObjectItem
    exact Run.All.ite (exportFeature_entity env obj) (Run.All.pure _ _)
  | _ => exact Run.All.pure _ _

theorem shapeCall_entity (env : Env) (args : List PyObj) (p : DxfOptions) (middle : Run Unit)
    (h : shapeCall env args = some (p, middle)) :
    Run.All (fun e => e.isEntityCall = true) middle := by
  unfold shapeCall at h
  cases h1 : parseDxfArgs isPyList args with
  | some op =>
    obtain ⟨o, p'⟩ := op
    simp only [h1, Option.some.injEq, Prod.mk.injEq] at h
    rw [← h.2]
    exact Run.All.forEach (exportShapeItem_entity env) _
  | none =>
    simp only [h1] at h
    cases h2 : parseDxfArgs isTopoShapePy args with
    | some op =>
      obtain ⟨o, p'⟩ := op
      simp only [h2, Option.some.injEq, Prod.mk.injEq] at h
      rw [← h.2]
      unfold shapeSingleMiddle
      cases o <;> first | exact Run.All.pure _ _ | exact Run.All.call _ rfl
    | none => simp [h2] at h

theorem objectCall_entity (env : Env) (args : List PyObj) (p : DxfOptions) (middle : Run Unit)
    (h : objectCall env args = some (p, middle)) :
    Run.All (fun e => e.isEntityCall = true) middle := by
  unfold objectCall at h
  cases h1 : parseDxfArgs isPyList args with
  | some op =>
    obtain ⟨o, p'⟩ := op
    simp only [h1, Option.some.injEq, Prod.mk.injEq] at h
    rw [← h.2]
    exact Run.All.forEach (exportObjectItem_entity env) _
  | none =>
    simp only [h1] at h
    cases h2 : parseDxfArgs isDocumentObjectPy args with
    | some op =>
      obtain ⟨o, p'⟩ := op
      simp only [h2, Option.some.injEq, Prod.mk.injEq] at h
      rw [← h.2]
      unfold objectSingleMiddle
      cases o <;> first | exact Run.All.pure _ _ | exact exportFeature_entity env _
    | none => simp [h2] at h

/-- The calls of a DXF writer run: the set-up, the entity calls, and `endRun` when
the entity step completes. -/
theorem dxfRun_trace (p : DxfOptions) (middle : Run Unit) :
    (tryCatch (dxfBody p middle) dxfCatch).trace =
      setupTrace p ++ (middle.trace ++
        match middle.result with
        | .ok _ => [.endRun]
        | .error _ => []) := by
  rw [tryCatch_dxf_trace, dxfBody_trace]

/-- How often a call that is no entity call and not `endRun` occurs in a DXF
writer run: as often as in the set-up. -/
theorem dxfRun_count (p : DxfOptions) (middle : Run Unit) (e : Event)
    (hm : Run.All (fun e => e.isEntityCall = true) middle)
    (he : e.isEntityCall = false) (hend : e ≠ .endRun) :
    (tryCatch (dxfBody p middle) dxfCatch).trace.count e = (setupTrace p).count e := by
  rw [dxfRun_trace, List.count_append, List.count_append]
  have h1 : middle.trace.count e = 0 := by
    rw [List.count_eq_zero]
    intro hmem
    rw [hm e hmem] at he
    exact Bool.noConfusion he
  have h2 : (match middle.result with
      | .ok _ => [Event.endRun]
      | .error _ => []).count e = 0 := by
    cases middle.result with
    | ok u => simp [List.count_cons, Ne.symm hend]
    | error t => simp
  omega

/-! ## The version and polyline overrides -/

theorem parseDxfArgs_some (accepts : PyObj → Bool) (args : List PyObj) (o : PyObj)
    (p : DxfOptions) (h : parseDxfArgs accepts args = some (o, p)) :
    ∃ rest, args = o :: rest ∧ parseDxfOptions rest = some p := by
  cases args with
  | nil => simp [parseDxfArgs] at h
  | cons x rest =>
    unfold parseDxfArgs at h
    by_cases ha : accepts x = true
    · cases hp : parseDxfOptions rest with
      | none => simp [ha, hp] at h
      | some p' =>
        simp only [ha, hp, if_true, Option.some.injEq, Prod.mk.injEq] at h
        exact ⟨rest, by rw [h.1], by rw [← h.2]; exact hp⟩
    · simp [ha] at h

theorem shapeVars_some (args : List PyObj) (p : DxfOptions) (h : shapeVars args = some p) :
    ∃ o rest, args = o :: rest ∧ parseDxfOptions rest = some p := by
  unfold shapeVars at h
  cases h1 : parseDxfArgs isPyList args with
  | some op =>
    obtain ⟨o, p'⟩ := op
    simp only [h1, Option.some.injEq] at h
    obtain ⟨rest, hr⟩ := parseDxfArgs_some _ _ _ _ h1
    exact ⟨o, rest, hr.1, by rw [← h]; exact hr.2⟩
  | none =>
    simp only [h1] at h
    cases h2 : parseDxfArgs isTopoShapePy args with
    | some op =>
      obtain ⟨o, p'⟩ := op
      simp only [h2, Option.some.injEq] at h
      obtain ⟨rest, hr⟩ := parseDxfArgs_some _ _ _ _ h2
      exact ⟨o, rest, hr.1, by rw [← h]; exact hr.2⟩
    | none => simp [h2] at h

theorem objectVars_some (args : List PyObj) (p : DxfOptions) (h : objectVars args = some p) :
    ∃ o rest, args = o :: rest ∧ parseDxfOptions rest = some p := by
  unfold objectVars at h
  cases h1 : parseDxfArgs isPyList args with
  | some op =>
    obtain ⟨o, p'⟩ := op
    simp only [h1, Option.some.injEq] at h
    obtain ⟨rest, hr⟩ := parseDxfArgs_some _ _ _ _ h1
    exact ⟨o, rest, hr.1, by rw [← h]; exact hr.2⟩
  | none =>
    simp only [h1] at h
    cases h2 : parseDxfArgs isDocumentObjectPy args with
    | some op =>
      obtain ⟨o, p'⟩ := op
      simp only [h2, Option.some.injEq] at h
      obtain ⟨rest, hr⟩ := parseDxfArgs_some _ _ _ _ h2
      exact ⟨o, rest, hr.1, by rw [← h]; exact hr.2⟩
    | none => simp [h2] at h

/-- Where the variables of a successful parse come from: the version is the third
argument read as a C `int`, `-1` when there is none; `usePolyline` is the fourth
argument itself, `Py_False` when there is none. -/
theorem parseDxfOptions_vars (o : PyObj) (rest : List PyObj) (p : DxfOptions)
    (h : parseDxfOptions rest = some p) :
    ((o :: rest).length = 2 → p.versionParm = -1) ∧
      (∀ x, (o :: rest).get? 2 = some x → parseInt x = some p.versionParm) ∧
      ((o :: rest).length ≤ 3 → p.usePolyline = .bool false) ∧
      (∀ u, (o :: rest).get? 3 = some u → p.usePolyline = u) := by
  match rest, h with
  | [f], h =>
    unfold parseDxfOptions at h
    cases hf : parseStr f with
    | none => simp [hf] at h
    | some fname =>
      simp only [hf, Option.some.injEq] at h
      subst h
      simp
  | [f, v], h =>
    unfold parseDxfOptions at h
    cases hf : parseStr f <;> cases hv : parseInt v <;> simp only [hf, hv] at h <;>
      first
        | exact Option.noConfusion h
        | (simp only [Option.some.injEq] at h; subst h; simp [hv])
  | [f, v, u], h =>
    unfold parseDxfOptions at h
    cases hf : parseStr f <;> cases hv : parseInt v <;> simp only [hf, hv] at h <;>
      first
        | exact Option.noConfusion h
        | (simp only [Option.some.injEq] at h; subst h; simp [hv])
  | [f, v, u, src], h =>
    unfold parseDxfOptions at h
    cases hf : parseStr f <;> cases hv : parseInt v <;> cases hs : parseStr src <;>
      simp only [hf, hv, hs] at h <;>
      first
        | exact Option.noConfusion h
        | (simp only [Option.some.injEq] at h; subst h; simp [hv])
  | [], h => simp [parseDxfOptions] at h
  | _ :: _ :: _ :: _ :: _ :: _, h => simp [parseDxfOptions] at h

theorem setupTrace_count_setVersion (p : DxfOptions) (v : Int) :
    (setupTrace p).count (.setVersion v) =
      if v = p.versionParm ∧ (v = 12 ∨ v = 14) then 1 else 0 := by
  unfold setupTrace
  by_cases h : p.versionParm = 12 ∨ p.versionParm = 14
  · by_cases hv : v = p.versionParm
    · subst hv
      simp [h, List.count_cons]
    · simp [h, hv, List.count_cons, Ne.symm hv]
  · by_cases hv : v = p.versionParm
    · subst hv
      simp [h, List.count_cons]
    · simp [h, hv, List.count_cons]

theorem shapeVars_none (env : Env) (args : List PyObj) (h : shapeVars args = none) :
    writeDXFShape env args =
      ⟨[], .error (.Py_Exception (.PyExc_TypeError "expected ([Shape],path"))⟩ := by
  unfold shapeVars at h
  unfold writeDXFShape
  cases h1 : parseDxfArgs isPyList args with
  | some op => simp [h1] at h
  | none =>
    cases h2 : parseDxfArgs isTopoShapePy args with
    | some op => simp [h1, h2] at h
    | none => rfl

theorem objectVars_none (env : Env) (args : List PyObj) (h : objectVars args = none) :
    writeDXFObject env args =
      ⟨[], .error (.Py_Exception (.PyExc_TypeError "expected ([DocObject],path"))⟩ := by
  unfold objectVars at h
  unfold writeDXFObject
  cases h1 : parseDxfArgs isPyList args with
  | some op => simp [h1] at h
  | none =>
    cases h2 : parseDxfArgs isDocumentObjectPy args with
    | some op => simp [h1, h2] at h
    | none => rfl

/-- C11: in `writeDXFShape` and `writeDXFObject`, in the list form and in the
single-entity form, `setVersion` is called exactly when the version argument is 12
or 14, once and with that value; for every other version, and when the version is
omitted (the variable then keeps `-1`), `setVersion` is never called.  A call in
neither form (no parse accepts the arguments) makes no call at all. -/
theorem dxf_setVersion_iff (env : Env) (args : List PyObj) (p : DxfOptions) :
    (shapeVars args = some p →
      ∀ v, (writeDXFShape env args).trace.count (.setVersion v) =
        if v = p.versionParm ∧ (v = 12 ∨ v = 14) then 1 else 0) ∧
    (objectVars args = some p →
      ∀ v, (writeDXFObject env args).trace.count (.setVersion v) =
        if v = p.versionParm ∧ (v = 12 ∨ v = 14) then 1 else 0) ∧
    (shapeVars args = some p ∨ objectVars args = some p →
      (args.length = 2 → p.versionParm = -1) ∧
      (∀ x, args.get? 2 = some x → parseInt x = some p.versionParm)) ∧
    (shapeVars args = none → (writeDXFShape env args).trace = []) ∧
    (objectVars args = none → (writeDXFObject env args).trace = []) := by
  refine ⟨fun h v => ?_, fun h v => ?_, fun h => ?_,
    fun h => by rw [shapeVars_none env args h], fun h => by rw [objectVars_none env args h]⟩
  · obtain ⟨middle, hc⟩ := shapeCall_of_vars env args p h
    rw [writeDXFShape_of_call env args p middle hc,
      dxfRun_count p middle (.setVersion v) (shapeCall_entity env args p middle hc) rfl
        Event.noConfusion]
    exact setupTrace_count_setVersion p v
  · obtain ⟨middle, hc⟩ := objectCall_of_vars env args p h
    rw [writeDXFObject_of_call env args p middle hc,
      dxfRun_count p middle (.setVersion v) (objectCall_entity env args p middle hc) rfl
        Event.noConfusion]
    exact setupTrace_count_setVersion p v
  · have hargs : ∃ o rest, args = o :: rest ∧ parseDxfOptions rest = some p := by
      rcases h with h | h
      · exact shapeVars_some args p h
      · exact objectVars_some args p h
    obtain ⟨o, rest, ha, hp⟩ := hargs
    subst ha
    have := parseDxfOptions_vars o rest p hp
    exact ⟨this.1, this.2.1⟩

/-- C11 at concrete inputs: version 14 is passed on once, version 13 and an
omitted version are not; a path that holds a null character is accepted by no
parse, so no call is made. -/
theorem dxf_setVersion_iff_witness :
    (writeDXFShape sampleEnv [.shape 4, .str "a.dxf", .int 14]).trace.count (.setVersion 14) = 1 ∧
      (writeDXFObject sampleEnv [.list [.docObject 3], .str "a.dxf", .int 13]).trace.count
        (.setVersion 13) = 0 ∧
      (writeDXFObject sampleEnv [.docObject 3, .str "a.dxf"]).trace.count
        (.setVersion (-1)) = 0 ∧
      (writeDXFShape sampleEnv
        [.shape 4, .str (String.mk ['a', Char.ofNat 0, 'b']), .int 14]).trace = [] :=
  ⟨(dxf_setVersion_iff sampleEnv [.shape 4, .str "a.dxf", .int 14]
      { fname := "a.dxf", versionParm := 14 }).1 rfl 14,
    (dxf_setVersion_iff sampleEnv [.list [.docObject 3], .str "a.dxf", .int 13]
      { fname := "a.dxf", versionParm := 13 }).2.1 rfl 13,
    (dxf_setVersion_iff sampleEnv [.docObject 3, .str "a.dxf"]
      { fname := "a.dxf" }).2.1 rfl (-1),
    (dxf_setVersion_iff sampleEnv
      [.shape 4, .str (String.mk ['a', Char.ofNat 0, 'b']), .int 14]
      { fname := "a.dxf" }).2.2.2.1 rfl⟩

theorem setupTrace_count_setPolyOverride (p : DxfOptions) (b : Bool) :
    (setupTrace p).count (.setPolyOverride b) = if b = isPyTrue p.usePolyline then 1 else 0 := by
  unfold setupTrace
  by_cases h : p.versionParm = 12 ∨ p.versionParm = 14
  · by_cases hb : b = isPyTrue p.usePolyline
    · subst hb
      simp [h, List.count_cons]
    · simp [h, hb, List.count_cons, Ne.symm hb]
  · by_cases hb : b = isPyTrue p.usePolyline
    · subst hb
      simp [h, List.count_cons]
    · simp [h, hb, List.count_cons, Ne.symm hb]

theorem isPyTrue_iff (x : PyObj) : isPyTrue x = true ↔ x = .bool true := by
  cases x with
  | bool b => cases b <;> simp [isPyTrue]
  | _ => simp [isPyTrue]

/-- C17: in `writeDXFShape` and `writeDXFObject` `setPolyOverride` is called once,
and the value passed is true exactly when the `usePolyline` argument is the
object `True` itself; for every other object (the integer 1 included) and for an
omitted argument (the variable then keeps `Py_False`) the value passed is false.
A call whose arguments no parse accepts makes no call at all, so passes no
override. -/
theorem dxf_polyOverride_iff (env : Env) (args : List PyObj) (p : DxfOptions) :
    (shapeVars args = some p →
      ∀ b, (writeDXFShape env args).trace.count (.setPolyOverride b) =
        if b = isPyTrue p.usePolyline then 1 else 0) ∧
    (objectVars args = some p →
      ∀ b, (writeDXFObject env args).trace.count (.setPolyOverride b) =
        if b = isPyTrue p.usePolyline then 1 else 0) ∧
    (isPyTrue p.usePolyline = true ↔ p.usePolyline = .bool true) ∧
    (shapeVars args = some p ∨ objectVars args = some p →
      (args.length ≤ 3 → p.usePolyline = .bool false) ∧
      (∀ u, args.get? 3 = some u → p.usePolyline = u)) ∧
    (shapeVars args = none → (writeDXFShape env args).trace = []) ∧
    (objectVars args = none → (writeDXFObject env args).trace = []) := by
  refine ⟨fun h b => ?_, fun h b => ?_, isPyTrue_iff _, fun h => ?_,
    fun h => by rw [shapeVars_none env args h], fun h => by rw [objectVars_none env args h]⟩
  · obtain ⟨middle, hc⟩ := shapeCall_of_vars env args p h
    rw [writeDXFShape_of_call env args p middle hc,
      dxfRun_count p middle (.setPolyOverride b) (shapeCall_entity env args p middle hc) rfl
        Event.noConfusion]
    exact setupTrace_count_setPolyOverride p b
  · obtain ⟨middle, hc⟩ := objectCall_of_vars env args p h
    rw [writeDXFObject_of_call env args p middle hc,
      dxfRun_count p middle (.setPolyOverride b) (objectCall_entity env args p middle hc) rfl
        Event.noConfusion]
    exact setupTrace_count_setPolyOverride p b
  · have hargs : ∃ o rest, args = o :: rest ∧ parseDxfOptions rest = some p := by
      rcases h with h | h
      · exact shapeVars_some args p h
      · exact objectVars_some args p h
    obtain ⟨o, rest, ha, hp⟩ := hargs
    subst ha
    have := parseDxfOptions_vars o rest p hp
    exact ⟨this.2.2.1, this.2.2.2⟩

/-- C17 at concrete inputs: `True` gives the override true, the integer 1 and an
omitted argument give false; a path that holds a null character is accepted by no
parse, so no call is made. -/
theorem dxf_polyOverride_iff_witness :
    (writeDXFShape sampleEnv [.shape 4, .str "a.dxf", .int 12, .bool true]).trace.count
        (.setPolyOverride true) = 1 ∧
      (writeDXFShape sampleEnv [.shape 4, .str "a.dxf", .int 12, .int 1]).trace.count
        (.setPolyOverride false) = 1 ∧
      (writeDXFObject sampleEnv [.docObject 3, .str "a.dxf"]).trace.count
        (.setPolyOverride false) = 1 ∧
      (writeDXFObject sampleEnv
        [.docObject 3, .str (String.mk ['a', Char.ofNat 0, 'b']), .int 12, .bool true]).trace =
          [] :=
  ⟨(dxf_polyOverride_iff sampleEnv [.shape 4, .str "a.dxf", .int 12, .bool true]
      { fname := "a.dxf", versionParm := 12, usePolyline := .bool true }).1 rfl true,
    (dxf_polyOverride_iff sampleEnv [.shape 4, .str "a.dxf", .int 12, .int 1]
      { fname := "a.dxf", versionParm := 12, usePolyline := .int 1 }).1 rfl false,
    (dxf_polyOverride_iff sampleEnv [.docObject 3, .str "a.dxf"]
      { fname := "a.dxf" }).2.1 rfl false,
    (dxf_polyOverride_iff sampleEnv
      [.docObject 3, .str (String.mk ['a', Char.ofNat 0, 'b']), .int 12, .bool true]
      { fname := "a.dxf" }).2.2.2.2.2 rfl⟩

/-! ## Argument resolution of the DXF writers -/

/-- A run that leaves, when it leaves, through a C++ exception of a collaborator
(never through a Python exception raised by the module). -/
def Run.Faults {α : Type} (r : Run α) : Prop := ∀ t, r.result = .error t → ∃ f, t = .fault f

theorem Run.faults_pure {α : Type} (a : α) : Run.Faults (pure a : Run α) := by
  intro t h
  exact Except.noConfusion h

theorem Run.faults_emit (e : Event) : Run.Faults (emit e) := by
  intro t h
  exact Except.noConfusion h

theorem Run.faults_call {α : Type} (e : Event) (o : Except Fault α) : Run.Faults (call e o) := by
  intro t h
  cases o with
  | ok a => exact Except.noConfusion h
  | error f =>
    have h' : (Except.error (.fault f) : Except Thrown α) = .error t := h
    exact ⟨f, (Except.error.inj h').symm⟩

theorem Run.faults_bind {α β : Type} {x : Run α} {f : α → Run β}
    (hx : Run.Faults x) (hf : ∀ a, Run.Faults (f a)) : Run.Faults (x >>= f) := by
  intro t h
  cases hr : x.result with
  | ok v =>
    rw [Run.bind_result_ok x f v hr] at h
    exact hf v t h
  | error t' =>
    rw [Run.bind_result_error x f t' hr] at h
    exact hx t (by rw [hr, Except.error.inj h])

theorem Run.faults_forEach {α : Type} {body : α → Run Unit}
    (hb : ∀ a, Run.Faults (body a)) (l : List α) : Run.Faults (forEach body l) := by
  induction l with
  | nil => exact Run.faults_pure ()
  | cons x rest ih =>
    unfold Import.forEach
    exact Run.faults_bind (hb x) (fun _ => ih)

theorem exportFeature_faults (env : Env) (obj : ObjPtr) : Run.Faults (exportFeature env obj) := by
  unfold exportFeature
  exact Run.faults_bind (Run.faults_emit _) (fun _ => Run.faults_call _ _)

theorem exportShapeItem_faults (env : Env) (item : PyObj) :
    Run.Faults (exportShapeItem env item) := by
  cases item <;> first | exact Run.faults_pure _ | exact Run.faults_call _ _

theorem exportObjectItem_faults (env : Env) (item : PyObj) :
    Run.Faults (exportObjectItem env item) := by
  cases item with
  | docObject obj =>
    show Run.Faults (if env.isPartFeature obj = true then exportFeature env obj else pure ())
    by_cases h : env.isPartFeature obj = true
    · rw [if_pos h]; exact exportFeature_faults env obj
    · rw [if_neg h]; exact Run.faults_pure _
  | _ => exact Run.faults_pure _

theorem shapeListMiddle_faults (env : Env) (o : PyObj) : Run.Faults (shapeListMiddle env o) :=
  Run.faults_forEach (exportShapeItem_faults env) _

theorem shapeSingleMiddle_faults (env : Env) (o : PyObj) :
    Run.Faults (shapeSingleMiddle env o) := by
  unfold shapeSingleMiddle
  cases o <;> first | exact Run.faults_pure _ | exact Run.faults_call _ _

theorem objectListMiddle_faults (env : Env) (o : PyObj) : Run.Faults (objectListMiddle env o) :=
  Run.faults_forEach (exportObjectItem_faults env) _

theorem objectSingleMiddle_faults (env : Env) (o : PyObj) :
    Run.Faults (objectSingleMiddle env o) := by
  unfold objectSingleMiddle
  cases o <;> first | exact Run.faults_pure _ | exact exportFeature_faults env _

/-- The outcome of a DXF writer run: `None` when the entity step completes; a
`Base::Exception` is re-raised as a `RuntimeError`; any other exception leaves
the function as it is. -/
theorem dxfRun_result (p : DxfOptions) (middle : Run Unit) :
    (tryCatch (dxfBody p middle) dxfCatch).result =
      match middle.result with
      | .ok _ => .ok .none
      | .error (.fault (.Base_Exception what)) =>
        .error (.Py_Exception (.PyExc_RuntimeError what))
      | .error t => .error t := by
  have hb := dxfBody_result p middle
  cases hm : middle.result with
  | ok u =>
    rw [hm] at hb
    rw [Run.tryCatch_ok _ hb, hb]
  | error t =>
    rw [hm] at hb
    cases t with
    | Py_Exception e => rw [Run.tryCatch_unhandled hb rfl, hb]
    | fault f =>
      cases f with
      | OSD_Exception m => rw [Run.tryCatch_unhandled hb rfl, hb]
      | Standard_Failure m => rw [Run.tryCatch_unhandled hb rfl, hb]
      | Base_Exception m => rw [Run.tryCatch_handled hb rfl]; rfl

/-- A DXF writer run whose entity step leaves only through collaborator
exceptions does not end in a `TypeError`. -/
theorem dxfRun_not_typeError (p : DxfOptions) (middle : Run Unit) (hm : Run.Faults middle)
    (msg : String) :
    (tryCatch (dxfBody p middle) dxfCatch).result ≠
      .error (.Py_Exception (.PyExc_TypeError msg)) := by
  rw [dxfRun_result]
  cases hr : middle.result with
  | ok u => exact Except.noConfusion
  | error t =>
    obtain ⟨f, hf⟩ := hm t hr
    subst hf
    cases f <;> simp

theorem setupTrace_new_mem (p : DxfOptions) : Event.ImpExpDxfWrite_new p.fname ∈ setupTrace p := by
  unfold setupTrace
  simp

theorem dxfRun_new_mem (p : DxfOptions) (middle : Run Unit) :
    Event.ImpExpDxfWrite_new p.fname ∈ (tryCatch (dxfBody p middle) dxfCatch).trace := by
  rw [dxfRun_trace]
  exact List.mem_append_left _ (setupTrace_new_mem p)

theorem parseDxfArgs_exclusive (acc1 acc2 : PyObj → Bool)
    (hex : ∀ o, acc1 o = true → acc2 o = false) (args : List PyObj) (o : PyObj) (p : DxfOptions)
    (h : parseDxfArgs acc1 args = some (o, p)) : parseDxfArgs acc2 args = none := by
  cases args with
  | nil => rfl
  | cons x rest =>
    unfold parseDxfArgs at h ⊢
    by_cases ha : acc1 x = true
    · simp [hex x ha]
    · simp [ha] at h

/-- C12: `writeDXFShape` and `writeDXFObject` try the list-shaped parse first and
run the list branch when it matches (the single-entity parse then does not match
and its branch is not run); the single-entity branch is run exactly when the
list-shaped parse fails and the single-entity parse matches; the call raises the
`TypeError` exactly when neither parse matches, and then no call is made at all,
so no writer is constructed; whenever a parse matches, the writer is constructed. -/
theorem dxf_argument_resolution (env : Env) (args : List PyObj) :
    (∀ o p, parseDxfArgs isPyList args = some (o, p) →
      writeDXFShape env args = tryCatch (writeShapeList env o p) dxfCatch ∧
      parseDxfArgs isTopoShapePy args = none ∧
      Event.ImpExpDxfWrite_new p.fname ∈ (writeDXFShape env args).trace) ∧
    (∀ o p, parseDxfArgs isPyList args = none → parseDxfArgs isTopoShapePy args = some (o, p) →
      writeDXFShape env args = tryCatch (writeShapeSingle env o p) dxfCatch ∧
      Event.ImpExpDxfWrite_new p.fname ∈ (writeDXFShape env args).trace) ∧
    ((parseDxfArgs isPyList args = none ∧ parseDxfArgs isTopoShapePy args = none) ↔
      (writeDXFShape env args).result =
        .error (.Py_Exception (.PyExc_TypeError "expected ([Shape],path"))) ∧
    (parseDxfArgs isPyList args = none → parseDxfArgs isTopoShapePy args = none →
      (writeDXFShape env args).trace = []) ∧
    (∀ o p, parseDxfArgs isPyList args = some (o, p) →
      writeDXFObject env args = tryCatch (writeObjectList env o p) dxfCatch ∧
      parseDxfArgs isDocumentObjectPy args = none ∧
      Event.ImpExpDxfWrite_new p.fname ∈ (writeDXFObject env args).trace) ∧
    (∀ o p, parseDxfArgs isPyList args = none →
      parseDxfArgs isDocumentObjectPy args = some (o, p) →
      writeDXFObject env args = tryCatch (writeObjectSingle env o p) dxfCatch ∧
      Event.ImpExpDxfWrite_new p.fname ∈ (writeDXFObject env args).trace) ∧
    ((parseDxfArgs isPyList args = none ∧ parseDxfArgs isDocumentObjectPy args = none) ↔
      (writeDXFObject env args).result =
        .error (.Py_Exception (.PyExc_TypeError "expected ([DocObject],path"))) ∧
    (parseDxfArgs isPyList args = none → parseDxfArgs isDocumentObjectPy args = none →
      (writeDXFObject env args).trace = []) := by
  have hS1 : ∀ o p, parseDxfArgs isPyList args = some (o, p) →
      writeDXFShape env args = tryCatch (dxfBody p (shapeListMiddle env o)) dxfCatch := by
    intro o p h
    unfold writeDXFShape
    simp only [h, writeShapeList_eq]
  have hS2 : ∀ o p, parseDxfArgs isPyList args = none →
      parseDxfArgs isTopoShapePy args = some (o, p) →
      writeDXFShape env args = tryCatch (dxfBody p (shapeSingleMiddle env o)) dxfCatch := by
    intro o p h1 h2
    unfold writeDXFShape
    simp only [h1, h2, writeShapeSingle_eq]
  have hO1 : ∀ o p, parseDxfArgs isPyList args = some (o, p) →
      writeDXFObject env args = tryCatch (dxfBody p (objectListMiddle env o)) dxfCatch := by
    intro o p h
    unfold writeDXFObject
    simp only [h, writeObjectList_eq]
  have hO2 : ∀ o p, parseDxfArgs isPyList args = none →
      parseDxfArgs isDocumentObjectPy args = some (o, p) →
      writeDXFObject env args = tryCatch (dxfBody p (objectSingleMiddle env o)) dxfCatch := by
    intro o p h1 h2
    unfold writeDXFObject
    simp only [h1, h2, writeObjectSingle_eq]
  refine ⟨fun o p h => ⟨?_, ?_, ?_⟩, fun o p h1 h2 => ⟨?_, ?_⟩, ⟨fun h => ?_, fun h => ?_⟩,
    fun h1 h2 => ?_, fun o p h => ⟨?_, ?_, ?_⟩, fun o p h1 h2 => ⟨?_, ?_⟩,
    ⟨fun h => ?_, fun h => ?_⟩, fun h1 h2 => ?_⟩
  · rw [hS1 o p h, writeShapeList_eq]
  · exact parseDxfArgs_exclusive isPyList isTopoShapePy
      (fun x hx => by cases x <;> first | rfl | exact Bool.noConfusion hx) args o p h
  · rw [hS1 o p h]; exact dxfRun_new_mem _ _
  · rw [hS2 o p h1 h2, writeShapeSingle_eq]
  · rw [hS2 o p h1 h2]; exact dxfRun_new_mem _ _
  · unfold writeDXFShape
    simp only [h.1, h.2]
    rfl
  · cases h1 : parseDxfArgs isPyList args with
    | some op =>
      obtain ⟨o, p⟩ := op
      rw [hS1 o p h1] at h
      exact absurd h (dxfRun_not_typeError p _ (shapeListMiddle_faults env o) _)
    | none =>
      cases h2 : parseDxfArgs isTopoShapePy args with
      | some op =>
        obtain ⟨o, p⟩ := op
        rw [hS2 o p h1 h2] at h
        exact absurd h (dxfRun_not_typeError p _ (shapeSingleMiddle_faults env o) _)
      | none => exact ⟨rfl, rfl⟩
  · unfold writeDXFShape
    simp only [h1, h2]
    rfl
  · rw [hO1 o p h, writeObjectList_eq]
  · exact parseDxfArgs_exclusive isPyList isDocumentObjectPy
      (fun x hx => by cases x <;> first | rfl | exact Bool.noConfusion hx) args o p h
  · rw [hO1 o p h]; exact dxfRun_new_mem _ _
  · rw [hO2 o p h1 h2, writeObjectSingle_eq]
  · rw [hO2 o p h1 h2]; exact dxfRun_new_mem _ _
  · unfold writeDXFObject
    simp only [h.1, h.2]
    rfl
  · cases h1 : parseDxfArgs isPyList args with
    | some op =>
      obtain ⟨o, p⟩ := op
      rw [hO1 o p h1] at h
      exact absurd h (dxfRun_not_typeError p _ (objectListMiddle_faults env o) _)
    | none =>
      cases h2 : parseDxfArgs isDocumentObjectPy args with
      | some op =>
        obtain ⟨o, p⟩ := op
        rw [hO2 o p h1 h2] at h
        exact absurd h (dxfRun_not_typeError p _ (objectSingleMiddle_faults env o) _)
      | none => exact ⟨rfl, rfl⟩
  · unfold writeDXFObject
    simp only [h1, h2]
    rfl

/-- C12 at concrete inputs: a list runs the list branch and constructs the writer;
a string as first argument matches neither parse, so the call raises the
`TypeError` without any call; so does a shape with a path that holds a null
character. -/
theorem dxf_argument_resolution_witness :
    (writeDXFShape sampleEnv [.list [.shape 4], .str "a.dxf"] =
        tryCatch (writeShapeList sampleEnv (.list [.shape 4]) { fname := "a.dxf" }) dxfCatch ∧
      parseDxfArgs isTopoShapePy [.list [.shape 4], .str "a.dxf"] = none ∧
      Event.ImpExpDxfWrite_new "a.dxf" ∈
        (writeDXFShape sampleEnv [.list [.shape 4], .str "a.dxf"]).trace) ∧
      (writeDXFObject sampleEnv [.str "x", .str "a.dxf"]).result =
        .error (.Py_Exception (.PyExc_TypeError "expected ([DocObject],path")) ∧
      (writeDXFObject sampleEnv [.str "x", .str "a.dxf"]).trace = [] ∧
      (writeDXFShape sampleEnv
          [.shape 4, .str (String.mk ['a', Char.ofNat 0, 'b']), .int 14]).result =
        .error (.Py_Exception (.PyExc_TypeError "expected ([Shape],path")) ∧
      (writeDXFShape sampleEnv
          [.shape 4, .str (String.mk ['a', Char.ofNat 0, 'b']), .int 14]).trace = [] :=
  ⟨(dxf_argument_resolution sampleEnv [.list [.shape 4], .str "a.dxf"]).1
      (.list [.shape 4]) { fname := "a.dxf" } rfl,
    (dxf_argument_resolution sampleEnv [.str "x", .str "a.dxf"]).2.2.2.2.2.2.1.1 ⟨rfl, rfl⟩,
    (dxf_argument_resolution sampleEnv [.str "x", .str "a.dxf"]).2.2.2.2.2.2.2 rfl rfl,
    (dxf_argument_resolution sampleEnv
      [.shape 4, .str (String.mk ['a', Char.ofNat 0, 'b']), .int 14]).2.2.1.1 ⟨rfl, rfl⟩,
    (dxf_argument_resolution sampleEnv
      [.shape 4, .str (String.mk ['a', Char.ofNat 0, 'b']), .int 14]).2.2.2.1 rfl rfl⟩

/-! ## The layer name at each `exportShape` -/

/-- The shape a call exports, when it is an `exportShape`. -/
def Event.shapeExported : Event → Option Shape
  | .exportShape s => some s
  | _ => none

/-- Modelled from the spec: `ImpExpDxfWrite::setLayerName` (`ImpExpDxf.cpp` is not
among the sources) sets the writer's current layer name, which stays in effect
until the next `setLayerName`; every other call leaves it as it is. -/
def Event.layerAfter (current : Option String) : Event → Option String
  | .setLayerName n => some n
  | _ => current

/-- The writer's current layer name after a sequence of calls. -/
def lastLayer (current : Option String) : List Event → Option String
  | [] => current
  | e :: rest => lastLayer (e.layerAfter current) rest

/-- The `exportShape` calls of a sequence of calls, each with the writer's
current layer name at the time of the call (`none` while no layer name has been
set). -/
def layersAtExport (current : Option String) : List Event → List (Shape × Option String)
  | [] => []
  | e :: rest =>
    match e.shapeExported with
    | some s => (s, current) :: layersAtExport (e.layerAfter current) rest
    | none => layersAtExport (e.layerAfter current) rest

theorem layersAtExport_cons (current : Option String) (e : Event) (rest : List Event) :
    layersAtExport current (e :: rest) =
      match e.shapeExported with
      | some s => (s, current) :: layersAtExport (e.layerAfter current) rest
      | none => layersAtExport (e.layerAfter current) rest := rfl

theorem lastLayer_cons (current : Option String) (e : Event) (rest : List Event) :
    lastLayer current (e :: rest) = lastLayer (e.layerAfter current) rest := rfl

theorem layersAtExport_append (current : Option String) (a b : List Event) :
    layersAtExport current (a ++ b) =
      layersAtExport current a ++ layersAtExport (lastLayer current a) b := by
  induction a generalizing current with
  | nil => rfl
  | cons e rest ih =>
    rw [List.cons_append, layersAtExport_cons, layersAtExport_cons, lastLayer_cons]
    cases e.shapeExported with
    | some s => simp only [ih, List.cons_append]
    | none => simp only [ih]

theorem lastLayer_append (current : Option String) (a b : List Event) :
    lastLayer current (a ++ b) = lastLayer (lastLayer current a) b := by
  induction a generalizing current with
  | nil => rfl
  | cons e rest ih => rw [List.cons_append, lastLayer_cons, lastLayer_cons, ih]

theorem setupTrace_layers (p : DxfOptions) :
    layersAtExport none (setupTrace p) = [] ∧ lastLayer none (setupTrace p) = some "none" := by
  unfold setupTrace
  by_cases h : p.versionParm = 12 ∨ p.versionParm = 14
  · simp [h, layersAtExport, lastLayer, Event.shapeExported, Event.layerAfter]
  · simp [h, layersAtExport, lastLayer, Event.shapeExported, Event.layerAfter]

/-- The layer names at the `exportShape` calls of a DXF writer run are those of
the entity step, which starts with the layer name `"none"` of the set-up. -/
theorem dxfRun_layers (p : DxfOptions) (middle : Run Unit) :
    layersAtExport none (tryCatch (dxfBody p middle) dxfCatch).trace =
      layersAtExport (some "none") middle.trace := by
  rw [dxfRun_trace, layersAtExport_append, (setupTrace_layers p).1, (setupTrace_layers p).2,
    layersAtExport_append, List.nil_append]
  cases middle.result with
  | ok u => simp [layersAtExport, Event.shapeExported]
  | error t => simp [layersAtExport]

theorem exportShape_call_trace (env : Env) (s : Shape) :
    (call (.exportShape s) (env.exportShape s) : Run Unit).trace = [.exportShape s] := by
  unfold call
  cases env.exportShape s <;> rfl

theorem exportFeature_trace (env : Env) (obj : ObjPtr) :
    (exportFeature env obj).trace =
      [.setLayerName (env.getNameInDocument obj), .exportShape (env.shapeValue obj)] := by
  unfold exportFeature
  rw [Run.bind_trace_ok _ _ () rfl, exportShape_call_trace]
  rfl

theorem forEach_cons_trace {α : Type} (body : α → Run Unit) (x : α) (rest : List α) :
    (forEach body (x :: rest)).trace = (body x).trace ∨
      (forEach body (x :: rest)).trace = (body x).trace ++ (forEach body rest).trace := by
  show ((body x) >>= fun _ => forEach body rest).trace = _ ∨
    ((body x) >>= fun _ => forEach body rest).trace = _
  cases hr : (body x).result with
  | ok u => right; exact Run.bind_trace_ok _ _ u hr
  | error t => left; exact Run.bind_trace_error _ _ t hr

/-- In the list form of `writeDXFShape` no layer name is set during the entity
step, so every shape is exported under the layer name in effect before it. -/
theorem shapeList_layers (env : Env) (items : List PyObj) (current : Option String) :
    ∀ sl ∈ layersAtExport current (forEach (exportShapeItem env) items).trace,
      sl.2 = current := by
  induction items with
  | nil => intro sl h; exact absurd h (List.not_mem_nil _)
  | cons x rest ih =>
    have hx : (layersAtExport current (exportShapeItem env x).trace = [] ∨
          ∃ s, layersAtExport current (exportShapeItem env x).trace = [(s, current)]) ∧
        lastLayer current (exportShapeItem env x).trace = current := by
      cases x with
      | shape s =>
        have ht : (exportShapeItem env (.shape s)).trace = [.exportShape s] :=
          exportShape_call_trace env s
        rw [ht]
        exact ⟨Or.inr ⟨s, rfl⟩, rfl⟩
      | _ => exact ⟨Or.inl rfl, rfl⟩
    intro sl h
    have hmem : sl ∈ layersAtExport current (exportShapeItem env x).trace ∨
        sl ∈ layersAtExport current (forEach (exportShapeItem env) rest).trace := by
      rcases forEach_cons_trace (exportShapeItem env) x rest with ht | ht
      · rw [ht] at h; exact Or.inl h
      · rw [ht, layersAtExport_append, hx.2, List.mem_append] at h; exact h
    rcases hmem with h1 | h2
    · rcases hx.1 with h0 | ⟨s, hs⟩
      · rw [h0] at h1; exact absurd h1 (List.not_mem_nil _)
      · rw [hs, List.mem_singleton] at h1; rw [h1]
    · exact ih sl h2

/-- In the list form of `writeDXFObject` every shape is exported right after the
layer name has been set to the name of its object. -/
theorem objectList_layers (env : Env) (items : List PyObj) (current : Option String) :
    ∀ sl ∈ layersAtExport current (forEach (exportObjectItem env) items).trace,
      ∃ obj, PyObj.docObject obj ∈ items ∧ sl.1 = env.shapeValue obj ∧
        sl.2 = some (env.getNameInDocument obj) := by
  induction items generalizing current with
  | nil => intro sl h; exact absurd h (List.not_mem_nil _)
  | cons x rest ih =>
    intro sl h
    have hmem : sl ∈ layersAtExport current (exportObjectItem env x).trace ∨
        ∃ c, sl ∈ layersAtExport c (forEach (exportObjectItem env) rest).trace := by
      rcases forEach_cons_trace (exportObjectItem env) x rest with ht | ht
      · rw [ht] at h; exact Or.inl h
      · rw [ht, layersAtExport_append, List.mem_append] at h
        exact h.imp id (fun h2 => ⟨_, h2⟩)
    rcases hmem with h1 | ⟨c, h2⟩
    · have hx : ∃ obj, x = .docObject obj ∧
          (exportObjectItem env x).trace = (exportFeature env obj).trace := by
        cases x with
        | docObject obj =>
          by_cases hp : env.isPartFeature obj = true
          · exact ⟨obj, rfl, by simp only [exportObjectItem, hp, if_true]⟩
          · have : (exportObjectItem env (.docObject obj)).trace = [] := by
              simp only [exportObjectItem, hp]; rfl
            rw [this] at h1
            exact absurd h1 (List.not_mem_nil _)
        | _ => exact absurd h1 (List.not_mem_nil _)
      obtain ⟨obj, hxo, htr⟩ := hx
      rw [htr, exportFeature_trace] at h1
      simp only [layersAtExport, Event.shapeExported, Event.layerAfter,
        List.mem_singleton] at h1
      exact ⟨obj, by rw [hxo]; exact List.mem_cons_self _ _, by rw [h1], by rw [h1]⟩
    · obtain ⟨obj, hm, hs⟩ := ih c sl h2
      exact ⟨obj, List.mem_cons_of_mem _ hm, hs⟩

/-- `PyObject_TypeCheck(item, &(Part::TopoShapePy::Type))` followed by
`getTopoShapePtr()->getShape()`. -/
def asTopoShape : PyObj → Option Shape
  | .shape s => some s
  | _ => none

theorem forEach_cons_trace_ok {α : Type} (body : α → Run Unit) (x : α) (rest : List α)
    (h : (body x).result = .ok ()) :
    (forEach body (x :: rest)).trace = (body x).trace ++ (forEach body rest).trace := by
  show ((body x) >>= fun _ => forEach body rest).trace = _
  exact Run.bind_trace_ok _ _ () h

/-- When no export throws, the list form of `writeDXFShape` exports the shapes
among the entries, in order, each under the layer name in effect. -/
theorem shapeList_layers_all (env : Env) (hok : ∀ s, env.exportShape s = .ok ())
    (items : List PyObj) (current : Option String) :
    layersAtExport current (forEach (exportShapeItem env) items).trace =
      (items.filterMap asTopoShape).map (fun s => (s, current)) := by
  induction items with
  | nil => rfl
  | cons x rest ih =>
    cases x with
    | shape s =>
      have hr : (exportShapeItem env (.shape s)).result = .ok () := by
        simp [exportShapeItem, call, hok s]
      have ht : (exportShapeItem env (.shape s)).trace = [.exportShape s] :=
        exportShape_call_trace env s
      rw [forEach_cons_trace_ok _ _ _ hr, ht]
      simp only [List.singleton_append, layersAtExport_cons, Event.shapeExported,
        Event.layerAfter, ih, List.filterMap_cons, asTopoShape, List.map_cons]
    | _ =>
      rw [forEach_cons_trace_ok _ _ _ rfl]
      simpa [exportShapeItem, List.filterMap_cons, asTopoShape] using ih

/-- When no export throws, the list form of `writeDXFObject` exports the shape of
each `Part::Feature` among the entries, in order, each under the name of its
object. -/
theorem objectList_layers_all (env : Env) (hok : ∀ s, env.exportShape s = .ok ())
    (items : List PyObj) (current : Option String) :
    layersAtExport current (forEach (exportObjectItem env) items).trace =
      ((resolveObjects items).filter env.isPartFeature).map
        (fun obj => (env.shapeValue obj, some (env.getNameInDocument obj))) := by
  induction items generalizing current with
  | nil => rfl
  | cons x rest ih =>
    cases x with
    | docObject obj =>
      by_cases hp : env.isPartFeature obj = true
      · have hi : exportObjectItem env (.docObject obj) = exportFeature env obj := by
          simp only [exportObjectItem, hp, if_true]
        have hr : (exportFeature env obj).result = .ok () := by
          simp [exportFeature, Run.bind_eq, Run.bind, emit, call, hok]
        rw [forEach_cons_trace_ok _ _ _ (by rw [hi]; exact hr), hi, exportFeature_trace]
        simp only [List.cons_append, List.nil_append, layersAtExport_cons, Event.shapeExported,
          Event.layerAfter, ih, resolveObjects, List.filterMap_cons, asDocumentObject,
          List.filter_cons, hp, if_true, List.map_cons]
      · have hi : exportObjectItem env (.docObject obj) = pure () := by
          simp only [exportObjectItem, hp]
          rfl
        rw [forEach_cons_trace_ok _ _ _ (by rw [hi]; rfl), hi]
        simp only [Run.pure_trace, List.nil_append, ih, resolveObjects, List.filterMap_cons,
          asDocumentObject, List.filter_cons, hp]
        rfl
    | _ =>
      rw [forEach_cons_trace_ok _ _ _ rfl]
      simpa [exportObjectItem, resolveObjects, List.filterMap_cons, asDocumentObject] using
        ih current

theorem writeDXFShape_list_layers (env : Env) (hok : ∀ s, env.exportShape s = .ok ())
    (items rest : List PyObj) (p : DxfOptions) (hp : parseDxfOptions rest = some p) :
    layersAtExport none (writeDXFShape env (.list items :: rest)).trace =
      (items.filterMap asTopoShape).map (fun s => (s, some "none")) := by
  have h1 : parseDxfArgs isPyList (.list items :: rest) = some (.list items, p) := by
    rw [parseDxfArgs_accepted isPyList (.list items) rest rfl, hp]; rfl
  unfold writeDXFShape
  simp only [h1, writeShapeList_eq]
  rw [dxfRun_layers]
  exact shapeList_layers_all env hok items _

theorem writeDXFShape_single_layers (env : Env) (s : Shape) (rest : List PyObj)
    (p : DxfOptions) (hp : parseDxfOptions rest = some p) :
    layersAtExport none (writeDXFShape env (.shape s :: rest)).trace = [(s, some "none")] := by
  have h1 : parseDxfArgs isPyList (.shape s :: rest) = none :=
    parseDxfArgs_rejected isPyList _ rest rfl
  have h2 : parseDxfArgs isTopoShapePy (.shape s :: rest) = some (.shape s, p) := by
    rw [parseDxfArgs_accepted isTopoShapePy (.shape s) rest rfl, hp]; rfl
  unfold writeDXFShape
  simp only [h1, h2, writeShapeSingle_eq]
  rw [dxfRun_layers]
  have ht : (shapeSingleMiddle env (.shape s)).trace = [.exportShape s] :=
    exportShape_call_trace env s
  rw [ht]
  rfl

theorem writeDXFObject_list_layers (env : Env) (hok : ∀ s, env.exportShape s = .ok ())
    (items rest : List PyObj) (p : DxfOptions) (hp : parseDxfOptions rest = some p) :
    layersAtExport none (writeDXFObject env (.list items :: rest)).trace =
      ((resolveObjects items).filter env.isPartFeature).map
        (fun obj => (env.shapeValue obj, some (env.getNameInDocument obj))) := by
  have h1 : parseDxfArgs isPyList (.list items :: rest) = some (.list items, p) := by
    rw [parseDxfArgs_accepted isPyList (.list items) rest rfl, hp]; rfl
  unfold writeDXFObject
  simp only [h1, writeObjectList_eq]
  rw [dxfRun_layers]
  exact objectList_layers_all env hok items _

theorem writeDXFObject_single_layers (env : Env) (obj : ObjPtr) (rest : List PyObj)
    (p : DxfOptions) (hp : parseDxfOptions rest = some p) :
    layersAtExport none (writeDXFObject env (.docObject obj :: rest)).trace =
      [(env.shapeValue obj, some (env.getNameInDocument obj))] := by
  have h1 : parseDxfArgs isPyList (.docObject obj :: rest) = none :=
    parseDxfArgs_rejected isPyList _ rest rfl
  have h2 : parseDxfArgs isDocumentObjectPy (.docObject obj :: rest) =
      some (.docObject obj, p) := by
    rw [parseDxfArgs_accepted isDocumentObjectPy (.docObject obj) rest rfl, hp]; rfl
  unfold writeDXFObject
  simp only [h1, h2, writeObjectSingle_eq]
  rw [dxfRun_layers]
  have ht : (objectSingleMiddle env (.docObject obj)).trace = (exportFeature env obj).trace :=
    rfl
  rw [ht, exportFeature_trace]
  rfl

/-- C13: at every `exportShape` call of `writeDXFShape` the writer's current layer
name is `"none"`; at every `exportShape` call of `writeDXFObject` it is the name
in the document of the object whose shape is exported, that object being the
first argument or an entry of it.  These calls are made: the single-entity forms
export the one shape under `"none"` respectively under the object's name, and
when no export throws the list forms export every shape among the entries under
`"none"` respectively the shape of every `Part::Feature` among the entries under
the name of its object, in order. -/
theorem dxf_layer_at_export (env : Env) (args : List PyObj) :
    (∀ sl ∈ layersAtExport none (writeDXFShape env args).trace, sl.2 = some "none") ∧
    (∀ sl ∈ layersAtExport none (writeDXFObject env args).trace,
      ∃ obj, (args.head? = some (.docObject obj) ∨
          ∃ items, args.head? = some (.list items) ∧ PyObj.docObject obj ∈ items) ∧
        sl.1 = env.shapeValue obj ∧ sl.2 = some (env.getNameInDocument obj)) ∧
    (∀ s rest p, args = .shape s :: rest → parseDxfOptions rest = some p →
      layersAtExport none (writeDXFShape env args).trace = [(s, some "none")]) ∧
    (∀ obj rest p, args = .docObject obj :: rest → parseDxfOptions rest = some p →
      layersAtExport none (writeDXFObject env args).trace =
        [(env.shapeValue obj, some (env.getNameInDocument obj))]) ∧
    (∀ items rest p, args = .list items :: rest → parseDxfOptions rest = some p →
      (∀ s, env.exportShape s = .ok ()) →
      layersAtExport none (writeDXFShape env args).trace =
          (items.filterMap asTopoShape).map (fun s => (s, some "none")) ∧
        layersAtExport none (writeDXFObject env args).trace =
          ((resolveObjects items).filter env.isPartFeature).map
            (fun obj => (env.shapeValue obj, some (env.getNameInDocument obj)))) := by
  refine ⟨?_, ?_,
    fun s rest p ha hp => by rw [ha]; exact writeDXFShape_single_layers env s rest p hp,
    fun obj rest p ha hp => by rw [ha]; exact writeDXFObject_single_layers env obj rest p hp,
    fun items rest p ha hp hok => by
      rw [ha]
      exact ⟨writeDXFShape_list_layers env hok items rest p hp,
        writeDXFObject_list_layers env hok items rest p hp⟩⟩
  · intro sl h
    unfold writeDXFShape at h
    cases h1 : parseDxfArgs isPyList args with
    | some op =>
      obtain ⟨o, p⟩ := op
      simp only [h1, writeShapeList_eq] at h
      rw [dxfRun_layers] at h
      exact shapeList_layers env _ _ sl h
    | none =>
      cases h2 : parseDxfArgs isTopoShapePy args with
      | some op =>
        obtain ⟨o, p⟩ := op
        simp only [h1, h2, writeShapeSingle_eq] at h
        rw [dxfRun_layers] at h
        cases o with
        | shape s =>
          have ht : (shapeSingleMiddle env (.shape s)).trace = [.exportShape s] :=
            exportShape_call_trace env s
          rw [ht] at h
          simp only [layersAtExport, Event.shapeExported, List.mem_singleton] at h
          rw [h]
        | _ => exact absurd h (List.not_mem_nil _)
      | none =>
        simp only [h1, h2] at h
        exact absurd h (List.not_mem_nil _)
  · intro sl h
    unfold writeDXFObject at h
    cases h1 : parseDxfArgs isPyList args with
    | some op =>
      obtain ⟨o, p⟩ := op
      simp only [h1, writeObjectList_eq] at h
      rw [dxfRun_layers] at h
      obtain ⟨rest, hargs, _⟩ := parseDxfArgs_some _ _ _ _ h1
      subst hargs
      cases o with
      | list items =>
        obtain ⟨obj, hm, hs⟩ := objectList_layers env items _ sl h
        exact ⟨obj, Or.inr ⟨items, rfl, hm⟩, hs⟩
      | _ => simp [parseDxfArgs, isPyList] at h1
    | none =>
      cases h2 : parseDxfArgs isDocumentObjectPy args with
      | some op =>
        obtain ⟨o, p⟩ := op
        simp only [h1, h2, writeObjectSingle_eq] at h
        rw [dxfRun_layers] at h
        obtain ⟨rest, hargs, _⟩ := parseDxfArgs_some _ _ _ _ h2
        subst hargs
        cases o with
        | docObject obj =>
          have ht : (objectSingleMiddle env (.docObject obj)).trace =
              (exportFeature env obj).trace := rfl
          rw [ht, exportFeature_trace] at h
          simp only [layersAtExport, Event.shapeExported, Event.layerAfter,
            List.mem_singleton] at h
          exact ⟨obj, Or.inl rfl, by rw [h], by rw [h]⟩
        | _ => exact absurd h (List.not_mem_nil _)
      | none =>
        simp only [h1, h2] at h
        exact absurd h (List.not_mem_nil _)

/-- A sample environment with two named objects: object 3 is `Box`, every other
object `Cylinder`; the shape of object `n` is `n + 10`. -/
def namedEnv : Env :=
  { sampleEnv with
    getNameInDocument := fun obj => if obj = 3 then "Box" else "Cylinder"
    shapeValue := fun obj => obj + 10 }

/-- C13 at concrete inputs: two shapes exported by `writeDXFShape` under `"none"`,
and the shape of the second of two objects exported by `writeDXFObject` under the
name of an entry with that shape. -/
theorem dxf_layer_at_export_witness :
    layersAtExport none
        (writeDXFShape namedEnv [.list [.shape 4, .shape 6], .str "a.dxf"]).trace =
        [(4, some "none"), (6, some "none")] ∧
      (some "none" : Option String) = some "none" ∧
      (layersAtExport none
          (writeDXFShape namedEnv [.list [.docObject 3, .docObject 5], .str "a.dxf"]).trace =
          ([PyObj.docObject 3, .docObject 5].filterMap asTopoShape).map
            (fun s => (s, some "none")) ∧
        layersAtExport none
          (writeDXFObject namedEnv [.list [.docObject 3, .docObject 5], .str "a.dxf"]).trace =
          ((resolveObjects [.docObject 3, .docObject 5]).filter namedEnv.isPartFeature).map
            (fun obj => (namedEnv.shapeValue obj, some (namedEnv.getNameInDocument obj)))) ∧
      layersAtExport none
        (writeDXFObject namedEnv [.list [.docObject 3, .docObject 5], .str "a.dxf"]).trace =
        [(13, some "Box"), (15, some "Cylinder")] ∧
      ∃ obj, ([PyObj.list [.docObject 3, .docObject 5], .str "a.dxf"].head? =
            some (.docObject obj) ∨
          ∃ items, [PyObj.list [.docObject 3, .docObject 5], .str "a.dxf"].head? =
            some (.list items) ∧ PyObj.docObject obj ∈ items) ∧
        (15 : Shape) = namedEnv.shapeValue obj ∧
        some "Cylinder" = some (namedEnv.getNameInDocument obj) :=
  ⟨by decide,
    (dxf_layer_at_export namedEnv [.list [.shape 4, .shape 6], .str "a.dxf"]).1
      (6, some "none") (by decide),
    (dxf_layer_at_export namedEnv [.list [.docObject 3, .docObject 5], .str "a.dxf"]).2.2.2.2
      [.docObject 3, .docObject 5] [.str "a.dxf"] { fname := "a.dxf" } rfl rfl (fun _ => rfl),
    by decide,
    (dxf_layer_at_export namedEnv [.list [.docObject 3, .docObject 5], .str "a.dxf"]).2.1
      (15, some "Cylinder") (by decide)⟩

/-! ## The runs of `readDXF` -/

/-- The message text an exception of a collaborator carries (`GetMessageString()`,
`what()`). -/
def Fault.message : Fault → String
  | .OSD_Exception msg => msg
  | .Standard_Failure msg => msg
  | .Base_Exception what => what

/-- The document `readDXF` reads into: the named one, else the active one, else a
new one. -/
def readTargetOf (env : Env) (DocName : Option String) : DocPtr :=
  match DocName with
  | some name => (env.getDocument name).getD env.newDocument
  | none => env.getActiveDocument.getD env.newDocument

/-- The calls of `readTarget`. -/
def readTargetTrace (env : Env) (DocName : Option String) : List Event :=
  match DocName with
  | some name =>
    .getDocument name ::
      (match env.getDocument name with
      | some _ => []
      | none => [.newDocumentNamed DocName])
  | none =>
    .getActiveDocument ::
      (match env.getActiveDocument with
      | some _ => []
      | none => [.newDocumentNamed DocName])

theorem readTarget_eq (env : Env) (DocName : Option String) :
    readTarget env DocName = ⟨readTargetTrace env DocName, .ok (readTargetOf env DocName)⟩ := by
  unfold readTarget readTargetTrace readTargetOf
  cases DocName with
  | some name =>
    cases h : env.getDocument name <;> simp [Run.bind_eq, Run.bind, emit, h, pure]
  | none =>
    cases h : env.getActiveDocument <;> simp [Run.bind_eq, Run.bind, emit, h, pure]

/-- The option source the DXF reader is given. -/
def readOptionSource (a : ReadDxfArgs) : String :=
  match a.optionSource with
  | some src => src
  | none => "User parameter:BaseApp/Preferences/Mod/Draft"

/-- The calls of the `try` body of `readDXF` up to and including `DoRead`. -/
def readCalls (a : ReadDxfArgs) (pcDoc : DocPtr) : List Event :=
  [.ImpExpDxfRead_new a.Name pcDoc, .setOptionSource (readOptionSource a), .setOptions,
    .DoRead a.IgnoreErrors]

theorem readDxfFile_eq (env : Env) (Name opts : String) (flag : Bool) (pcDoc : DocPtr) :
    readDxfFile env Name opts flag pcDoc =
      match env.DoRead Name flag with
      | .ok _ =>
        ⟨[.ImpExpDxfRead_new Name pcDoc, .setOptionSource opts, .setOptions, .DoRead flag,
            .recompute pcDoc], .ok ()⟩
      | .error f =>
        ⟨[.ImpExpDxfRead_new Name pcDoc, .setOptionSource opts, .setOptions, .DoRead flag],
          .error (.fault f)⟩ := by
  unfold readDxfFile
  cases h : env.DoRead Name flag <;> simp [Run.bind_eq, Run.bind, emit, call, h]

theorem readDxfCatch_fault {α : Type} (f : Fault) :
    (readDxfCatch (.fault f) : Option (Run α)) =
      some (raise (.Py_Exception (.PyExc_RuntimeError f.message))) := by
  cases f <;> rfl

/-- The run of `readDXF` on arguments that parse and name an existing file. -/
theorem readDXF_eq (env : Env) (args : List PyObj) (a : ReadDxfArgs)
    (hp : parseReadDxfArgs args = some a) (hex : env.fileExists a.Name = true) :
    readDXF env args =
      match env.DoRead a.Name a.IgnoreErrors with
      | .ok _ =>
        ⟨readTargetTrace env a.DocName ++
            (readCalls a (readTargetOf env a.DocName) ++
              [.recompute (readTargetOf env a.DocName)]), .ok .none⟩
      | .error f =>
        ⟨readTargetTrace env a.DocName ++ readCalls a (readTargetOf env a.DocName),
          .error (.Py_Exception (.PyExc_RuntimeError f.message))⟩ := by
  unfold readDXF
  simp only [hp]
  rw [Run.whenever_false _ (by rw [hex]; exact Bool.noConfusion), Run.pure_bind, readTarget_eq]
  have hfile := fun opts =>
    readDxfFile_eq env a.Name opts a.IgnoreErrors (readTargetOf env a.DocName)
  unfold readCalls readOptionSource
  cases h : env.DoRead a.Name a.IgnoreErrors with
  | ok u =>
    simp only [h] at hfile
    simp only [Run.bind_eq, Run.bind, hfile, Run.tryCatch, List.append_nil]
    all_goals (cases a.optionSource <;> rfl)
  | error f =>
    simp only [h] at hfile
    simp only [Run.bind_eq, Run.bind, hfile, Run.tryCatch, readDxfCatch_fault, Run.raise,
      List.append_nil]

/-- The run of `readDXF` on arguments that parse and name a file that does not
exist: no call is made. -/
theorem readDXF_missing_file (env : Env) (args : List PyObj) (a : ReadDxfArgs)
    (hp : parseReadDxfArgs args = some a) (hex : env.fileExists a.Name = false) :
    readDXF env args = ⟨[], .error (.Py_Exception (.PyExc_RuntimeError "File doesn't exist"))⟩ := by
  unfold readDXF
  simp only [hp]
  rw [Run.whenever_true _ hex]
  rfl

theorem readDXF_not_fault (env : Env) (args : List PyObj) (f : Fault) :
    (readDXF env args).result ≠ .error (.fault f) := by
  cases hp : parseReadDxfArgs args with
  | none =>
    unfold readDXF
    simp only [hp]
    intro h
    exact Thrown.noConfusion (Except.error.inj h)
  | some a =>
    cases hex : env.fileExists a.Name with
    | false =>
      rw [readDXF_missing_file env args a hp hex]
      intro h
      exact Thrown.noConfusion (Except.error.inj h)
    | true =>
      rw [readDXF_eq env args a hp hex]
      cases env.DoRead a.Name a.IgnoreErrors with
      | ok u => intro h; exact Except.noConfusion h
      | error f' => intro h; exact Thrown.noConfusion (Except.error.inj h)

/-! ## Kernel exceptions at the module boundary -/

/-- The sample environment in which loading the shapes throws a kernel failure. -/
def loadFailsEnv : Env :=
  { sampleEnv with
    loadShapes := fun _ _ => .error (.Standard_Failure "TDF_Label: null label") }

/-- The sample environment in which the DXF reader throws a kernel failure. -/
def dxfReadFailsEnv : Env :=
  { sampleEnv with DoRead := fun _ _ => .error (.Standard_Failure "Geom_BSplineCurve: bad poles") }

/-- The sample environment in which the DXF writer throws a kernel failure while
exporting a shape. -/
def dxfExportFailsEnv : Env :=
  { sampleEnv with exportShape := fun _ => .error (.Standard_Failure "BRepAdaptor_Curve: no curve") }

theorem atBoundary_not_fault (t : Thrown) (f : Fault) : atBoundary t ≠ .fault f := by
  cases t with
  | Py_Exception e => exact Thrown.noConfusion
  | fault f' => cases f' <;> exact Thrown.noConfusion

theorem importer_not_fault (env : Env) (a : ImporterArgs) (f : Fault) :
    (importer env a).result ≠ .error (.fault f) := by
  cases hr : (importerBody env a).result with
  | ok v => rw [importer_result_ok env a v hr]; exact Except.noConfusion
  | error t =>
    rw [importer_result_error env a t hr]
    intro h
    exact atBoundary_not_fault t f (Except.error.inj h)

theorem exporter_not_fault (env : Env) (a : ExporterArgs) (f : Fault) :
    (exporter env a).result ≠ .error (.fault f) := by
  cases hr : (exporterBody env a).result with
  | ok v => rw [exporter_result_ok env a hr]; exact Except.noConfusion
  | error t =>
    rw [exporter_result_error env a t hr]
    intro h
    exact atBoundary_not_fault t f (Except.error.inj h)

/-- C14 (counterexample): a `Standard_Failure` thrown by the DXF reader during
`readDXF("a.dxf")` reaches the caller as a `RuntimeError`, not as an
`FC_GeneralError`; one thrown while `writeDXFShape` or `writeDXFObject` exports a
shape is caught by no handler of the function and leaves it as the C++ exception
it is. -/
theorem kernel_failure_in_dxf_not_general_error :
    ((readDXF dxfReadFailsEnv [.str "a.dxf"]).result =
        .error (.Py_Exception (.PyExc_RuntimeError "Geom_BSplineCurve: bad poles")) ∧
      (readDXF dxfReadFailsEnv [.str "a.dxf"]).result ≠
        .error (.Py_Exception (.PyExc_FC_GeneralError "Geom_BSplineCurve: bad poles"))) ∧
    ((writeDXFShape dxfExportFailsEnv [.shape 4, .str "a.dxf"]).result =
        .error (.fault (.Standard_Failure "BRepAdaptor_Curve: no curve")) ∧
      (writeDXFShape dxfExportFailsEnv [.shape 4, .str "a.dxf"]).result ≠
        .error (.Py_Exception (.PyExc_FC_GeneralError "BRepAdaptor_Curve: no curve"))) ∧
    ((writeDXFObject dxfExportFailsEnv [.list [.docObject 3], .str "a.dxf"]).result =
        .error (.fault (.Standard_Failure "BRepAdaptor_Curve: no curve")) ∧
      (writeDXFObject dxfExportFailsEnv [.list [.docObject 3], .str "a.dxf"]).result ≠
        .error (.Py_Exception (.PyExc_FC_GeneralError "BRepAdaptor_Curve: no curve"))) :=
  ⟨⟨rfl, fun h => PyErr.noConfusion (Thrown.Py_Exception.inj (Except.error.inj h))⟩,
    ⟨rfl, fun h => Thrown.noConfusion (Except.error.inj h)⟩,
    ⟨rfl, fun h => Thrown.noConfusion (Except.error.inj h)⟩⟩

/-- C14 (amended): in `open`, `insert` and `export` a kernel exception
(`Standard_Failure`, or its subclass `OSD_Exception`) that leaves the body of the
function is caught by the closing handlers and re-raised as `FC_GeneralError` with
the kernel's message text; in `readDXF` a kernel exception thrown by the reader is
caught and re-raised as a `RuntimeError` with the kernel's message text; none of
the three lets a C++ exception of a collaborator reach the caller. -/
theorem kernel_failure_at_boundary (env : Env) (msg : String) :
    (∀ a, ((importerBody env a).result = .error (.fault (.Standard_Failure msg)) ∨
        (importerBody env a).result = .error (.fault (.OSD_Exception msg))) →
      (importer env a).result = .error (.Py_Exception (.PyExc_FC_GeneralError msg))) ∧
    (∀ a, ((exporterBody env a).result = .error (.fault (.Standard_Failure msg)) ∨
        (exporterBody env a).result = .error (.fault (.OSD_Exception msg))) →
      (exporter env a).result = .error (.Py_Exception (.PyExc_FC_GeneralError msg))) ∧
    (∀ args a, parseReadDxfArgs args = some a → env.fileExists a.Name = true →
      (env.DoRead a.Name a.IgnoreErrors = .error (.Standard_Failure msg) ∨
        env.DoRead a.Name a.IgnoreErrors = .error (.OSD_Exception msg)) →
      (readDXF env args).result = .error (.Py_Exception (.PyExc_RuntimeError msg))) ∧
    (∀ a f, (importer env a).result ≠ .error (.fault f)) ∧
    (∀ a f, (exporter env a).result ≠ .error (.fault f)) ∧
    (∀ args f, (readDXF env args).result ≠ .error (.fault f)) := by
  refine ⟨fun a h => ?_, fun a h => ?_, fun args a hp hex h => ?_,
    importer_not_fault env, exporter_not_fault env, readDXF_not_fault env⟩
  · rcases h with h | h
    · exact importer_result_error env a _ h
    · exact importer_result_error env a _ h
  · rcases h with h | h
    · exact exporter_result_error env a _ h
    · exact exporter_result_error env a _ h
  · rw [readDXF_eq env args a hp hex]
    rcases h with h | h <;> rw [h] <;> rfl

/-- C14 (amended) at concrete inputs: a kernel failure while loading the shapes of
`open("part.step")` and one while exporting the objects of `export([], "out.step")`
arrive as `FC_GeneralError`; one during `readDXF("a.dxf")` arrives as
`RuntimeError`. -/
theorem kernel_failure_at_boundary_witness :
    (importer loadFailsEnv { Name := "part.step" }).result =
        .error (.Py_Exception (.PyExc_FC_GeneralError "TDF_Label: null label")) ∧
      (exporter exportFailsEnv { object := .list [], Name := "out.step" }).result =
        .error (.Py_Exception (.PyExc_FC_GeneralError "BRep_API: command not done")) ∧
      (readDXF dxfReadFailsEnv [.str "a.dxf"]).result =
        .error (.Py_Exception (.PyExc_RuntimeError "Geom_BSplineCurve: bad poles")) :=
  ⟨(kernel_failure_at_boundary loadFailsEnv "TDF_Label: null label").1
      { Name := "part.step" } (Or.inl rfl),
    (kernel_failure_at_boundary exportFailsEnv "BRep_API: command not done").2.1
      { object := .list [], Name := "out.step" } (Or.inl rfl),
    (kernel_failure_at_boundary dxfReadFailsEnv "Geom_BSplineCurve: bad poles").2.2.1
      [.str "a.dxf"] { Name := "a.dxf" } rfl rfl (Or.inl rfl)⟩

/-! ## The ignore-errors flag of `readDXF` -/

theorem readTargetTrace_no_read (env : Env) (DocName : Option String) :
    (∀ b, Event.DoRead b ∉ readTargetTrace env DocName) ∧
      (∀ d, Event.recompute d ∉ readTargetTrace env DocName) := by
  unfold readTargetTrace
  cases DocName with
  | some name => cases h : env.getDocument name <;> simp [h]
  | none => cases h : env.getActiveDocument <;> simp [h]

theorem readCalls_count (a : ReadDxfArgs) (pcDoc : DocPtr) (b : Bool) :
    (readCalls a pcDoc).count (.DoRead b) = if b = a.IgnoreErrors then 1 else 0 := by
  unfold readCalls
  by_cases h : b = a.IgnoreErrors
  · subst h
    simp [List.count_cons]
  · simp [List.count_cons, h, Ne.symm h]

/-- Where the flag of a successful parse comes from: the third argument read as
the unit `b`, and `true` when there is none. -/
theorem parseReadDxfArgs_flag (args : List PyObj) (a : ReadDxfArgs)
    (h : parseReadDxfArgs args = some a) :
    (args.length ≤ 2 → a.IgnoreErrors = true) ∧
      (∀ x, args.get? 2 = some x → parseFlag x = some a.IgnoreErrors) := by
  match args, h with
  | [], h => simp [parseReadDxfArgs] at h
  | [f], h =>
    unfold parseReadDxfArgs at h
    cases hf : parseStr f with
    | none => simp [hf] at h
    | some Name =>
      simp only [hf, Option.some.injEq] at h
      subst h
      simp
  | [f, d], h =>
    unfold parseReadDxfArgs at h
    cases hf : parseStr f <;> cases hd : parseStr d <;> simp only [hf, hd] at h <;>
      first
        | exact Option.noConfusion h
        | (simp only [Option.some.injEq] at h; subst h; simp)
  | [f, d, i], h =>
    unfold parseReadDxfArgs at h
    cases hf : parseStr f <;> cases hd : parseStr d <;> cases hi : parseFlag i <;>
      simp only [hf, hd, hi] at h <;>
      first
        | exact Option.noConfusion h
        | (simp only [Option.some.injEq] at h; subst h; simp [hi])
  | [f, d, i, src], h =>
    unfold parseReadDxfArgs at h
    cases hf : parseStr f <;> cases hd : parseStr d <;> cases hi : parseFlag i <;>
      cases hs : parseStr src <;> simp only [hf, hd, hi, hs] at h <;>
      first
        | exact Option.noConfusion h
        | (simp only [Option.some.injEq] at h; subst h; simp [hi])
  | _ :: _ :: _ :: _ :: _ :: _, h => simp [parseReadDxfArgs] at h

/-- The sample environment in which no file exists. -/
def missingFileEnv : Env := { sampleEnv with fileExists := fun _ => false }

/-- C16 (counterexample): `readDXF("a.dxf")` for a file that does not exist runs no
reader and recomputes nothing: it makes no call at all and raises a
`RuntimeError`; and when the reader throws, the read is followed by no
recompute. -/
theorem readDXF_without_read_or_recompute :
    ((readDXF missingFileEnv [.str "a.dxf"]).trace = [] ∧
      (readDXF missingFileEnv [.str "a.dxf"]).result =
        .error (.Py_Exception (.PyExc_RuntimeError "File doesn't exist"))) ∧
    ((readDXF dxfReadFailsEnv [.str "a.dxf"]).trace =
        [.getActiveDocument, .newDocumentNamed none, .ImpExpDxfRead_new "a.dxf" 1,
          .setOptionSource "User parameter:BaseApp/Preferences/Mod/Draft", .setOptions,
          .DoRead true] ∧
      (readDXF dxfReadFailsEnv [.str "a.dxf"]).result =
        .error (.Py_Exception (.PyExc_RuntimeError "Geom_BSplineCurve: bad poles"))) :=
  ⟨⟨by decide, rfl⟩, ⟨by decide, rfl⟩⟩

/-- C16 (amended): when the arguments of a `readDXF` call do not parse, no call is
made and the parse error is raised.  When they parse and the file exists, the
reader's `DoRead` is called exactly once, with the flag the parse left in
`IgnoreErrors` (the caller's third argument read as the unit `b`, `true` when
there is none); when `DoRead` returns, it is directly followed by the recompute of
the target document, which is the last call, and the call returns `None`; when
`DoRead` throws, no recompute is made and the call raises a `RuntimeError` with
the exception's message.  When they parse and the file does not exist no call is
made and the call raises a `RuntimeError`. -/
theorem readDXF_ignore_errors_flag (env : Env) (args : List PyObj) :
    (parseReadDxfArgs args = none →
      (readDXF env args).trace = [] ∧
      (readDXF env args).result = .error (.Py_Exception .parseError)) ∧
    (∀ a, parseReadDxfArgs args = some a →
      ((args.length ≤ 2 → a.IgnoreErrors = true) ∧
        (∀ x, args.get? 2 = some x → parseFlag x = some a.IgnoreErrors)) ∧
      (env.fileExists a.Name = true →
        (∀ b, (readDXF env args).trace.count (.DoRead b) =
          if b = a.IgnoreErrors then 1 else 0) ∧
        (env.DoRead a.Name a.IgnoreErrors = .ok () →
          (∃ pre, (readDXF env args).trace =
            pre ++ [.DoRead a.IgnoreErrors, .recompute (readTargetOf env a.DocName)]) ∧
          (readDXF env args).result = .ok .none) ∧
        (∀ f, env.DoRead a.Name a.IgnoreErrors = .error f →
          (∀ d, Event.recompute d ∉ (readDXF env args).trace) ∧
          (readDXF env args).result =
            .error (.Py_Exception (.PyExc_RuntimeError f.message)))) ∧
      (env.fileExists a.Name = false →
        (readDXF env args).trace = [] ∧
        (readDXF env args).result =
          .error (.Py_Exception (.PyExc_RuntimeError "File doesn't exist")))) := by
  refine ⟨fun hp => ?_, fun a hp => ?_⟩
  · unfold readDXF
    simp only [hp]
    exact ⟨rfl, rfl⟩
  refine ⟨parseReadDxfArgs_flag args a hp, fun hex => ⟨fun b => ?_, fun hok => ?_, fun f hf => ?_⟩,
    fun hex => ?_⟩
  · rw [readDXF_eq env args a hp hex]
    have h0 : (readTargetTrace env a.DocName).count (.DoRead b) = 0 :=
      List.count_eq_zero.mpr ((readTargetTrace_no_read env a.DocName).1 b)
    cases env.DoRead a.Name a.IgnoreErrors with
    | ok u =>
      simp only [List.count_append, h0, readCalls_count, zero_add]
      simp [List.count_cons]
    | error f => simp only [List.count_append, h0, readCalls_count, zero_add]
  · rw [readDXF_eq env args a hp hex, hok]
    refine ⟨⟨readTargetTrace env a.DocName ++
      [.ImpExpDxfRead_new a.Name (readTargetOf env a.DocName),
        .setOptionSource (readOptionSource a), .setOptions], ?_⟩, rfl⟩
    simp [readCalls]
  · rw [readDXF_eq env args a hp hex, hf]
    refine ⟨fun d hm => ?_, rfl⟩
    rcases List.mem_append.mp hm with h | h
    · exact (readTargetTrace_no_read env a.DocName).2 d h
    · simp [readCalls] at h
  · rw [readDXF_missing_file env args a hp hex]
    exact ⟨rfl, rfl⟩

/-- C16 (amended) at concrete inputs: with the flag omitted the reader runs once
with `true`, with the flag given as 0 it runs once with `false`, and the recompute
of the target document follows the read; a number in the place of the document
name and a path with an embedded null character do not parse, so no call is made
and the parse error is raised. -/
theorem readDXF_ignore_errors_flag_witness :
    (readDXF sampleEnv [.str "a.dxf"]).trace.count (.DoRead true) = 1 ∧
      (readDXF sampleEnv [.str "a.dxf", .str "Doc", .int 0]).trace.count (.DoRead false) = 1 ∧
      ((∃ pre, (readDXF sampleEnv [.str "a.dxf", .str "Doc", .int 0]).trace =
          pre ++ [.DoRead false, .recompute 1]) ∧
        (readDXF sampleEnv [.str "a.dxf", .str "Doc", .int 0]).result = .ok .none) ∧
      ((readDXF sampleEnv [.str "a.dxf", .int 5]).trace = [] ∧
        (readDXF sampleEnv [.str "a.dxf", .int 5]).result =
          .error (.Py_Exception .parseError)) ∧
      ((readDXF sampleEnv [.str (String.mk ['a', Char.ofNat 0, 'b'])]).trace = [] ∧
        (readDXF sampleEnv [.str (String.mk ['a', Char.ofNat 0, 'b'])]).result =
          .error (.Py_Exception .parseError)) :=
  ⟨(((readDXF_ignore_errors_flag sampleEnv [.str "a.dxf"]).2 { Name := "a.dxf" } rfl).2.1
      rfl).1 true,
    (((readDXF_ignore_errors_flag sampleEnv [.str "a.dxf", .str "Doc", .int 0]).2
      { Name := "a.dxf", DocName := some "Doc", IgnoreErrors := false } rfl).2.1 rfl).1 false,
    (((readDXF_ignore_errors_flag sampleEnv [.str "a.dxf", .str "Doc", .int 0]).2
      { Name := "a.dxf", DocName := some "Doc", IgnoreErrors := false } rfl).2.1 rfl).2.1 rfl,
    (readDXF_ignore_errors_flag sampleEnv [.str "a.dxf", .int 5]).1 rfl,
    (readDXF_ignore_errors_flag sampleEnv [.str (String.mk ['a', Char.ofNat 0, 'b'])]).1 rfl⟩

/-! ## The glTF branch of `export` -/

/-- The run of the glTF writer on a kernel that has it. -/
theorem writeGltf_cases (env : Env) (Utf8Name name8bit : String) (hDoc : DocHandle)
    (hv : 0x070500 ≤ env.OCC_VERSION_HEX) :
    writeGltf env Utf8Name name8bit hDoc =
      match env.gltfPerform name8bit (FileInfo.hasExtension Utf8Name ["glb"]) with
      | .error f =>
        ⟨[.GltfWriter_new name8bit (FileInfo.hasExtension Utf8Name ["glb"]),
            .GltfWriter_Configure (decide (env.OCC_VERSION_HEX ≥ 0x070700)),
            .GltfWriter_Perform hDoc none], .error (.fault f)⟩
      | .ok ret =>
        ⟨[.GltfWriter_new name8bit (FileInfo.hasExtension Utf8Name ["glb"]),
            .GltfWriter_Configure (decide (env.OCC_VERSION_HEX ≥ 0x070700)),
            .GltfWriter_Perform hDoc (some ret)],
          if ret = false then
            .error (.Py_Exception (.PyExc_IOError (cannotSaveToFile Utf8Name)))
          else .ok ()⟩ := by
  unfold writeGltf
  rw [if_pos hv]
  cases hw : env.gltfPerform name8bit (FileInfo.hasExtension Utf8Name ["glb"]) with
  | error f => simp [Run.bind_eq, Run.bind, emit, call, hw, Except.toOption]
  | ok ret =>
    cases ret <;>
      simp [Run.bind_eq, Run.bind, emit, call, hw, Except.toOption, whenever, raise, pure]

/-- The sample environment built against a kernel older than OCCT 7.5.0 whose
full-featured exporter throws a kernel failure. -/
def oldKernelExportFailsEnv : Env :=
  { oldKernelEnv with
    exportObjects := fun _ => .error (.Standard_Failure "BRep_API: command not done") }

/-- The sample environment whose glTF writer reports failure. -/
def gltfFailsEnv : Env := { sampleEnv with gltfPerform := fun _ _ => .ok false }

/-- C15 (counterexample): `export([], "out.glb")` on a kernel older than OCCT 7.5.0
whose export of the objects throws a kernel failure raises the `FC_GeneralError`
of that failure, not the `RuntimeError` of the missing glTF support. -/
theorem gltf_old_kernel_other_error :
    (exporter oldKernelExportFailsEnv { object := .list [], Name := "out.glb" }).result =
        .error (.Py_Exception (.PyExc_FC_GeneralError "BRep_API: command not done")) ∧
      (exporter oldKernelExportFailsEnv { object := .list [], Name := "out.glb" }).result ≠
        .error (.Py_Exception
          (.PyExc_RuntimeError "gITF support requires OCCT 7.5.0 or later")) :=
  ⟨rfl, fun h => PyErr.noConfusion (Thrown.Py_Exception.inj (Except.error.inj h))⟩

/-- C15 (amended): for an `export` call to a `glb` or `gltf` path (compared
case-insensitively).  On a kernel older than OCCT 7.5.0 no glTF writer call is
made, and when the export of the objects completes the call raises the
`RuntimeError`.  On OCCT 7.5.0 or later every glTF writer that is constructed is
given the encoded path and is binary exactly when the extension is `glb`; when
the export of the objects completes the writer is constructed and `Perform` is
run; the call raises the `IOError` naming the path exactly when `Perform` returns
false, and returns `None` when `Perform` returns true. -/
theorem exporter_gltf_branch (env : Env) (a : ExporterArgs) (items : List PyObj)
    (hseq : asSequence a.object = some items)
    (hext : toLowerStr (FileInfo.extension a.Name) ∈ ["glb", "gltf"]) :
    (env.OCC_VERSION_HEX < 0x070500 →
      (∀ e ∈ (exporter env a).trace, e.isGltfWrite = false) ∧
      ((exportPhase env a items).result = .ok () →
        (exporter env a).result = .error (.Py_Exception
          (.PyExc_RuntimeError "gITF support requires OCCT 7.5.0 or later")))) ∧
    (0x070500 ≤ env.OCC_VERSION_HEX →
      (∀ n b, Event.GltfWriter_new n b ∈ (exporter env a).trace →
        n = env.encodeFilename a.Name ∧
          (b = true ↔ toLowerStr (FileInfo.extension a.Name) = "glb")) ∧
      ((exportPhase env a items).result = .ok () →
        Event.GltfWriter_new (env.encodeFilename a.Name)
            (FileInfo.hasExtension a.Name ["glb"]) ∈ (exporter env a).trace ∧
          ∃ ret, Event.GltfWriter_Perform env.newHandle ret ∈ (exporter env a).trace) ∧
      ((exporter env a).result =
          .error (.Py_Exception (.PyExc_IOError ("Cannot save to file '" ++ a.Name ++ "'"))) ↔
        Event.GltfWriter_Perform env.newHandle (some false) ∈ (exporter env a).trace) ∧
      (Event.GltfWriter_Perform env.newHandle (some true) ∈ (exporter env a).trace →
        (exporter env a).result = .ok .none)) := by
  have hiff := exporter_writer_call_iff env a items hseq
  have hdis := list_ext_cases (toLowerStr (FileInfo.extension a.Name))
  have hW := writePhase_gltf env a (hdis.2.2 hext).1 (hdis.2.2 hext).2 hext
  have hglb : FileInfo.hasExtension a.Name ["glb"] = true ↔
      toLowerStr (FileInfo.extension a.Name) = "glb" := by
    rw [FileInfo.hasExtension_glb, List.mem_singleton]
  refine ⟨fun hv => ⟨fun e he => ?_, fun hE => ?_⟩, fun hv => ?_⟩
  · cases hs : e.isGltfWrite with
    | false => rfl
    | true =>
      have hw : e.isWriterCall = true := by simp [Event.isWriterCall, hs]
      have hm := ((hiff e hw).mp he).2
      rw [hW, writeGltf_old_kernel env _ _ _ hv] at hm
      exact absurd hm (List.not_mem_nil _)
  · have hb := exporterBody_result_of_write env a items hseq hE
    rw [hW, writeGltf_old_kernel env _ _ _ hv] at hb
    exact exporter_result_error env a _ hb
  · rw [writeGltf_cases env _ _ _ hv] at hW
    cases hE : (exportPhase env a items).result with
    | error t =>
      obtain ⟨f, hres⟩ := exporter_result_of_export_error env a items hseq t hE
      have hno : ∀ e, e.isWriterCall = true → e ∉ (exporter env a).trace := by
        intro e hw hm
        have := ((hiff e hw).mp hm).1
        rw [hE] at this
        exact Except.noConfusion this
      refine ⟨fun n b hm => absurd hm (hno _ rfl), fun h => Except.noConfusion h,
        ⟨fun h => ?_, fun hm => absurd hm (hno _ rfl)⟩, fun hm => absurd hm (hno _ rfl)⟩
      rw [hres] at h
      exact absurd (Except.error.inj h) (atBoundary_fault_ne_ioError f _)
    | ok u =>
      have hres := exporter_result_of_write env a items hseq hE
      cases hw : env.gltfPerform (env.encodeFilename a.Name)
          (FileInfo.hasExtension a.Name ["glb"]) with
      | error f =>
        simp only [hw] at hW
        simp only [hiff _ (rfl : (Event.GltfWriter_new _ _).isWriterCall = true),
          hiff _ (rfl : (Event.GltfWriter_Perform _ _).isWriterCall = true), hW, hres, hE,
          true_and]
        refine ⟨fun n b hm => ?_, fun _ => ⟨?_, none, ?_⟩, ?_, ?_⟩
        · simp only [List.mem_cons, List.mem_singleton, List.not_mem_nil, or_false,
            Event.GltfWriter_new.injEq, reduceCtorEq] at hm
          exact ⟨hm.1, by rw [hm.2]; exact hglb⟩
        · simp
        · simp
        · simp [atBoundary_fault_ne_ioError]
        · simp
      | ok ret =>
        simp only [hw] at hW
        simp only [hiff _ (rfl : (Event.GltfWriter_new _ _).isWriterCall = true),
          hiff _ (rfl : (Event.GltfWriter_Perform _ _).isWriterCall = true), hW, hres, hE,
          true_and]
        refine ⟨fun n b hm => ?_, fun _ => ⟨?_, some ret, ?_⟩, ?_, ?_⟩
        · simp only [List.mem_cons, List.mem_singleton, List.not_mem_nil, or_false,
            Event.GltfWriter_new.injEq, reduceCtorEq] at hm
          exact ⟨hm.1, by rw [hm.2]; exact hglb⟩
        · simp
        · simp
        · cases ret <;> simp [atBoundary, cannotSaveToFile]
        · cases ret <;> simp

/-- C15 (amended) at concrete inputs: on the old kernel `export([], "out.gltf")`
raises the `RuntimeError` without a glTF writer call; on a kernel with glTF
support `export([], "OUT.GLB")` constructs a binary writer, and a `Perform` that
returns false raises the `IOError`. -/
theorem exporter_gltf_branch_witness :
    ((∀ e ∈ (exporter oldKernelEnv { object := .list [], Name := "out.gltf" }).trace,
        e.isGltfWrite = false) ∧
      (exporter oldKernelEnv { object := .list [], Name := "out.gltf" }).result =
        .error (.Py_Exception
          (.PyExc_RuntimeError "gITF support requires OCCT 7.5.0 or later"))) ∧
    Event.GltfWriter_new "OUT.GLB" (FileInfo.hasExtension "OUT.GLB" ["glb"]) ∈
      (exporter sampleEnv { object := .list [], Name := "OUT.GLB" }).trace ∧
    (exporter gltfFailsEnv { object := .list [], Name := "out.glb" }).result =
      .error (.Py_Exception (.PyExc_IOError ("Cannot save to file '" ++ "out.glb" ++ "'"))) :=
  ⟨⟨((exporter_gltf_branch oldKernelEnv { object := .list [], Name := "out.gltf" } [] rfl
        (by decide)).1 (by decide)).1,
      ((exporter_gltf_branch oldKernelEnv { object := .list [], Name := "out.gltf" } [] rfl
        (by decide)).1 (by decide)).2 rfl⟩,
    (((exporter_gltf_branch sampleEnv { object := .list [], Name := "OUT.GLB" } [] rfl
        (by decide)).2 (by decide)).2.1 rfl).1,
    (((exporter_gltf_branch gltfFailsEnv { object := .list [], Name := "out.glb" } [] rfl
        (by decide)).2 (by decide)).2.2.1).mpr (by decide)⟩

end Import
